import Mathlib

/-! artoolkitX planar tracker: a shallow embedding of `PlanarTracker.cpp`.

The tracker of `Source/ARX/OCVT/PlanarTracker.cpp` is embedded as pure functions on an
explicit state record `PlanarTrackerImpl`.

Conventions of the embedding:

* `int` values are `Int`; where the 32-bit range matters the arithmetic is taken modulo `2^32`
  (the halving and the loop counter of `CalcPyrDownScaleFactor`), and the `size_t` comparison in
  `MatchFeatures` modulo `2^64`;
* `float`/`double` values are the rationals they stand for, except in the three computations
  whose result depends on rounding or on the non-finite values (`CalcPyrDownScaleFactor`,
  `FloorVertexPoints` and the template pyramid level of `ProcessFrame`), which compute on
  `FloatValue` with round-to-nearest-even, overflow to infinity and NaN;
* everything computed by OpenCV or by classes whose source is not part of the translated files
  (feature detector, matcher, homography solver, optical flow, selectors, pose solver) is a field
  of the record `Collaborators`: the tracker code is translated, its collaborators are parameters;
* the functions that the claims observe being called return, next to the new state, the list of
  `Event`s (calls made) in program order.
-/

namespace PlanarTracker

/-! ## Value types -/

/-- Model of `cv::Point2f`. -/
structure Point2f where
  x : ℚ
  y : ℚ
deriving DecidableEq

/-- Model of `cv::Point3f`. -/
structure Point3f where
  x : ℚ
  y : ℚ
  z : ℚ
deriving DecidableEq

/-- Model of `cv::KeyPoint`; only the location is used by the tracker. -/
structure KeyPoint where
  pt : Point2f
deriving DecidableEq

instance : Inhabited Point2f := ⟨⟨0, 0⟩⟩

instance : Inhabited KeyPoint := ⟨⟨default⟩⟩

/-- Model of `cv::DMatch`. -/
structure DMatch where
  queryIdx : Nat
  trainIdx : Nat
  distance : ℚ
deriving DecidableEq

/-- One element of the k-nearest-neighbour result: `matches[j][0]` and `matches[j][1]`. -/
abbrev KnnMatch := DMatch × DMatch

/-- Model of a `cv::Mat` of doubles, row-major (the empty list is the empty matrix). -/
abbrev Mat := List (List ℚ)

/-- Model of an 8-bit single-channel `cv::Mat`. -/
structure Image where
  cols : Int
  rows : Int
  /-- The pixel buffer; `none` is the null data pointer. -/
  data : Option (List Nat)
deriving DecidableEq

/-- Model of `cv::Mat::empty()`: no data or no elements. -/
def Image.empty (img : Image) : Bool :=
  img.data.isNone || decide (img.rows * img.cols = 0)

instance : Inhabited Image := ⟨⟨0, 0, none⟩⟩

/-- Model of a feature mask: the filled contours drawn into it, in integer pixel coordinates. -/
abbrev FeatureMask := List (List (Int × Int))

/-- Model of `HomographyInfo`, the result of `GetHomographyInliers`. -/
structure HomographyInfo where
  validHomography : Bool
  homography : Mat
  status : List Nat
deriving DecidableEq

/-! ## Floating-point values

The functions whose results depend on the rounding or on the special values of `float`
(`CalcPyrDownScaleFactor`, `FloorVertexPoints`, the template pyramid level of `ProcessFrame`)
compute on `FloatValue`; everywhere else a `float` is the rational it stands for. -/

/-- A value of an IEEE 754 binary floating-point type: a finite value, an infinity or NaN. The
two zeros are one value. A `float` is a `FloatValue` that `roundToFloat` leaves unchanged. -/
inductive FloatValue where
  | finite (q : ℚ)
  | inf (negative : Bool)
  | nan
deriving DecidableEq

instance : Inhabited FloatValue := ⟨FloatValue.finite 0⟩

/-- The power `2 ^ e` of two with an integer exponent. -/
def pow2 (e : Int) : ℚ :=
  if 0 ≤ e then ((2 ^ e.toNat : Nat) : ℚ) else 1 / ((2 ^ (-e).toNat : Nat) : ℚ)

/-- Binary logarithm of a natural number by repeated halving, at most `f` times. -/
def log2Aux : Nat → Nat → Nat
  | 0, _ => 0
  | f + 1, n => if 2 ≤ n then log2Aux f (n / 2) + 1 else 0

/-- The binary logarithm `⌊log₂ n⌋` of a positive natural number. -/
def natLog2 (n : Nat) : Nat := log2Aux n n

/-- The binary exponent `⌊log₂ q⌋` of a positive rational. -/
def floorLog2 (q : ℚ) : Int :=
  let e : Int := (natLog2 q.num.natAbs : Int) - (natLog2 q.den : Int)
  if pow2 e ≤ q then e else e - 1

/-- Rounding to the nearest integer, ties to the even one. -/
def roundHalfEven (t : ℚ) : Int :=
  let f := Rat.floor t
  if t - f < 1 / 2 then f
  else if 1 / 2 < t - f then f + 1
  else if f % 2 = 0 then f else f + 1

/-- The exponent of the unit in the last place of the `float`s around `q`: 24 significant bits,
and `2 ^ (-149)` in the subnormal range. -/
def ulpExponent (q : ℚ) : Int := max (floorLog2 |q| - 23) (-149)

/-- Rounding of a rational to the nearest multiple of the unit in the last place, ties to even:
the nearest `float` when that is finite. -/
def roundToGrid (q : ℚ) : ℚ :=
  if q = 0 then 0 else (roundHalfEven (q / pow2 (ulpExponent q)) : ℚ) * pow2 (ulpExponent q)

/-- Rounding of a rational to `float` (round to nearest, ties to even): a result of magnitude
`2 ^ 128` or more overflows to the infinity of the sign of `q`. -/
def roundToFloat (q : ℚ) : FloatValue :=
  if |roundToGrid q| < pow2 128 then FloatValue.finite (roundToGrid q)
  else FloatValue.inf (decide (q < 0))

namespace FloatValue

/-- The value of a finite float as a rational; the infinities and NaN, which have none, are
taken as 0. -/
def toRat : FloatValue → ℚ
  | finite q => q
  | _ => 0

/-- Division of two `float` values; a zero divisor counts as `+0`. -/
def div : FloatValue → FloatValue → FloatValue
  | nan, _ => nan
  | _, nan => nan
  | inf _, inf _ => nan
  | inf s, finite b => inf (xor s (decide (b < 0)))
  | finite _, inf _ => finite 0
  | finite a, finite b =>
    if b = 0 then (if a = 0 then nan else inf (decide (a < 0))) else roundToFloat (a / b)

end FloatValue

/-- The value of an `int` expression whose mathematical value is `n`, in 32-bit two's complement
arithmetic. -/
def wrapInt32 (n : Int) : Int := (n + 2 ^ 31) % 2 ^ 32 - 2 ^ 31

/-- The conversion `(float)n` of an `int`. -/
def intToFloat (n : Int) : FloatValue := roundToFloat (n : ℚ)

/-- The constant `std::numeric_limits<float>::max()`, `(2 - 2^-23) * 2^127`. -/
def FLT_MAX : ℚ := (2 ^ 24 - 1) * 2 ^ 104

/-- A `cv::Point2f` as `FloorVertexPoints` computes on it: a pair of `float` values, which may be
infinite or NaN. -/
structure FloatPoint where
  x : FloatValue
  y : FloatValue
deriving DecidableEq

namespace FloatValue

/-- Whether a value is a finite one, of magnitude at most `FLT_MAX` as those of `float` are. -/
def isFinite : FloatValue → Bool
  | finite q => decide (|q| ≤ FLT_MAX)
  | _ => false

/-- Subtraction of two `float` values. -/
def sub : FloatValue → FloatValue → FloatValue
  | nan, _ => nan
  | _, nan => nan
  | inf s, inf t => if s = t then nan else inf s
  | inf s, finite _ => inf s
  | finite _, inf t => inf (!t)
  | finite a, finite b => roundToFloat (a - b)

/-- The comparison `a < b` of two `float` values, false when one of them is NaN. -/
def lt : FloatValue → FloatValue → Bool
  | nan, _ => false
  | _, nan => false
  | inf s, inf t => s && !t
  | inf s, finite _ => s
  | finite _, inf t => !t
  | finite a, finite b => decide (a < b)

end FloatValue

/-- Conversion of a `float` to `int` (truncation towards zero). -/
def truncToInt (q : ℚ) : Int := Int.tdiv q.num q.den

/-- The conversion `(float)d` of a `double`. -/
def doubleToFloat : FloatValue → FloatValue
  | FloatValue.finite q => roundToFloat q
  | v => v

/-- Integer square root by bits: the greatest `r'` from `r` on, below `r + 2 ^ b`, whose square
is at most `n`. -/
def sqrtAux : Nat → Nat → Nat → Nat
  | 0, r, _ => r
  | b + 1, r, n =>
    if (r + 2 ^ b) * (r + 2 ^ b) ≤ n then sqrtAux b (r + 2 ^ b) n else sqrtAux b r n

/-- The integer square root `⌊√n⌋`. -/
def natSqrt (n : Nat) : Nat := sqrtAux (natLog2 n / 2 + 1) 0 n

/-- The integer nearest to the square root of a non-negative rational, ties to the even one. -/
def roundSqrt (s : ℚ) : Int :=
  let m : Int := (natSqrt (Rat.floor s).toNat : Int)
  if s < ((m : ℚ) + 1 / 2) * ((m : ℚ) + 1 / 2) then m
  else if ((m : ℚ) + 1 / 2) * ((m : ℚ) + 1 / 2) < s then m + 1
  else if m % 2 = 0 then m else m + 1

/-- The square root of a positive rational, rounded to the nearest multiple of the unit in the
last place of the `float`s around it, ties to even. -/
def sqrtToGrid (q : ℚ) : ℚ :=
  (roundSqrt (q / pow2 (2 * max (floorLog2 q / 2 - 23) (-149))) : ℚ)
    * pow2 (max (floorLog2 q / 2 - 23) (-149))

/-- The function `sqrtf` (correctly rounded, as IEEE 754 requires): NaN for a negative
argument. -/
def sqrtf : FloatValue → FloatValue
  | FloatValue.nan => FloatValue.nan
  | FloatValue.inf true => FloatValue.nan
  | FloatValue.inf false => FloatValue.inf false
  | FloatValue.finite q =>
    if q < 0 then FloatValue.nan
    else if q = 0 then FloatValue.finite 0
    else if sqrtToGrid q < pow2 128 then FloatValue.finite (sqrtToGrid q)
    else FloatValue.inf false

/-- Calls that change a `TrackingPointSelector`. -/
inductive SelectorCall where
  | ResetSelection
  | GetInitialFeatures
  | UpdatePointStatus (status : List Nat)
deriving DecidableEq

/-- Model of `TrackingPointSelector`: its constructor arguments and the mutating calls made on it
so far, most recent last. What a selector returns is a function of this record, supplied by
`Collaborators`. -/
structure TrackingPointSelector where
  pts : List Point2f
  width : Int
  height : Int
  markerTemplateWidth : Int
  trackableWidth : Int
  trackableHeight : Int
  calls : List SelectorCall
deriving DecidableEq

instance : Inhabited TrackingPointSelector := ⟨⟨[], 0, 0, 0, 0, 0, []⟩⟩

/-- Model of `TrackableInfo`; `_image`, `_cornerPoints` and `_trackSelection` hold one entry per
template pyramid level. -/
structure TrackableInfo where
  _id : Int
  _scale : ℚ
  _fileName : String
  _image : List Image
  _featurePoints : List KeyPoint
  _descriptors : Mat
  _cornerPoints : List (List Point2f)
  _width : Int
  _height : Int
  _bBox : List Point2f
  _bBoxTransformed : List Point2f
  _homography : Mat
  _pose : Mat
  _isTracking : Bool
  _isDetected : Bool
  _resetTracks : Bool
  _templatePyrLevel : Int
  _trackSelection : List TrackingPointSelector
deriving DecidableEq

instance : Inhabited TrackableInfo :=
  ⟨⟨0, 0, "", [], [], [], [], 0, 0, [], [], [], [], false, false, false, 0, []⟩⟩

/-! ## Configuration (`OCVConfig.h`) -/

/-- Maximum number of levels in the optical flow image pyramid. -/
def k_OCVTOpticalFlowMaxPyrLevel : Int := 3

/-- Maximum number of levels in the template matching image pyramid. -/
def k_OCVTTemplateMatchingMaxPyrLevel : Int := 2

/-- Modelled from the spec: the constant `nn_match_ratio` is declared in `OCVConfig.h` and defined
in a file that is not among the translated ones; the spec gives the default 0.7. -/
def nn_match_ratio : ℚ := 7 / 10

/-- Modelled from the spec: the constant `markerTemplateWidth` is declared in `OCVConfig.h` and
defined elsewhere; the spec gives the default 15 pixels. -/
def markerTemplateWidth : Int := 15

/-- Modelled from the spec: `defaultDetectorType` is declared in `OCVConfig.h` and defined
elsewhere; the spec has the tracker default to the blob variant, numbered 0. -/
def defaultDetectorType : Int := 0

/-- Modelled from the spec: the initial value of the global `minRequiredDetectedFeatures`, declared
in `OCVConfig.h` and defined elsewhere; the spec gives the default 50. -/
def minRequiredDetectedFeaturesDefault : Int := 50

/-- Modelled from the spec: the initial value of the global `ransac_thresh`, declared in
`OCVConfig.h` and defined elsewhere; the spec gives the default 2.5 pixels. -/
def ransac_threshDefault : ℚ := 5 / 2

/-! ## Collaborators -/

/-- The code the tracker calls but does not define: OpenCV, `OCVFeatureDetector`,
`HarrisDetector`, `TrackingPointSelector`, `GetHomographyInliers`. Each field is the result of the
named call as a function of the arguments the tracker passes. -/
structure Collaborators where
  /-- `cv::buildOpticalFlowPyramid(frame, _pyramid, winSize, k_OCVTOpticalFlowMaxPyrLevel)`. -/
  buildOpticalFlowPyramid : Image → List Image
  /-- `cv::pyrDown`. -/
  pyrDown : Image → Image
  /-- `OCVFeatureDetector::DetectFeatures(image, mask)`; `none` is the empty mask. -/
  DetectFeatures : Image → Option FeatureMask → List KeyPoint
  /-- `OCVFeatureDetector::CalcDescriptors`. -/
  CalcDescriptors : Image → List KeyPoint → Mat
  /-- `OCVFeatureDetector::MatchFeatures(queryDescriptors, trainDescriptors)`. -/
  MatchFeatures : Mat → Mat → List KnnMatch
  /-- `GetHomographyInliers(pts1, pts2)`. -/
  GetHomographyInliers : List Point2f → List Point2f → HomographyInfo
  /-- `cv::perspectiveTransform(src, dst, m)`. -/
  perspectiveTransform : List Point2f → Mat → List Point2f
  /-- `cv::determinant(h)`, a `double`. -/
  determinant : Mat → FloatValue
  /-- The C library function `log2f` on a positive finite argument. -/
  log2fFinite : ℚ → FloatValue
  /-- The conversion `(int)f` of a `float` that is NaN, infinite or whose integral part is not an
  `int`: the behaviour is undefined in C++, the value is what the platform gives. -/
  invalidFloatToInt : FloatValue → Int
  /-- The two outputs `nextPts`, `status` of `cv::calcOpticalFlowPyrLK(prev, next, prevPts, ...)`. -/
  calcOpticalFlowPyrLK : List Image → List Image → List Point2f → List Point2f × List Nat
  /-- `HarrisDetector::FindCorners`. -/
  FindCorners : Image → List Point2f
  /-- `TrackingPointSelector::GetInitialFeatures`, as a function of the selector before the call. -/
  GetInitialFeatures : TrackingPointSelector → List Point2f
  /-- `TrackingPointSelector::GetTrackedFeatures`. -/
  GetTrackedFeatures : TrackingPointSelector → List Point2f
  /-- `TrackingPointSelector::GetTrackedFeaturesWarped`. -/
  GetTrackedFeaturesWarped : TrackingPointSelector → Mat → List Point2f
  /-- `TrackingPointSelector::GetTrackedFeatures3d`. -/
  GetTrackedFeatures3d : TrackingPointSelector → List Point3f
  /-- The vectors `finalTemplatePoints`, `finalTemplateMatchPoints` that the per-point loop of
  `RunTemplateMatching` (which consists of OpenCV calls) leaves for the given frame and trackable. -/
  templateMatchPoints : Image → TrackableInfo → List Point2f × List Point2f
  /-- The pose `cv::solvePnPRansac`, `Rodrigues` and `hconcat` produce in `CameraPoseFromPoints`. -/
  solvePose : Mat → List ℚ → List Point3f → List Point2f → Mat

namespace Collaborators

/-- The function `log2f`: NaN for NaN and for a negative argument, `-∞` at 0, `+∞` at `+∞`,
and the value of the C library on a positive finite argument. -/
def log2f (cv : Collaborators) : FloatValue → FloatValue
  | FloatValue.nan => FloatValue.nan
  | FloatValue.inf true => FloatValue.nan
  | FloatValue.inf false => FloatValue.inf false
  | FloatValue.finite q =>
    if q < 0 then FloatValue.nan
    else if q = 0 then FloatValue.inf true
    else cv.log2fFinite q

/-- The conversion `(int)f` of a `float`: the integral part when that is an `int`. -/
def floatToInt (cv : Collaborators) : FloatValue → Int
  | FloatValue.finite q =>
    if -(2 ^ 31) - 1 < q ∧ q < 2 ^ 31 then truncToInt q
    else cv.invalidFloatToInt (FloatValue.finite q)
  | v => cv.invalidFloatToInt v

/-- The value of `(int)log2f(1.0f / sqrtf((float)cv::determinant(h)))`. -/
def templatePyrLevelOf (cv : Collaborators) (h : Mat) : Int :=
  cv.floatToInt
    (cv.log2f (FloatValue.div (FloatValue.finite 1) (sqrtf (doubleToFloat (cv.determinant h)))))

end Collaborators

/-! ## Tracker state -/

/-- Model of `ARParam`, as far as `Initialise` reads it. -/
structure ARParam where
  xsize : Int
  ysize : Int
  mat : List (List ℚ)
  dist_factor : List ℚ
  dist_function_version : Int

/-- The state of `PlanarTrackerImpl`, together with the two process-wide tunables of `OCVConfig`
that the public interface can change. -/
structure PlanarTrackerImpl where
  _maxNumberOfMarkersToTrack : Int
  _pyramid : List Image
  _prevPyramid : List Image
  _trackables : List TrackableInfo
  _currentlyTrackedMarkers : Int
  _resetCount : Int
  _frameCount : Int
  _frameSizeX : Int
  _frameSizeY : Int
  _featureDetectPyrLevel : Int
  _featureDetectScaleFactor : ℚ × ℚ
  _K : Mat
  _distortionCoeff : List ℚ
  _selectedFeatureDetectorType : Int
  _trackVizActive : Bool
  minRequiredDetectedFeatures : Int
  ransac_thresh : ℚ

/-- Calls observed during `ProcessFrame`, in program order. -/
inductive Event where
  /-- `_featureDetector.CalcDescriptors` on the detection frame. -/
  | CalcDescriptors
  /-- `MatchFeatures` entered. -/
  | MatchFeatures
  /-- `GetHomographyInliers` called from `MatchFeatures` for the trackable `bestMatchIndex`, with
  the number `maxMatches` of its matches that passed the ratio test. -/
  | FitHomography (bestMatchIndex : Int) (maxMatches : Int)
  /-- `RunOpticalFlow(trackableId, ...)` called, with its return value. -/
  | RunOpticalFlow (trackableId : Nat) (result : Bool)
  /-- `RunTemplateMatching(frame, trackableId)` called, with its return value. -/
  | RunTemplateMatching (trackableId : Nat) (result : Bool)
deriving DecidableEq

/-- One record of the trackable database file: the values stored under the nine keys that carry
the same index. -/
structure StoredTrackable where
  trackableId : Int
  trackableFileName : String
  trackableScale : ℚ
  trackableImage : Image
  trackableWidth : Int
  trackableHeight : Int
  trackableDescriptors : Mat
  trackableFeaturePoints : List KeyPoint
  trackableCornerPoints : List Point2f

/-- Model of an opened `cv::FileStorage`: the two header keys and the indexed records. A record
that is `none` stands for an index at which reading or the processing that follows throws. -/
structure DatabaseFile where
  totalTrackables : Int
  featureType : Int
  trackables : Nat → Option StoredTrackable

/-! ## The tracker (`PlanarTrackerImpl`) -/

namespace PlanarTrackerImpl

/-- The constructor `PlanarTrackerImpl()`, with the process-wide tunables at their defaults. -/
def new : PlanarTrackerImpl :=
  { _maxNumberOfMarkersToTrack := 1
    _pyramid := []
    _prevPyramid := []
    _trackables := []
    _currentlyTrackedMarkers := 0
    _resetCount := 30
    _frameCount := 0
    _frameSizeX := 0
    _frameSizeY := 0
    _featureDetectPyrLevel := 0
    _featureDetectScaleFactor := (1, 1)
    _K := []
    _distortionCoeff := []
    _selectedFeatureDetectorType := defaultDetectorType
    _trackVizActive := false
    minRequiredDetectedFeatures := minRequiredDetectedFeaturesDefault
    ransac_thresh := ransac_threshDefault }

/-- The value that `xScaled = (xScaled + 1) / 2` assigns in `int` arithmetic: the increment
wraps around at `INT_MAX` and the division truncates towards zero. -/
def halveInt32 (xScaled : Int) : Int := Int.tdiv (wrapInt32 (xScaled + 1)) 2

/-- The loop `for (int i = 1; i <= pyrLevel; i++)` of `CalcPyrDownScaleFactor` from the counter
value `i` and the running values `xScaled`, `yScaled`, `ret`, followed for at most `fuel`
iterations: `none` when the loop has not ended by then. The counter is incremented in `int`
arithmetic and the quotients are `float` divisions of the converted `int`s. -/
def CalcPyrDownScaleFactorLoop (pyrLevel x y : Int) :
    Nat → Int → Int → Int → FloatValue × FloatValue → Option (FloatValue × FloatValue)
  | 0, _, _, _, _ => none
  | fuel + 1, i, xScaled, yScaled, ret =>
    if i ≤ pyrLevel then
      let xScaled1 := halveInt32 xScaled
      let yScaled1 := halveInt32 yScaled
      CalcPyrDownScaleFactorLoop pyrLevel x y fuel (wrapInt32 (i + 1)) xScaled1 yScaled1
        (FloatValue.div (intToFloat x) (intToFloat xScaled1),
          FloatValue.div (intToFloat y) (intToFloat yScaled1))
    else some ret

/-- `CalcPyrDownScaleFactor(pyrLevel, x, y)`; `none` when the call does not return. The loop is
followed for `2 ^ 31` iterations, more than it makes whenever it ends. -/
def CalcPyrDownScaleFactor (pyrLevel x y : Int) : Option (FloatValue × FloatValue) :=
  CalcPyrDownScaleFactorLoop pyrLevel x y (2 ^ 31) 1 x y (FloatValue.finite 1, FloatValue.finite 1)

/-- `Initialise(cParam)`. The argument `pyrLevel` is the value that the floating-point expression
`std::min(std::floor(log2(xsize) - xmin_log2), std::floor(log2(ysize) - ymin_log2))` has after
its conversion to `int`. The state keeps the scale factor as the pair of rationals its
components stand for; when `CalcPyrDownScaleFactor` does not return (`pyrLevel = INT_MAX`),
neither does `Initialise`, and the embedding leaves the scale factor as it was. -/
def Initialise (s : PlanarTrackerImpl) (cParam : ARParam) (pyrLevel : Int) : PlanarTrackerImpl :=
  let entry (i j : Nat) : ℚ := (cParam.mat.getD i []).getD j 0
  { s with
    _frameSizeX := cParam.xsize
    _frameSizeY := cParam.ysize
    _featureDetectPyrLevel := pyrLevel
    _featureDetectScaleFactor :=
      match CalcPyrDownScaleFactor pyrLevel cParam.xsize cParam.ysize with
      | some f => (f.1.toRat, f.2.toRat)
      | none => s._featureDetectScaleFactor
    _K := (List.range 3).map (fun i => (List.range 3).map (fun j => entry i j))
    _distortionCoeff :=
      if cParam.dist_function_version = 5 then
        (List.range 12).map (fun i => cParam.dist_factor.getD i 0)
      else if cParam.dist_function_version = 4 then
        (List.range 4).map (fun i => cParam.dist_factor.getD i 0) ++ [0]
      else s._distortionCoeff
    _pyramid := []
    _prevPyramid := []
    _currentlyTrackedMarkers := 0 }

/-- `CreateFeatureMask(frame)`: `none` is the empty mask the function returns when no trackable is
detected; otherwise the contours filled with 0, one per detected trackable. The mask has the size
of `frame`, which `DetectFeatures` receives next to the mask, so `frame` is not an argument
here. -/
def CreateFeatureMask (s : PlanarTrackerImpl) : Option FeatureMask :=
  let contours := (s._trackables.filter (fun t => t._isDetected)).map (fun t =>
    (List.range 4).map (fun j =>
      let p := t._bBoxTransformed.getD j default
      (truncToInt (p.x / s._featureDetectScaleFactor.1),
        truncToInt (p.y / s._featureDetectScaleFactor.2))))
  if contours.isEmpty then none else some contours

/-- Apply `f` to `_trackables[index]`. -/
def modifyTrackable (s : PlanarTrackerImpl) (index : Nat) (f : TrackableInfo → TrackableInfo) :
    PlanarTrackerImpl :=
  { s with _trackables := s._trackables.modify f index }

/-- `UpdateTrackableBBox(index, homography)`; the copy into the visualisation record is left out. -/
def UpdateTrackableBBox (cv : Collaborators) (s : PlanarTrackerImpl) (index : Nat)
    (homography : Mat) : PlanarTrackerImpl :=
  modifyTrackable s index (fun t =>
    { t with _bBoxTransformed := cv.perspectiveTransform t._bBox homography })

/-- `TrackingPointSelector::ResetSelection` on a selector. -/
def ResetSelection (sel : TrackingPointSelector) : TrackingPointSelector :=
  { sel with calls := sel.calls ++ [SelectorCall.ResetSelection] }

/-- `ResetAllTrackingPointSelectorsForTrackable(trackableIndex)`. -/
def ResetAllTrackingPointSelectorsForTrackable (s : PlanarTrackerImpl) (trackableIndex : Nat) :
    PlanarTrackerImpl :=
  modifyTrackable s trackableIndex (fun t =>
    { t with _trackSelection := t._trackSelection.map ResetSelection })

/-- Conversion of an `int` to `size_t`, as the comparison `matches.size() >
minRequiredDetectedFeatures` performs it on its right operand. -/
def toSizeT (n : Int) : Nat := (n % 2 ^ 64).toNat

/-- The ratio test of `MatchFeatures` on one k-nearest-neighbour pair. -/
def ratioTest (m : KnnMatch) : Bool :=
  decide (m.1.distance < nn_match_ratio * m.2.distance)

/-- The local variables of `MatchFeatures` that its loop over the trackables updates. -/
structure MatchState where
  maxMatches : Int
  bestMatchIndex : Int
  finalMatched1 : List KeyPoint
  finalMatched2 : List KeyPoint

/-- The number `totalGoodMatches` the inner loop of `MatchFeatures` counts for a list of matches. -/
def totalGoodMatches (mtch : List KnnMatch) : Int :=
  ((mtch.filter ratioTest).length : Int)

/-- One iteration of the loop over the trackables in `MatchFeatures`, for the trackable `t` at
index `i`. -/
def MatchFeaturesStep (cv : Collaborators) (minRequiredDetectedFeatures : Int)
    (newFrameFeatures : List KeyPoint) (newFrameDescriptors : Mat)
    (st : MatchState) (i : Nat) (t : TrackableInfo) : MatchState :=
  if !t._isDetected then
    let mtch := cv.MatchFeatures newFrameDescriptors t._descriptors
    if mtch.length > toSizeT minRequiredDetectedFeatures then
      let good := mtch.filter ratioTest
      let matched1 := good.map (fun m => newFrameFeatures.getD m.1.queryIdx default)
      let matched2 := good.map (fun m => t._featurePoints.getD m.1.trainIdx default)
      if totalGoodMatches mtch > st.maxMatches then
        { maxMatches := totalGoodMatches mtch
          bestMatchIndex := (i : Int)
          finalMatched1 := matched1
          finalMatched2 := matched2 }
      else st
    else st
  else st

/-- The loop over the trackables in `MatchFeatures`, from index `i` on. -/
def MatchFeaturesLoop (cv : Collaborators) (minRequiredDetectedFeatures : Int)
    (newFrameFeatures : List KeyPoint) (newFrameDescriptors : Mat) :
    List TrackableInfo → Nat → MatchState → MatchState
  | [], _, st => st
  | t :: ts, i, st =>
    MatchFeaturesLoop cv minRequiredDetectedFeatures newFrameFeatures newFrameDescriptors ts (i + 1)
      (MatchFeaturesStep cv minRequiredDetectedFeatures newFrameFeatures newFrameDescriptors st i t)

/-- Whether the loop of `MatchFeatures` looks at the matches of the trackable `t`: it is not
detected and the matcher returns more than `minRequiredDetectedFeatures` matches for it (compared
as `size_t`). -/
def isCandidate (cv : Collaborators) (minRequiredDetectedFeatures : Int) (newFrameDescriptors : Mat)
    (t : TrackableInfo) : Bool :=
  !t._isDetected &&
    decide ((cv.MatchFeatures newFrameDescriptors t._descriptors).length
      > toSizeT minRequiredDetectedFeatures)

/-- The number of matches of the trackable `t` that pass the ratio test. -/
def goodMatchCount (cv : Collaborators) (newFrameDescriptors : Mat) (t : TrackableInfo) : Int :=
  totalGoodMatches (cv.MatchFeatures newFrameDescriptors t._descriptors)

/-- The relation between the trackables `ts` the loop of `MatchFeatures` has gone through and
its locals `st`: either no candidate among `ts` has a match passing the ratio test and the locals
are at their initial values, or `bestMatchIndex` is the first candidate that has the greatest
number of passing matches and `maxMatches` is that number, which is positive. -/
def IsBestOf (cv : Collaborators) (minRequiredDetectedFeatures : Int) (newFrameDescriptors : Mat)
    (ts : List TrackableInfo) (st : MatchState) : Prop :=
  (st.maxMatches = 0 ∧ st.bestMatchIndex = -1 ∧
    ∀ (j : Nat) (t : TrackableInfo), ts[j]? = some t →
      isCandidate cv minRequiredDetectedFeatures newFrameDescriptors t = true →
      goodMatchCount cv newFrameDescriptors t = 0) ∨
  (∃ (b : Nat) (t : TrackableInfo), st.bestMatchIndex = (b : Int) ∧ ts[b]? = some t ∧
    isCandidate cv minRequiredDetectedFeatures newFrameDescriptors t = true ∧
    goodMatchCount cv newFrameDescriptors t = st.maxMatches ∧ 0 < st.maxMatches ∧
    ∀ (j : Nat) (t' : TrackableInfo), ts[j]? = some t' →
      isCandidate cv minRequiredDetectedFeatures newFrameDescriptors t' = true →
      goodMatchCount cv newFrameDescriptors t' ≤ st.maxMatches ∧
      (goodMatchCount cv newFrameDescriptors t' = st.maxMatches → b ≤ j))

/-- The state of the locals when the loop over the trackables in `MatchFeatures` has ended. -/
def MatchFeaturesBest (cv : Collaborators) (s : PlanarTrackerImpl)
    (newFrameFeatures : List KeyPoint) (newFrameDescriptors : Mat) : MatchState :=
  MatchFeaturesLoop cv s.minRequiredDetectedFeatures newFrameFeatures newFrameDescriptors
    s._trackables 0 ⟨0, -1, [], []⟩

/-- `Points(keypoints)`. -/
def Points (kps : List KeyPoint) : List Point2f := kps.map (fun k => k.pt)

/-- `MatchFeatures(newFrameFeatures, newFrameDescriptors)`. -/
def MatchFeatures (cv : Collaborators) (s : PlanarTrackerImpl)
    (newFrameFeatures : List KeyPoint) (newFrameDescriptors : Mat) :
    PlanarTrackerImpl × List Event :=
  let st := MatchFeaturesBest cv s newFrameFeatures newFrameDescriptors
  if st.maxMatches > 0 then
    let finalMatched1 := st.finalMatched1.map (fun k =>
      ({ pt := ⟨k.pt.x * s._featureDetectScaleFactor.1, k.pt.y * s._featureDetectScaleFactor.2⟩ }
        : KeyPoint))
    let homoInfo := cv.GetHomographyInliers (Points st.finalMatched2) (Points finalMatched1)
    if homoInfo.validHomography then
      let b := st.bestMatchIndex.toNat
      let s1 := modifyTrackable s b (fun t => { t with _isDetected := true, _resetTracks := true })
      let s2 := ResetAllTrackingPointSelectorsForTrackable s1 b
      let s3 := modifyTrackable s2 b (fun t => { t with _homography := homoInfo.homography })
      let s4 := UpdateTrackableBBox cv s3 b homoInfo.homography
      ({ s4 with _currentlyTrackedMarkers := s4._currentlyTrackedMarkers + 1 },
        [Event.FitHomography st.bestMatchIndex st.maxMatches])
    else (s, [Event.FitHomography st.bestMatchIndex st.maxMatches])
  else (s, [])

/-- `TrackingPointSelector::UpdatePointStatus(status)` on a selector. -/
def UpdatePointStatus (sel : TrackingPointSelector) (status : List Nat) : TrackingPointSelector :=
  { sel with calls := sel.calls ++ [SelectorCall.UpdatePointStatus status] }

/-- `UpdateTrackableHomography(trackableId, matchedPoints1, matchedPoints2)`. -/
def UpdateTrackableHomography (cv : Collaborators) (s : PlanarTrackerImpl) (trackableId : Nat)
    (matchedPoints1 matchedPoints2 : List Point2f) : Bool × PlanarTrackerImpl :=
  if matchedPoints1.length > 4 then
    let homoInfo := cv.GetHomographyInliers matchedPoints1 matchedPoints2
    if homoInfo.validHomography then
      let s1 := modifyTrackable s trackableId (fun t =>
        { t with _trackSelection :=
            (t._trackSelection.modify (fun sel => UpdatePointStatus sel homoInfo.status)
              t._templatePyrLevel.toNat) })
      let s2 := modifyTrackable s1 trackableId (fun t =>
        { t with _homography := homoInfo.homography })
      let s3 := UpdateTrackableBBox cv s2 trackableId homoInfo.homography
      let s4 := if s3._frameCount > 1 then
          ResetAllTrackingPointSelectorsForTrackable s3 trackableId
        else s3
      (true, s4)
    else (false, s)
  else (false, s)

/-- The filter of `RunOpticalFlow`: the indices below the number of flow results at which both
status flags are non-zero, in increasing order. -/
def flowSurvivors (n : Nat) (statusFirstPass statusSecondPass : List Nat) : List Nat :=
  (List.range n).filter (fun j =>
    !(statusFirstPass.getD j 0 == 0 || statusSecondPass.getD j 0 == 0))

/-- The vectors `filteredTrackablePoints`, `filteredTrackedPoints` that `RunOpticalFlow` builds
from the two optical flow passes and hands to `UpdateTrackableHomography`. -/
def flowFiltered (cv : Collaborators) (s : PlanarTrackerImpl)
    (trackablePoints trackablePointsWarped : List Point2f) : List Point2f × List Point2f :=
  let first := cv.calcOpticalFlowPyrLK s._prevPyramid s._pyramid trackablePointsWarped
  let flowResultPoints := first.1
  let statusFirstPass := first.2
  let second := cv.calcOpticalFlowPyrLK s._pyramid s._prevPyramid flowResultPoints
  let statusSecondPass := second.2
  let kept := flowSurvivors flowResultPoints.length statusFirstPass statusSecondPass
  (kept.map (fun j => trackablePoints.getD j default),
    kept.map (fun j => flowResultPoints.getD j default))

/-- `RunOpticalFlow(trackableId, trackablePoints, trackablePointsWarped)`. -/
def RunOpticalFlow (cv : Collaborators) (s : PlanarTrackerImpl) (trackableId : Nat)
    (trackablePoints trackablePointsWarped : List Point2f) : Bool × PlanarTrackerImpl :=
  let filtered := flowFiltered cv s trackablePoints trackablePointsWarped
  let r := UpdateTrackableHomography cv s trackableId filtered.1 filtered.2
  if !r.1 then
    let s1 := modifyTrackable r.2 trackableId (fun t =>
      { t with _isDetected := false, _isTracking := false })
    (false, { s1 with _currentlyTrackedMarkers := s1._currentlyTrackedMarkers - 1 })
  else
    (true, modifyTrackable r.2 trackableId (fun t => { t with _isTracking := true }))

/-- `RunTemplateMatching(frame, trackableId)`; the per-point loop, made of OpenCV calls, is
`Collaborators.templateMatchPoints`. -/
def RunTemplateMatching (cv : Collaborators) (s : PlanarTrackerImpl) (frame : Image)
    (trackableId : Nat) : Bool × PlanarTrackerImpl :=
  let pts := cv.templateMatchPoints frame (s._trackables.getD trackableId default)
  let finalTemplatePoints := pts.1
  let finalTemplateMatchPoints := pts.2
  let r := UpdateTrackableHomography cv s trackableId finalTemplatePoints finalTemplateMatchPoints
  let gotHomography := r.1
  if !gotHomography then
    let s1 := modifyTrackable r.2 trackableId (fun t =>
      { t with _isTracking := false, _isDetected := false })
    (gotHomography, { s1 with _currentlyTrackedMarkers := s1._currentlyTrackedMarkers - 1 })
  else (gotHomography, r.2)

/-- The detection frame of `ProcessFrame`: `frame` itself when `_featureDetectPyrLevel < 1`,
otherwise `frame` after `_featureDetectPyrLevel` applications of `cv::pyrDown`. -/
def detectionFrame (cv : Collaborators) (s : PlanarTrackerImpl) (frame : Image) : Image :=
  if s._featureDetectPyrLevel < 1 then frame
  else Nat.iterate cv.pyrDown s._featureDetectPyrLevel.toNat frame

/-- The feature matching phase of `ProcessFrame` (the first `if` of its body). -/
def ProcessFrameDetect (cv : Collaborators) (s : PlanarTrackerImpl) (frame : Image) :
    PlanarTrackerImpl × List Event :=
  if s._currentlyTrackedMarkers < s._maxNumberOfMarkersToTrack then
    let featureMask := CreateFeatureMask s
    let newFrameFeatures := cv.DetectFeatures (detectionFrame cv s frame) featureMask
    if (newFrameFeatures.length : Int) > s.minRequiredDetectedFeatures then
      let newFrameDescriptors := cv.CalcDescriptors (detectionFrame cv s frame) newFrameFeatures
      let r := MatchFeatures cv s newFrameFeatures newFrameDescriptors
      (r.1, [Event.CalcDescriptors, Event.MatchFeatures] ++ r.2)
    else (s, [])
  else (s, [])

/-- The bounding of `templatePyrLevel` by the levels available. -/
def clampTemplatePyrLevel (templatePyrLevel : Int) : Int :=
  if templatePyrLevel < 0 then 0
  else if templatePyrLevel > k_OCVTTemplateMatchingMaxPyrLevel then
    k_OCVTTemplateMatchingMaxPyrLevel
  else templatePyrLevel

/-- `TrackingPointSelector::GetInitialFeatures` on a selector: the change it makes to it. -/
def GetInitialFeatures (sel : TrackingPointSelector) : TrackingPointSelector :=
  { sel with calls := sel.calls ++ [SelectorCall.GetInitialFeatures] }

/-- The body of the loop over the trackables in the tracking phase of `ProcessFrame`, for the
index `i`. -/
def ProcessFrameTrackStep (cv : Collaborators) (frame : Image) (s : PlanarTrackerImpl) (i : Nat) :
    PlanarTrackerImpl × List Event :=
  match s._trackables[i]? with
  | none => (s, [])
  | some t =>
    if t._isDetected then
      let templatePyrLevel := clampTemplatePyrLevel (cv.templatePyrLevelOf t._homography)
      let s1 := modifyTrackable s i (fun t => { t with _templatePyrLevel := templatePyrLevel })
      let sel := t._trackSelection.getD templatePyrLevel.toNat default
      let trackablePoints := cv.GetInitialFeatures sel
      let s2 := modifyTrackable s1 i (fun t =>
        { t with _trackSelection :=
            (t._trackSelection.modify GetInitialFeatures templatePyrLevel.toNat) })
      let trackablePointsWarped :=
        cv.GetTrackedFeaturesWarped (GetInitialFeatures sel) t._homography
      if s2._frameCount > 0 ∧ s2._prevPyramid.length > 0 then
        let r := RunOpticalFlow cv s2 i trackablePoints trackablePointsWarped
        if !r.1 then (r.2, [Event.RunOpticalFlow i false])
        else
          let r2 := RunTemplateMatching cv r.2 frame i
          (r2.2, [Event.RunOpticalFlow i true, Event.RunTemplateMatching i r2.1])
      else (s2, [])
    else (s, [])

/-- The loop over the trackables in the tracking phase of `ProcessFrame`, over the indices
`is` in turn. -/
def ProcessFrameTrackLoop (cv : Collaborators) (frame : Image) :
    List Nat → PlanarTrackerImpl → PlanarTrackerImpl × List Event
  | [], s => (s, [])
  | i :: is, s =>
    let r := ProcessFrameTrackStep cv frame s i
    let r2 := ProcessFrameTrackLoop cv frame is r.1
    (r2.1, r.2 ++ r2.2)

/-- The optical flow and template matching phase of `ProcessFrame` (the `if
(_currentlyTrackedMarkers > 0)` of its body). -/
def ProcessFrameTrack (cv : Collaborators) (s : PlanarTrackerImpl) (frame : Image) :
    PlanarTrackerImpl × List Event :=
  if s._currentlyTrackedMarkers > 0 then
    ProcessFrameTrackLoop cv frame (List.range s._trackables.length) s
  else (s, [])

/-- The pose update of `ProcessFrame` for one trackable. -/
def updatePose (cv : Collaborators) (s : PlanarTrackerImpl) (t : TrackableInfo) : TrackableInfo :=
  if t._isDetected || t._isTracking then
    let sel := t._trackSelection.getD t._templatePyrLevel.toNat default
    let imgPoints := cv.GetTrackedFeaturesWarped sel t._homography
    let objPoints := cv.GetTrackedFeatures3d sel
    { t with _pose := cv.solvePose s._K s._distortionCoeff objPoints imgPoints }
  else t

/-- The state and the calls made when `ProcessFrame(frame)` has built the pyramid and gone
through its feature matching phase. -/
def ProcessFrameDetected (cv : Collaborators) (s : PlanarTrackerImpl) (frame : Image) :
    PlanarTrackerImpl × List Event :=
  ProcessFrameDetect cv { s with _pyramid := cv.buildOpticalFlowPyramid frame } frame

/-- `ProcessFrame(frame)`, with the calls it made. -/
def ProcessFrame (cv : Collaborators) (s : PlanarTrackerImpl) (frame : Image) :
    PlanarTrackerImpl × List Event :=
  let d := ProcessFrameDetected cv s frame
  let k := ProcessFrameTrack cv d.1 frame
  let s3 := { k.1 with _trackables := k.1._trackables.map (updatePose cv k.1) }
  ({ s3 with
      _pyramid := s3._prevPyramid
      _prevPyramid := s3._pyramid
      _frameCount := s3._frameCount + 1 },
    d.2 ++ k.2)

/-- `ProcessFrameData(frame)`. -/
def ProcessFrameData (cv : Collaborators) (s : PlanarTrackerImpl) (frame : List Nat) :
    PlanarTrackerImpl × List Event :=
  ProcessFrame cv s { cols := s._frameSizeX, rows := s._frameSizeY, data := some frame }

/-- `RemoveAllMarkers()`. -/
def RemoveAllMarkers (s : PlanarTrackerImpl) : PlanarTrackerImpl :=
  { s with _trackables := [] }

/-- The `TrackingPointSelector` constructed for pyramid level image `img` of a trackable. -/
def newSelector (pts : List Point2f) (img : Image) (width height : Int) : TrackingPointSelector :=
  { pts := pts
    width := img.cols
    height := img.rows
    markerTemplateWidth := markerTemplateWidth
    trackableWidth := width
    trackableHeight := height
    calls := [] }

/-- The trackable `LoadTrackableDatabase` builds from one stored record. -/
def loadedTrackable (cv : Collaborators) (r : StoredTrackable) : TrackableInfo :=
  let image1 := cv.pyrDown r.trackableImage
  let image2 := cv.pyrDown image1
  let corners1 := cv.FindCorners image1
  let corners2 := cv.FindCorners image2
  { _id := r.trackableId
    _scale := r.trackableScale
    _fileName := r.trackableFileName
    _image := [r.trackableImage, image1, image2]
    _featurePoints := r.trackableFeaturePoints
    _descriptors := r.trackableDescriptors
    _cornerPoints := [r.trackableCornerPoints, corners1, corners2]
    _width := r.trackableWidth
    _height := r.trackableHeight
    _bBox := [⟨0, 0⟩, ⟨r.trackableWidth, 0⟩, ⟨r.trackableWidth, r.trackableHeight⟩,
      ⟨0, r.trackableHeight⟩]
    _bBoxTransformed := []
    _homography := []
    _pose := []
    _isTracking := false
    _isDetected := false
    _resetTracks := false
    _templatePyrLevel := 0
    _trackSelection :=
      [newSelector r.trackableCornerPoints r.trackableImage r.trackableWidth r.trackableHeight,
        newSelector corners1 image1 r.trackableWidth r.trackableHeight,
        newSelector corners2 image2 r.trackableWidth r.trackableHeight] }

/-- `SetFeatureDetector(detectorType)`. -/
def SetFeatureDetector (s : PlanarTrackerImpl) (detectorType : Int) : PlanarTrackerImpl :=
  { s with _selectedFeatureDetectorType := detectorType }

/-- The loop over the stored trackables in `LoadTrackableDatabase`: `n` further iterations from
index `i`. The result is `false` when an iteration throws. -/
def LoadTrackableDatabaseLoop (cv : Collaborators) (file : DatabaseFile) :
    Nat → Nat → PlanarTrackerImpl → Bool × PlanarTrackerImpl
  | 0, _, s => (true, s)
  | n + 1, i, s =>
    match file.trackables i with
    | none => (false, s)
    | some r =>
      LoadTrackableDatabaseLoop cv file n (i + 1)
        { s with _trackables := s._trackables ++ [loadedTrackable cv r] }

/-- `LoadTrackableDatabase(fileName)`; `file` is what opening `fileName` for reading gives,
`none` when it cannot be opened. -/
def LoadTrackableDatabase (cv : Collaborators) (s : PlanarTrackerImpl)
    (file : Option DatabaseFile) : Bool × PlanarTrackerImpl :=
  match file with
  | none => (false, s)
  | some f =>
    LoadTrackableDatabaseLoop cv f f.totalTrackables.toNat 0 (SetFeatureDetector s f.featureType)

/-- `AddMarker(buff, fileName, width, height, uid, scale)`; `buff` is `none` for a null buffer. -/
def AddMarker (cv : Collaborators) (s : PlanarTrackerImpl) (buff : Option (List Nat))
    (fileName : String) (width height uid : Int) (scale : ℚ) : PlanarTrackerImpl :=
  let image0 : Image := { cols := width, rows := height, data := buff }
  if !image0.empty then
    let featurePoints := cv.DetectFeatures image0 none
    let image1 := cv.pyrDown image0
    let image2 := cv.pyrDown image1
    let corners0 := cv.FindCorners image0
    let corners1 := cv.FindCorners image1
    let corners2 := cv.FindCorners image2
    let newTrackable : TrackableInfo :=
      { _id := uid
        _scale := scale
        _fileName := fileName
        _image := [image0, image1, image2]
        _featurePoints := featurePoints
        _descriptors := cv.CalcDescriptors image0 featurePoints
        _cornerPoints := [corners0, corners1, corners2]
        _width := image0.cols
        _height := image0.rows
        _bBox := [⟨0, 0⟩, ⟨image0.cols, 0⟩, ⟨image0.cols, image0.rows⟩, ⟨0, image0.rows⟩]
        _bBoxTransformed := []
        _homography := []
        _pose := []
        _isTracking := false
        _isDetected := false
        _resetTracks := false
        _templatePyrLevel := 0
        _trackSelection :=
          [newSelector corners0 image0 image0.cols image0.rows,
            newSelector corners1 image1 image0.cols image0.rows,
            newSelector corners2 image2 image0.cols image0.rows] }
    { s with _trackables := s._trackables ++ [newTrackable] }
  else s

/-- `ChangeImageId(prevId, newId)`. -/
def ChangeImageId (s : PlanarTrackerImpl) (prevId newId : Int) : Bool × PlanarTrackerImpl :=
  match s._trackables.findIdx? (fun e => e._id == prevId) with
  | some k => (true, modifyTrackable s k (fun t => { t with _id := newId }))
  | none => (false, s)

/-- `SetMaximumNumberOfMarkersToTrack(maximumNumberOfMarkersToTrack)`. -/
def SetMaximumNumberOfMarkersToTrack (s : PlanarTrackerImpl)
    (maximumNumberOfMarkersToTrack : Int) : PlanarTrackerImpl :=
  if s._maxNumberOfMarkersToTrack > 0 then
    { s with _maxNumberOfMarkersToTrack := maximumNumberOfMarkersToTrack }
  else s

/-- `PlanarTracker::SetMinRequiredDetectedFeatures(num)`. -/
def SetMinRequiredDetectedFeatures (s : PlanarTrackerImpl) (num : Int) : PlanarTrackerImpl :=
  { s with minRequiredDetectedFeatures := num }

/-- `PlanarTracker::SetHomographyEstimationRANSACThreshold(thresh)`. -/
def SetHomographyEstimationRANSACThreshold (s : PlanarTrackerImpl) (thresh : ℚ) :
    PlanarTrackerImpl :=
  { s with ransac_thresh := thresh }

/-- `PlanarTracker::SetTrackerVisualizationActive(active)`. -/
def SetTrackerVisualizationActive (s : PlanarTrackerImpl) (active : Bool) : PlanarTrackerImpl :=
  { s with _trackVizActive := active }

/-- `GetImageIds()`. -/
def GetImageIds (s : PlanarTrackerImpl) : List Int :=
  s._trackables.map (fun t => t._id)

/-- The record that `SaveTrackableDatabase` writes for one trackable: the nine values it stores
under the keys that carry the index of the trackable. -/
def storedTrackable (t : TrackableInfo) : StoredTrackable :=
  { trackableId := t._id
    trackableFileName := t._fileName
    trackableScale := t._scale
    trackableImage := t._image.getD 0 default
    trackableWidth := t._width
    trackableHeight := t._height
    trackableDescriptors := t._descriptors
    trackableFeaturePoints := t._featurePoints
    trackableCornerPoints := t._cornerPoints.getD 0 [] }

/-- `SaveTrackableDatabase(fileName)`; `opened` tells whether `fileName` can be opened for
writing. The result is the return value and the content of the file written: a key-value store
in which reading a key gives the value last written to it. The writes are taken not to throw. -/
def SaveTrackableDatabase (s : PlanarTrackerImpl) (opened : Bool) : Bool × Option DatabaseFile :=
  if opened then
    (true, some
      { totalTrackables := (s._trackables.length : Int)
        featureType := s._selectedFeatureDetectorType
        trackables := fun i => (s._trackables[i]?).map storedTrackable })
  else (false, none)

/-- `GetMaximumNumberOfMarkersToTrack()`. -/
def GetMaximumNumberOfMarkersToTrack (s : PlanarTrackerImpl) : Int :=
  s._maxNumberOfMarkersToTrack

/-- `GetTrackablePose(trackableId, transMat)`; `transMat` is `none` for a null pointer and
otherwise the content of the output buffer. The result is the return value and the buffer after
the call: when the pose is copied, its first `3*4` values in row-major order. -/
def GetTrackablePose (s : PlanarTrackerImpl) (trackableId : Int) (transMat : Option (List ℚ)) :
    Bool × Option (List ℚ) :=
  match transMat with
  | none => (false, none)
  | some buf =>
    match s._trackables.find? (fun e => e._id == trackableId) with
    | some t =>
      if t._isDetected || t._isTracking then (true, some (t._pose.flatten.take (3 * 4)))
      else (false, some buf)
    | none => (false, some buf)

/-- `IsTrackableVisible(trackableId)`. -/
def IsTrackableVisible (s : PlanarTrackerImpl) (trackableId : Int) : Bool :=
  match s._trackables.find? (fun e => e._id == trackableId) with
  | some t => t._isDetected || t._isTracking
  | none => false

/-- The first loop of `FloorVertexPoints`: the values of `minX` and `minY` when it ends. -/
def FloorVertexPointsMin (vertexPoints : List FloatPoint) : FloatValue × FloatValue :=
  vertexPoints.foldl
    (fun m p => (if p.x.lt m.1 then p.x else m.1, if p.y.lt m.2 then p.y else m.2))
    (FloatValue.finite FLT_MAX, FloatValue.finite FLT_MAX)

/-- `FloorVertexPoints(vertexPoints)`. -/
def FloorVertexPoints (vertexPoints : List FloatPoint) : List FloatPoint :=
  vertexPoints.map (fun p =>
    ⟨p.x.sub (FloorVertexPointsMin vertexPoints).1, p.y.sub (FloorVertexPointsMin vertexPoints).2⟩)

/-- The number of trackables whose `_isDetected` flag is set. -/
def detectedCount (s : PlanarTrackerImpl) : Nat :=
  s._trackables.countP (fun t => t._isDetected)

/-- Whether `_trackables[i]` exists and has `_isDetected` set. -/
def detectedAt (s : PlanarTrackerImpl) (i : Nat) : Bool :=
  ((s._trackables[i]?).map (fun t => t._isDetected)).getD false

/-- Whether `_trackables[i]` exists and has `_isTracking` set. -/
def trackingAt (s : PlanarTrackerImpl) (i : Nat) : Bool :=
  ((s._trackables[i]?).map (fun t => t._isTracking)).getD false

/-- The two flags `(_isDetected, _isTracking)` of every trackable, in order. -/
def flagsOf (s : PlanarTrackerImpl) : List (Bool × Bool) :=
  s._trackables.map (fun t => (t._isDetected, t._isTracking))

/-- The part of a trackable that is fixed when the trackable is created: the pyramid images,
the width and height, and the reference bounding box. -/
def shapeOf (t : TrackableInfo) : List Image × Int × Int × List Point2f :=
  (t._image, t._width, t._height, t._bBox)

/-- The state with the trackable list and the counter `_currentlyTrackedMarkers` blanked: what
the phases of `ProcessFrame` leave alone. -/
def frameOf (s : PlanarTrackerImpl) : PlanarTrackerImpl :=
  { s with _trackables := [], _currentlyTrackedMarkers := 0 }

end PlanarTrackerImpl

/-- The trackable indices for which a list of events records a failed `RunOpticalFlow` or a
failed `RunTemplateMatching`, in order. -/
def failures : List Event → List Nat
  | [] => []
  | Event.RunOpticalFlow i false :: es => i :: failures es
  | Event.RunTemplateMatching i false :: es => i :: failures es
  | _ :: es => failures es

/-- In a list of calls, `RunTemplateMatching` is recorded for exactly the trackable indices for
which a `RunOpticalFlow` that returned `true` is recorded. -/
def templateMatchingFollowsFlow (ev : List Event) : Prop :=
  ∀ j : Nat, (∃ r, Event.RunTemplateMatching j r ∈ ev) ↔ Event.RunOpticalFlow j true ∈ ev

/-! ## The public interface as a transition system -/

/-- A call of the public interface of `PlanarTracker` that can change the tracker, with the
results its collaborators give during the call. The queries (`GetTrackablePose`,
`IsTrackableVisible`, `GetImageIds`, `SaveTrackableDatabase`, the getters) change nothing and are
not listed. -/
inductive Call where
  | Initialise (cParam : ARParam) (pyrLevel : Int)
  | ProcessFrameData (cv : Collaborators) (frame : List Nat)
  | RemoveAllMarkers
  | AddMarker (cv : Collaborators) (buff : Option (List Nat)) (fileName : String)
      (width height uid : Int) (scale : ℚ)
  | LoadTrackableDatabase (cv : Collaborators) (file : Option DatabaseFile)
  | ChangeImageId (prevId newId : Int)
  | SetFeatureDetector (detectorType : Int)
  | SetMinRequiredDetectedFeatures (num : Int)
  | SetHomographyEstimationRANSACThreshold (thresh : ℚ)
  | SetMaximumNumberOfMarkersToTrack (maximumNumberOfMarkersToTrack : Int)
  | SetTrackerVisualizationActive (active : Bool)

/-- The state after a call. -/
def Call.apply (s : PlanarTrackerImpl) : Call → PlanarTrackerImpl
  | Call.Initialise cParam pyrLevel => s.Initialise cParam pyrLevel
  | Call.ProcessFrameData cv frame => (PlanarTrackerImpl.ProcessFrameData cv s frame).1
  | Call.RemoveAllMarkers => s.RemoveAllMarkers
  | Call.AddMarker cv buff fileName width height uid scale =>
    PlanarTrackerImpl.AddMarker cv s buff fileName width height uid scale
  | Call.LoadTrackableDatabase cv file => (PlanarTrackerImpl.LoadTrackableDatabase cv s file).2
  | Call.ChangeImageId prevId newId => (s.ChangeImageId prevId newId).2
  | Call.SetFeatureDetector detectorType => s.SetFeatureDetector detectorType
  | Call.SetMinRequiredDetectedFeatures num => s.SetMinRequiredDetectedFeatures num
  | Call.SetHomographyEstimationRANSACThreshold thresh =>
    s.SetHomographyEstimationRANSACThreshold thresh
  | Call.SetMaximumNumberOfMarkersToTrack n => s.SetMaximumNumberOfMarkersToTrack n
  | Call.SetTrackerVisualizationActive active => s.SetTrackerVisualizationActive active

/-- The state after a sequence of calls, made in order. -/
def runCalls (s : PlanarTrackerImpl) (calls : List Call) : PlanarTrackerImpl :=
  calls.foldl Call.apply s

/-- The states a tracker can be in: a newly constructed tracker, and every state that a call
admitted by `allowed` (a condition on the state before the call and the call) leads to. -/
inductive Reachable (allowed : PlanarTrackerImpl → Call → Prop) : PlanarTrackerImpl → Prop where
  | new : Reachable allowed PlanarTrackerImpl.new
  | call (s : PlanarTrackerImpl) (c : Call) :
      Reachable allowed s → allowed s c → Reachable allowed (c.apply s)

/-- Every call of the public interface is admitted. -/
def anyCall : PlanarTrackerImpl → Call → Prop := fun _ _ => True

/-- The calls that keep the counter and the cap in step with the detected trackables:
`Initialise` is admitted only while no trackable is detected, and
`SetMaximumNumberOfMarkersToTrack(n)` only with `n` at least `_currentlyTrackedMarkers`; every
other call is admitted. -/
def capRespected : PlanarTrackerImpl → Call → Prop
  | s, Call.Initialise _ _ => s.detectedCount = 0
  | s, Call.SetMaximumNumberOfMarkersToTrack n => s._currentlyTrackedMarkers ≤ n
  | _, _ => True

/-- The size one level up in an image pyramid, as the specification describes the halving:
`n ↦ (n+1)/2` with integer division. -/
def halvedSize (n : Int) : Int := (n + 1) / 2

/-- The calls `AddMarker`, `LoadTrackableDatabase` and `ChangeImageId` in which the caller keeps
the ids apart: `AddMarker` with an id no trackable has, `LoadTrackableDatabase` of a file whose
first `totalTrackables` records have ids that no trackable has and that differ from one another,
`ChangeImageId` to an id no trackable has. No other call is admitted. -/
def freshIds : PlanarTrackerImpl → Call → Prop
  | s, Call.AddMarker _ _ _ _ _ uid _ => uid ∉ s.GetImageIds
  | s, Call.LoadTrackableDatabase _ file =>
    ∀ f, file = some f → ∀ i j ri rj, i < f.totalTrackables.toNat → j < f.totalTrackables.toNat →
      f.trackables i = some ri → f.trackables j = some rj →
        ri.trackableId ∉ s.GetImageIds ∧ (i ≠ j → ri.trackableId ≠ rj.trackableId)
  | s, Call.ChangeImageId _ newId => newId ∉ s.GetImageIds
  | _, _ => False

/-- The size of the array `buffer` in `arwStartRunningJS`. -/
def bufferSize : Nat := 50

/-- The characters `sprintf(buffer, "-module=Web -width=%d -height=%d", width, height)` produces
in `arwStartRunningJS`; `%d` gives the decimal digits of the value, after a minus sign when it is
negative. -/
def configString (width height : Int) : String :=
  "-module=Web -width=" ++ toString width ++ " -height=" ++ toString height

/-- The number of bytes `sprintf` writes to `buffer` in `arwStartRunningJS`: the characters of
the string and the terminating NUL. -/
def bytesWritten (width height : Int) : Nat :=
  (configString width height).utf8ByteSize + 1

/-! ## Concrete inputs for the witnesses and counterexamples -/

namespace Examples

/-- A k-nearest-neighbour pair that passes the ratio test: `0 < 0.7 * 1`. -/
def goodMatch : KnnMatch := (⟨0, 0, 0⟩, ⟨0, 0, 1⟩)

/-- A k-nearest-neighbour pair that fails the ratio test: `1 < 0.7 * 1` is false. -/
def badMatch : KnnMatch := (⟨0, 0, 1⟩, ⟨0, 0, 1⟩)

/-- Five points, enough for `UpdateTrackableHomography` to call the solver. -/
def fivePoints : List Point2f := [⟨0, 0⟩, ⟨1, 0⟩, ⟨1, 1⟩, ⟨0, 1⟩, ⟨2, 2⟩]

/-- Collaborators that detect `nFeatures` features in every image, return the matches `mtch` for
every trackable, report the validity `valid` for every homography, find the corners `pts` in
every image, track every point by optical flow and match every template. Every homography has
the determinant 1, `log2f` returns the binary exponent of its argument, and the conversions to
`int` that C++ leaves undefined give `INT_MIN`. -/
def collaborators (nFeatures : Nat) (mtch : List KnnMatch) (valid : Bool)
    (pts : List Point2f) : Collaborators :=
  { buildOpticalFlowPyramid := fun f => [f]
    pyrDown := fun f => f
    DetectFeatures := fun _ _ => List.replicate nFeatures default
    CalcDescriptors := fun _ _ => []
    MatchFeatures := fun _ _ => mtch
    GetHomographyInliers := fun _ _ => ⟨valid, [], []⟩
    perspectiveTransform := fun p _ => p
    determinant := fun _ => FloatValue.finite 1
    log2fFinite := fun r => FloatValue.finite (floorLog2 r)
    invalidFloatToInt := fun _ => -2147483648
    calcOpticalFlowPyrLK := fun _ _ p => (p, p.map (fun _ => 1))
    FindCorners := fun _ => pts
    GetInitialFeatures := fun sel => sel.pts
    GetTrackedFeatures := fun sel => sel.pts
    GetTrackedFeaturesWarped := fun sel _ => sel.pts
    GetTrackedFeatures3d := fun _ => []
    templateMatchPoints := fun _ _ => (pts, pts)
    solvePose := fun _ _ _ _ => [] }

/-- Collaborators with which a trackable is detected and then tracked: 51 features, 51 matches that
all pass the ratio test, valid homographies, five corners. -/
def cvDetect : Collaborators := collaborators 51 (List.replicate 51 goodMatch) true fivePoints

/-- Collaborators that find no feature at all. -/
def cvQuiet : Collaborators := collaborators 0 [] false fivePoints

/-- Collaborators whose matcher returns 51 matches of which exactly one passes the ratio test. -/
def cvOneGood : Collaborators :=
  collaborators 51 (List.replicate 50 badMatch ++ [goodMatch]) true fivePoints

/-- Collaborators that detect exactly 50 features, the default `minRequiredDetectedFeatures`. -/
def cvFifty : Collaborators := collaborators 50 (List.replicate 51 goodMatch) true fivePoints

/-- The call `AddMarker` of a one-pixel image with id 7. -/
def addMarker : Call := Call.AddMarker cvDetect (some [0]) "a" 1 1 7 1

/-- A new tracker after one `AddMarker`. -/
def oneMarker : PlanarTrackerImpl := runCalls PlanarTrackerImpl.new [addMarker]

/-- A tracker with one marker that has processed one frame without detecting anything. -/
def oneMarkerSecondFrame : PlanarTrackerImpl :=
  runCalls PlanarTrackerImpl.new [addMarker, Call.ProcessFrameData cvQuiet [0]]

/-- A one-pixel frame. -/
def frame : Image := { cols := 1, rows := 1, data := some [0] }

/-- A tracker with one marker after one frame, in which the marker was detected. -/
def detected : PlanarTrackerImpl :=
  runCalls PlanarTrackerImpl.new [addMarker, Call.ProcessFrameData cvDetect [0]]

/-- Collaborators with which optical flow succeeds and template matching keeps no point. -/
def cvTemplateFail : Collaborators :=
  { cvDetect with templateMatchPoints := fun _ _ => ([], []) }

/-- A tracker with one marker after two frames: detected in the first, tracked in the second. -/
def tracked : PlanarTrackerImpl :=
  runCalls PlanarTrackerImpl.new
    [addMarker, Call.ProcessFrameData cvDetect [0], Call.ProcessFrameData cvDetect [0]]

/-- One marker added and detected in a frame, then `RemoveAllMarkers`. -/
def detectThenRemove : List Call :=
  [addMarker, Call.ProcessFrameData cvDetect [0], Call.RemoveAllMarkers]

/-- One marker added and detected in a frame, then `Initialise` for a 640 x 480 camera. -/
def detectThenInitialise : List Call :=
  [addMarker, Call.ProcessFrameData cvDetect [0],
    Call.Initialise ⟨640, 480, [], [], 4⟩ 1]

/-- One marker added and detected in a frame, then the cap lowered to 0. -/
def detectThenLowerCap : List Call :=
  [addMarker, Call.ProcessFrameData cvDetect [0], Call.SetMaximumNumberOfMarkersToTrack 0]

/-- Camera parameters of a 1283 x 963 camera with the four-coefficient distortion model. -/
def oddCamera : ARParam := ⟨1283, 963, [], [1, 2, 3, 4], 4⟩

/-- Camera parameters of a 640 x 480 camera whose distortion model has the unsupported
version 3. -/
def unsupportedCamera : ARParam := ⟨640, 480, [], [9, 9, 9, 9], 3⟩

/-- Camera parameters of a 640 x 480 camera with the four-coefficient distortion model. -/
def camera : ARParam := ⟨640, 480, [], [1, 2, 3, 4], 4⟩

/-- The call `AddMarker` of a one-pixel image with id 8. -/
def addMarker8 : Call := Call.AddMarker cvDetect (some [0]) "b" 1 1 8 1

/-- A tracker with two markers, ids 7 and 8. -/
def twoMarkers : PlanarTrackerImpl := runCalls PlanarTrackerImpl.new [addMarker, addMarker8]

/-- The database file that `SaveTrackableDatabase` writes for `twoMarkers`. -/
def database : DatabaseFile :=
  { totalTrackables := 2
    featureType := defaultDetectorType
    trackables := fun i => (twoMarkers._trackables[i]?).map PlanarTrackerImpl.storedTrackable }

/-- A tracker with two markers: the first was detected in a frame, the second was added after
that frame. -/
def detectedThenAdded : PlanarTrackerImpl :=
  runCalls PlanarTrackerImpl.new [addMarker, Call.ProcessFrameData cvDetect [0], addMarker8]

/-- Three vertices with small integer coordinates. -/
def vertices : List FloatPoint :=
  [⟨FloatValue.finite 3, FloatValue.finite 5⟩, ⟨FloatValue.finite 1, FloatValue.finite 7⟩,
    ⟨FloatValue.finite 2, FloatValue.finite 4⟩]

/-- Three vertices on the x axis, the first of them at `-2^24`. -/
def wideVertices : List FloatPoint :=
  [⟨FloatValue.finite (-16777216), FloatValue.finite 0⟩,
    ⟨FloatValue.finite 1, FloatValue.finite 0⟩, ⟨FloatValue.finite 2, FloatValue.finite 0⟩]

/-- The collaborators `cvDetect` with a homography determinant `d` and the value `c` for the
float-to-int conversions that C++ leaves undefined; -2147483648 is what x86 gives. -/
def cvDeterminant (d : ℚ) (c : Int) : Collaborators :=
  { cvDetect with
    determinant := fun _ => FloatValue.finite d
    invalidFloatToInt := fun _ => c }

end Examples

/-! ## Lemmas about the embedding -/

namespace PlanarTrackerImpl

theorem map_modify_same {α β : Type} (h : α → β) (f : α → α) (hc : ∀ a, h (f a) = h a)
    (l : List α) (i : Nat) : (l.modify f i).map h = l.map h := by
  induction l generalizing i with
  | nil => simp
  | cons a l ih =>
    cases i with
    | zero => simp [hc]
    | succ i => simp [ih]

theorem map_modify_const {α β : Type} (h : α → β) (f : α → α) (b : β) (hc : ∀ a, h (f a) = b)
    (l : List α) (i : Nat) : (l.modify f i).map h = (l.map h).set i b := by
  induction l generalizing i with
  | nil => simp
  | cons a l ih =>
    cases i with
    | zero => simp [hc]
    | succ i => simp [ih]

theorem flagsOf_modifyTrackable_same (s : PlanarTrackerImpl) (i : Nat)
    (f : TrackableInfo → TrackableInfo)
    (hf : ∀ t, ((f t)._isDetected, (f t)._isTracking) = (t._isDetected, t._isTracking)) :
    flagsOf (modifyTrackable s i f) = flagsOf s := by
  unfold flagsOf modifyTrackable
  exact map_modify_same _ f hf _ i

theorem flagsOf_modifyTrackable_const (s : PlanarTrackerImpl) (i : Nat)
    (f : TrackableInfo → TrackableInfo) (b : Bool × Bool)
    (hf : ∀ t, ((f t)._isDetected, (f t)._isTracking) = b) :
    flagsOf (modifyTrackable s i f) = (flagsOf s).set i b := by
  unfold flagsOf modifyTrackable
  exact map_modify_const _ f b hf _ i

@[simp] theorem frameOf_modifyTrackable (s : PlanarTrackerImpl) (i : Nat)
    (f : TrackableInfo → TrackableInfo) : frameOf (modifyTrackable s i f) = frameOf s := rfl

@[simp] theorem counter_modifyTrackable (s : PlanarTrackerImpl) (i : Nat)
    (f : TrackableInfo → TrackableInfo) :
    (modifyTrackable s i f)._currentlyTrackedMarkers = s._currentlyTrackedMarkers := rfl

@[simp] theorem frameCount_modifyTrackable (s : PlanarTrackerImpl) (i : Nat)
    (f : TrackableInfo → TrackableInfo) :
    (modifyTrackable s i f)._frameCount = s._frameCount := rfl

theorem UpdateTrackableHomography_effect (cv : Collaborators) (s : PlanarTrackerImpl) (i : Nat)
    (p q : List Point2f) :
    flagsOf (UpdateTrackableHomography cv s i p q).2 = flagsOf s ∧
    (UpdateTrackableHomography cv s i p q).2._currentlyTrackedMarkers
      = s._currentlyTrackedMarkers ∧
    frameOf (UpdateTrackableHomography cv s i p q).2 = frameOf s := by
  by_cases h1 : p.length > 4
  · by_cases h2 : (cv.GetHomographyInliers p q).validHomography = true
    · by_cases h3 : s._frameCount > 1
      · simp [UpdateTrackableHomography, h1, h2, h3, UpdateTrackableBBox,
          ResetAllTrackingPointSelectorsForTrackable, flagsOf_modifyTrackable_same]
      · simp [UpdateTrackableHomography, h1, h2, h3, UpdateTrackableBBox,
          ResetAllTrackingPointSelectorsForTrackable, flagsOf_modifyTrackable_same]
    · simp [UpdateTrackableHomography, h1, h2]
  · simp [UpdateTrackableHomography, h1]

theorem map_modify_comm {α β : Type} (h : α → β) (f : α → α) (g : β → β)
    (hc : ∀ a, h (f a) = g (h a)) (l : List α) (i : Nat) :
    (l.modify f i).map h = (l.map h).modify g i := by
  induction l generalizing i with
  | nil => simp
  | cons a l ih =>
    cases i with
    | zero => simp [hc]
    | succ i => simp [ih]

theorem flagsOf_modifyTrackable_comm (s : PlanarTrackerImpl) (i : Nat)
    (f : TrackableInfo → TrackableInfo) (g : Bool × Bool → Bool × Bool)
    (hf : ∀ t, ((f t)._isDetected, (f t)._isTracking) = g (t._isDetected, t._isTracking)) :
    flagsOf (modifyTrackable s i f) = (flagsOf s).modify g i := by
  unfold flagsOf modifyTrackable
  exact map_modify_comm _ f g hf _ i

theorem RunOpticalFlow_effect (cv : Collaborators) (s : PlanarTrackerImpl) (i : Nat)
    (p q : List Point2f) :
    frameOf (RunOpticalFlow cv s i p q).2 = frameOf s ∧
    ((RunOpticalFlow cv s i p q).1 = false →
      flagsOf (RunOpticalFlow cv s i p q).2 = (flagsOf s).set i (false, false) ∧
      (RunOpticalFlow cv s i p q).2._currentlyTrackedMarkers = s._currentlyTrackedMarkers - 1) ∧
    ((RunOpticalFlow cv s i p q).1 = true →
      flagsOf (RunOpticalFlow cv s i p q).2
        = (flagsOf s).modify (fun f => (f.1, true)) i ∧
      (RunOpticalFlow cv s i p q).2._currentlyTrackedMarkers = s._currentlyTrackedMarkers) := by
  unfold RunOpticalFlow
  dsimp only
  generalize flowFiltered cv s p q = f
  obtain ⟨hf, hc, hfr⟩ := UpdateTrackableHomography_effect cv s i f.1 f.2
  generalize UpdateTrackableHomography cv s i f.1 f.2 = r at hf hc hfr
  obtain ⟨b, s'⟩ := r
  cases b
  · dsimp only at hf hc hfr
    refine ⟨hfr, (fun _ => ⟨?_, ?_⟩), (fun h => by cases h)⟩
    · rw [← hf]
      exact flagsOf_modifyTrackable_const s' i _ (false, false) (fun _ => rfl)
    · show s'._currentlyTrackedMarkers - 1 = _
      rw [← hc]
  · dsimp only at hf hc hfr
    refine ⟨hfr, (fun h => by cases h), (fun _ => ⟨?_, hc⟩)⟩
    rw [← hf]
    exact flagsOf_modifyTrackable_comm s' i (fun t => { t with _isTracking := true })
      (fun f => (f.1, true)) (fun _ => rfl)

theorem RunTemplateMatching_effect (cv : Collaborators) (s : PlanarTrackerImpl) (frame : Image)
    (i : Nat) :
    frameOf (RunTemplateMatching cv s frame i).2 = frameOf s ∧
    ((RunTemplateMatching cv s frame i).1 = false →
      flagsOf (RunTemplateMatching cv s frame i).2 = (flagsOf s).set i (false, false) ∧
      (RunTemplateMatching cv s frame i).2._currentlyTrackedMarkers
        = s._currentlyTrackedMarkers - 1) ∧
    ((RunTemplateMatching cv s frame i).1 = true →
      flagsOf (RunTemplateMatching cv s frame i).2 = flagsOf s ∧
      (RunTemplateMatching cv s frame i).2._currentlyTrackedMarkers
        = s._currentlyTrackedMarkers) := by
  unfold RunTemplateMatching
  dsimp only
  generalize cv.templateMatchPoints frame (s._trackables.getD i default) = f
  obtain ⟨hf, hc, hfr⟩ := UpdateTrackableHomography_effect cv s i f.1 f.2
  generalize UpdateTrackableHomography cv s i f.1 f.2 = r at hf hc hfr
  obtain ⟨b, s'⟩ := r
  cases b
  · dsimp only at hf hc hfr
    refine ⟨hfr, (fun _ => ⟨?_, ?_⟩), (fun h => by cases h)⟩
    · rw [← hf]
      exact flagsOf_modifyTrackable_const s' i _ (false, false) (fun _ => rfl)
    · show s'._currentlyTrackedMarkers - 1 = _
      rw [← hc]
  · dsimp only at hf hc hfr
    exact ⟨hfr, (fun h => by cases h), (fun _ => ⟨hf, hc⟩)⟩

theorem modify_snd_true_eq_set (l : List (Bool × Bool)) (i : Nat) (tr : Bool)
    (h : l[i]? = some (true, tr)) :
    l.modify (fun f => (f.1, true)) i = l.set i (true, true) := by
  induction l generalizing i with
  | nil => simp
  | cons a l ih =>
    cases i with
    | zero =>
      simp only [List.getElem?_cons_zero, Option.some.injEq] at h
      subst h
      simp
    | succ i =>
      simp only [List.getElem?_cons_succ] at h
      simp [ih i h]

theorem flagsOf_getElem? (s : PlanarTrackerImpl) (i : Nat) :
    (flagsOf s)[i]? = (s._trackables[i]?).map (fun t => (t._isDetected, t._isTracking)) := by
  simp [flagsOf]

theorem frameCount_of_frameOf {s s' : PlanarTrackerImpl} (h : frameOf s' = frameOf s) :
    s'._frameCount = s._frameCount ∧ s'._prevPyramid = s._prevPyramid ∧
    s'._maxNumberOfMarkersToTrack = s._maxNumberOfMarkersToTrack ∧
    s'.minRequiredDetectedFeatures = s.minRequiredDetectedFeatures ∧
    s'._pyramid = s._pyramid := by
  have h1 := congrArg PlanarTrackerImpl._frameCount h
  have h2 := congrArg PlanarTrackerImpl._prevPyramid h
  have h3 := congrArg PlanarTrackerImpl._maxNumberOfMarkersToTrack h
  have h4 := congrArg PlanarTrackerImpl.minRequiredDetectedFeatures h
  have h5 := congrArg PlanarTrackerImpl._pyramid h
  exact ⟨h1, h2, h3, h4, h5⟩

theorem ProcessFrameTrackStep_cases (cv : Collaborators) (frame : Image) (s : PlanarTrackerImpl)
    (i : Nat) :
    frameOf (ProcessFrameTrackStep cv frame s i).1 = frameOf s ∧
    (((ProcessFrameTrackStep cv frame s i).2 = [] ∧
        flagsOf (ProcessFrameTrackStep cv frame s i).1 = flagsOf s ∧
        (ProcessFrameTrackStep cv frame s i).1._currentlyTrackedMarkers
          = s._currentlyTrackedMarkers ∧
        ¬((∃ tr, (flagsOf s)[i]? = some (true, tr)) ∧ 0 < s._frameCount ∧
            0 < s._prevPyramid.length)) ∨
      ((∃ tr, (flagsOf s)[i]? = some (true, tr)) ∧ 0 < s._frameCount ∧
        0 < s._prevPyramid.length ∧
        ((((ProcessFrameTrackStep cv frame s i).2 = [Event.RunOpticalFlow i false] ∨
            (ProcessFrameTrackStep cv frame s i).2
              = [Event.RunOpticalFlow i true, Event.RunTemplateMatching i false]) ∧
          flagsOf (ProcessFrameTrackStep cv frame s i).1 = (flagsOf s).set i (false, false) ∧
          (ProcessFrameTrackStep cv frame s i).1._currentlyTrackedMarkers
            = s._currentlyTrackedMarkers - 1) ∨
        ((ProcessFrameTrackStep cv frame s i).2
            = [Event.RunOpticalFlow i true, Event.RunTemplateMatching i true] ∧
          flagsOf (ProcessFrameTrackStep cv frame s i).1 = (flagsOf s).set i (true, true) ∧
          (ProcessFrameTrackStep cv frame s i).1._currentlyTrackedMarkers
            = s._currentlyTrackedMarkers)))) := by
  unfold ProcessFrameTrackStep
  cases ht : s._trackables[i]? with
  | none =>
    refine ⟨rfl, Or.inl ⟨rfl, rfl, rfl, ?_⟩⟩
    rintro ⟨⟨tr, h⟩, -⟩
    simp [flagsOf_getElem?, ht] at h
  | some t =>
    dsimp only
    by_cases hd : t._isDetected = true
    · rw [if_pos hd]
      generalize hs2 : modifyTrackable (modifyTrackable s i _) i _ = s2
      have hfl : flagsOf s2 = flagsOf s := by
        rw [← hs2]
        simp [flagsOf_modifyTrackable_same]
      have hfr : frameOf s2 = frameOf s := by rw [← hs2]; rfl
      have hc : s2._currentlyTrackedMarkers = s._currentlyTrackedMarkers := by rw [← hs2]; rfl
      obtain ⟨hfc, hpp, -⟩ := frameCount_of_frameOf hfr
      have hflag : ∃ tr, (flagsOf s)[i]? = some (true, tr) :=
        ⟨t._isTracking, by simp [flagsOf_getElem?, ht, hd]⟩
      by_cases hg : s2._frameCount > 0 ∧ s2._prevPyramid.length > 0
      · rw [if_pos hg]
        rw [hfc, hpp] at hg
        generalize cv.GetInitialFeatures _ = P
        generalize cv.GetTrackedFeaturesWarped _ _ = Q
        obtain ⟨e1, e2, e3⟩ := RunOpticalFlow_effect cv s2 i P Q
        generalize RunOpticalFlow cv s2 i P Q = r at e1 e2 e3
        obtain ⟨b, s3⟩ := r
        cases b
        · obtain ⟨f1, f2⟩ := e2 rfl
          dsimp only at e1 f1 f2
          refine ⟨e1.trans hfr, Or.inr ⟨hflag, hg.1, hg.2, Or.inl ⟨Or.inl rfl, ?_, ?_⟩⟩⟩
          · show flagsOf s3 = _
            rw [f1, hfl]
          · show s3._currentlyTrackedMarkers = _
            rw [f2, hc]
        · obtain ⟨f1, f2⟩ := e3 rfl
          dsimp only at e1 f1 f2
          obtain ⟨tr, htr⟩ := hflag
          rw [hfl, modify_snd_true_eq_set _ _ _ htr] at f1
          obtain ⟨g1, g2, g3⟩ := RunTemplateMatching_effect cv s3 frame i
          generalize RunTemplateMatching cv s3 frame i = r2 at g1 g2 g3
          obtain ⟨b2, s4⟩ := r2
          cases b2
          · obtain ⟨k1, k2⟩ := g2 rfl
            dsimp only at g1 k1 k2
            refine ⟨(g1.trans e1).trans hfr,
              Or.inr ⟨⟨tr, htr⟩, hg.1, hg.2, Or.inl ⟨Or.inr rfl, ?_, ?_⟩⟩⟩
            · show flagsOf s4 = _
              rw [k1, f1, List.set_set]
            · show s4._currentlyTrackedMarkers = _
              rw [k2, f2, hc]
          · obtain ⟨k1, k2⟩ := g3 rfl
            dsimp only at g1 k1 k2
            refine ⟨(g1.trans e1).trans hfr,
              Or.inr ⟨⟨tr, htr⟩, hg.1, hg.2, Or.inr ⟨rfl, ?_, ?_⟩⟩⟩
            · show flagsOf s4 = _
              rw [k1, f1]
            · show s4._currentlyTrackedMarkers = _
              rw [k2, f2, hc]
      · rw [if_neg hg]
        rw [hfc, hpp] at hg
        refine ⟨hfr, Or.inl ⟨rfl, hfl, hc, ?_⟩⟩
        rintro ⟨-, h1, h2⟩
        exact hg ⟨h1, h2⟩
    · rw [if_neg hd]
      refine ⟨rfl, Or.inl ⟨rfl, rfl, rfl, ?_⟩⟩
      rintro ⟨⟨tr, h⟩, -⟩
      simp [flagsOf_getElem?, ht] at h
      exact hd h.1

theorem detectedAt_eq (s : PlanarTrackerImpl) (i : Nat) :
    detectedAt s i = (((flagsOf s)[i]?).map Prod.fst).getD false := by
  simp [detectedAt, flagsOf_getElem?, Option.map_map, Function.comp_def]

theorem trackingAt_eq (s : PlanarTrackerImpl) (i : Nat) :
    trackingAt s i = (((flagsOf s)[i]?).map Prod.snd).getD false := by
  simp [trackingAt, flagsOf_getElem?, Option.map_map, Function.comp_def]

theorem detectedAt_iff (s : PlanarTrackerImpl) (i : Nat) :
    detectedAt s i = true ↔ ∃ tr, (flagsOf s)[i]? = some (true, tr) := by
  rw [detectedAt_eq]
  cases h : (flagsOf s)[i]? with
  | none => simp
  | some p =>
    obtain ⟨a, b⟩ := p
    simp

/-- What one iteration of the tracking loop does, in terms of an outcome `o`: `none` when the
trackable is skipped, `some false` when optical flow or template matching failed, `some true`
when both succeeded. -/
theorem ProcessFrameTrackStep_summary (cv : Collaborators) (frame : Image)
    (s : PlanarTrackerImpl) (i : Nat) :
    ∃ o : Option Bool,
      frameOf (ProcessFrameTrackStep cv frame s i).1 = frameOf s ∧
      flagsOf (ProcessFrameTrackStep cv frame s i).1
        = (match o with
          | none => flagsOf s
          | some b => (flagsOf s).set i (b, b)) ∧
      (ProcessFrameTrackStep cv frame s i).1._currentlyTrackedMarkers
        = s._currentlyTrackedMarkers - (if o = some false then 1 else 0) ∧
      failures (ProcessFrameTrackStep cv frame s i).2 = (if o = some false then [i] else []) ∧
      (∀ j, (∃ r, Event.RunOpticalFlow j r ∈ (ProcessFrameTrackStep cv frame s i).2)
        ↔ (j = i ∧ o ≠ none)) ∧
      (o ≠ none ↔
        (detectedAt s i = true ∧ 0 < s._frameCount ∧ 0 < s._prevPyramid.length)) := by
  obtain ⟨hfr, h⟩ := ProcessFrameTrackStep_cases cv frame s i
  rcases h with ⟨he, hf, hc, hn⟩ | ⟨hd, h1, h2, h⟩
  · refine ⟨none, hfr, hf, by simp [hc], by simp [he, failures], ?_, ?_⟩
    · intro j
      simp [he]
    · rw [detectedAt_iff]
      simpa using hn
  · rcases h with ⟨he, hf, hc⟩ | ⟨he, hf, hc⟩
    · refine ⟨some false, hfr, hf, by simp [hc], ?_, ?_, ?_⟩
      · rcases he with he | he <;> simp [he, failures]
      · intro j
        rcases he with he | he <;> simp [he, eq_comm]
      · rw [detectedAt_iff]
        simp [hd, h1, h2]
    · refine ⟨some true, hfr, hf, by simp [hc], by simp [he, failures], ?_, ?_⟩
      · intro j
        simp [he, eq_comm]
      · rw [detectedAt_iff]
        simp [hd, h1, h2]

theorem failures_append (a b : List Event) : failures (a ++ b) = failures a ++ failures b := by
  induction a with
  | nil => rfl
  | cons e es ih =>
    cases e with
    | RunOpticalFlow i r => cases r <;> simp [failures, ih]
    | RunTemplateMatching i r => cases r <;> simp [failures, ih]
    | CalcDescriptors => simp [failures, ih]
    | MatchFeatures => simp [failures, ih]
    | FitHomography b m => simp [failures, ih]

theorem step_flags_other (cv : Collaborators) (frame : Image) (s : PlanarTrackerImpl)
    (i j : Nat) (hij : j ≠ i) :
    (flagsOf (ProcessFrameTrackStep cv frame s i).1)[j]? = (flagsOf s)[j]? := by
  obtain ⟨o, -, hf, -⟩ := ProcessFrameTrackStep_summary cv frame s i
  rw [hf]
  cases o with
  | none => rfl
  | some b =>
    show ((flagsOf s).set i (b, b))[j]? = _
    rw [List.getElem?_set, if_neg (fun h => hij h.symm)]

/-- What the tracking loop over distinct indices does, in terms of an outcome per index. -/
theorem ProcessFrameTrackLoop_summary (cv : Collaborators) (frame : Image) (is : List Nat)
    (hnd : is.Nodup) (s : PlanarTrackerImpl) :
    ∃ out : Nat → Option Bool,
      frameOf (ProcessFrameTrackLoop cv frame is s).1 = frameOf s ∧
      (∀ j, (flagsOf (ProcessFrameTrackLoop cv frame is s).1)[j]?
        = (match out j with
          | none => (flagsOf s)[j]?
          | some b => some (b, b))) ∧
      (ProcessFrameTrackLoop cv frame is s).1._currentlyTrackedMarkers
        = s._currentlyTrackedMarkers - (failures (ProcessFrameTrackLoop cv frame is s).2).length ∧
      (failures (ProcessFrameTrackLoop cv frame is s).2).Nodup ∧
      (∀ j, j ∈ failures (ProcessFrameTrackLoop cv frame is s).2 ↔ out j = some false) ∧
      (∀ j, (∃ r, Event.RunOpticalFlow j r ∈ (ProcessFrameTrackLoop cv frame is s).2)
        ↔ out j ≠ none) ∧
      (∀ j, out j ≠ none ↔
        (j ∈ is ∧ detectedAt s j = true ∧ 0 < s._frameCount ∧ 0 < s._prevPyramid.length)) := by
  induction is generalizing s with
  | nil =>
    refine ⟨fun _ => none, rfl, fun _ => rfl, ?_, ?_, ?_, ?_, ?_⟩ <;>
      simp [ProcessFrameTrackLoop, failures]
  | cons i is ih =>
    obtain ⟨hi, hnd'⟩ := List.nodup_cons.mp hnd
    rw [show ProcessFrameTrackLoop cv frame (i :: is) s
        = ((ProcessFrameTrackLoop cv frame is (ProcessFrameTrackStep cv frame s i).1).1,
          (ProcessFrameTrackStep cv frame s i).2
            ++ (ProcessFrameTrackLoop cv frame is (ProcessFrameTrackStep cv frame s i).1).2)
        from rfl]
    obtain ⟨o, o1, o2, o3, o4, o5, o6⟩ := ProcessFrameTrackStep_summary cv frame s i
    have hother := step_flags_other cv frame s i
    generalize ProcessFrameTrackStep cv frame s i = r1 at o1 o2 o3 o4 o5 o6 hother
    obtain ⟨out', q1, q2, q3, q4, q5, q6, q7⟩ := ih hnd' r1.1
    generalize ProcessFrameTrackLoop cv frame is r1.1 = r2 at q1 q2 q3 q4 q5 q6 q7
    dsimp only
    have hout : out' i = none := by
      by_contra h
      exact hi ((q7 i).mp h).1
    obtain ⟨g1, g2, -⟩ := frameCount_of_frameOf o1
    refine ⟨fun j => if j = i then o else out' j, q1.trans o1, ?_, ?_, ?_, ?_, ?_, ?_⟩
    · intro j
      by_cases hj : j = i
      · subst hj
        simp only [if_pos rfl]
        rw [q2 j, hout]
        show (flagsOf r1.1)[j]? = _
        rw [o2]
        cases o with
        | none => rfl
        | some b =>
          show ((flagsOf s).set j (b, b))[j]? = some (b, b)
          obtain ⟨tr, htr⟩ := (detectedAt_iff s j).mp (o6.mp (by simp)).1
          have hlen : j < (flagsOf s).length := by
            by_contra hlt
            rw [List.getElem?_eq_none (Nat.le_of_not_lt hlt)] at htr
            cases htr
          rw [List.getElem?_set, if_pos rfl, if_pos hlen]
      · simp only [if_neg hj]
        rw [q2 j]
        cases out' j with
        | none => exact hother j hj
        | some b => rfl
    · rw [failures_append, List.length_append, q3, o3, o4]
      by_cases ho : o = some false
      · simp only [ho, if_true, List.length_singleton]
        push_cast
        ring
      · simp only [ho, if_false, List.length_nil]
        push_cast
        ring
    · rw [failures_append, o4]
      by_cases ho : o = some false
      · simp only [ho, if_true, List.singleton_append, List.nodup_cons]
        refine ⟨?_, q4⟩
        rw [q5 i, hout]
        simp
      · simpa only [ho, if_false, List.nil_append] using q4
    · intro j
      rw [failures_append, List.mem_append, o4, q5 j]
      by_cases hj : j = i
      · subst hj
        simp only [if_pos rfl, hout]
        by_cases ho : o = some false <;> simp [ho]
      · simp only [if_neg hj]
        by_cases ho : o = some false <;> simp [ho, hj]
    · intro j
      have : (∃ r, Event.RunOpticalFlow j r ∈ r1.2 ++ r2.2) ↔
          ((∃ r, Event.RunOpticalFlow j r ∈ r1.2) ∨ (∃ r, Event.RunOpticalFlow j r ∈ r2.2)) := by
        simp only [List.mem_append, exists_or]
      rw [this, o5 j, q6 j]
      by_cases hj : j = i
      · subst hj
        simp [hout]
      · simp [hj]
    · intro j
      by_cases hj : j = i
      · subst hj
        simp only [if_pos rfl, List.mem_cons, true_or, true_and]
        exact o6
      · simp only [if_neg hj, List.mem_cons, hj, false_or, if_false]
        rw [q7 j, g1, g2, detectedAt_eq r1.1 j, detectedAt_eq s j, hother j hj]

theorem goodMatchCount_nonneg (cv : Collaborators) (d : Mat) (t : TrackableInfo) :
    0 ≤ goodMatchCount cv d t := by
  unfold goodMatchCount totalGoodMatches
  exact Int.ofNat_nonneg _

theorem MatchFeaturesStep_eq (cv : Collaborators) (m : Int) (fs : List KeyPoint) (d : Mat)
    (st : MatchState) (i : Nat) (t : TrackableInfo) :
    (isCandidate cv m d t = true ∧ goodMatchCount cv d t > st.maxMatches ∧
      (MatchFeaturesStep cv m fs d st i t).maxMatches = goodMatchCount cv d t ∧
      (MatchFeaturesStep cv m fs d st i t).bestMatchIndex = (i : Int)) ∨
    (¬(isCandidate cv m d t = true ∧ goodMatchCount cv d t > st.maxMatches) ∧
      MatchFeaturesStep cv m fs d st i t = st) := by
  unfold MatchFeaturesStep isCandidate goodMatchCount
  by_cases h1 : t._isDetected = true
  · right
    simp [h1]
  · by_cases h2 : (cv.MatchFeatures d t._descriptors).length > toSizeT m
    · by_cases h3 : totalGoodMatches (cv.MatchFeatures d t._descriptors) > st.maxMatches
      · left
        simp [h1, h2, h3]
      · right
        simp [h1, h2, h3]
    · right
      simp [h1, h2]

theorem IsBestOf_step (cv : Collaborators) (m : Int) (fs : List KeyPoint) (d : Mat)
    (pre : List TrackableInfo) (st : MatchState) (t : TrackableInfo)
    (h : IsBestOf cv m d pre st) :
    IsBestOf cv m d (pre ++ [t]) (MatchFeaturesStep cv m fs d st pre.length t) := by
  have hmax : 0 ≤ st.maxMatches := by
    rcases h with ⟨h0, -⟩ | ⟨b, tb, -, -, -, -, hpos, -⟩
    · omega
    · omega
  have hlast : ∀ (j : Nat) (t' : TrackableInfo), (pre ++ [t])[j]? = some t' →
      (j < pre.length ∧ pre[j]? = some t') ∨ (j = pre.length ∧ t' = t) := by
    intro j t' hj
    by_cases hlt : j < pre.length
    · left
      rw [List.getElem?_append_left hlt] at hj
      exact ⟨hlt, hj⟩
    · right
      have hge : pre.length ≤ j := Nat.le_of_not_lt hlt
      rw [List.getElem?_append_right hge] at hj
      by_cases hz : j - pre.length = 0
      · rw [hz] at hj
        simp only [List.getElem?_cons_zero, Option.some.injEq] at hj
        exact ⟨by omega, hj.symm⟩
      · obtain ⟨k, hk⟩ := Nat.exists_eq_succ_of_ne_zero hz
        rw [hk] at hj
        simp at hj
  rcases MatchFeaturesStep_eq cv m fs d st pre.length t with ⟨hc, hgt, e1, e2⟩ | ⟨hn, e⟩
  · right
    refine ⟨pre.length, t, e2, by simp, hc, e1.symm, by omega, ?_⟩
    intro j t' hj hcand
    rcases hlast j t' hj with ⟨hlt, hpre⟩ | ⟨hje, hte⟩
    · have hle : goodMatchCount cv d t' ≤ st.maxMatches := by
        rcases h with ⟨h0, -, hall⟩ | ⟨b, tb, -, -, -, -, -, hall⟩
        · rw [hall j t' hpre hcand, h0]
        · exact (hall j t' hpre hcand).1
      rw [e1]
      exact ⟨by omega, fun heq => by omega⟩
    · subst hte
      rw [e1]
      exact ⟨le_refl _, fun _ => by omega⟩
  · rw [e]
    rcases h with ⟨h0, hb, hall⟩ | ⟨b, tb, hb, hpre, hcb, hgb, hpos, hall⟩
    · left
      refine ⟨h0, hb, ?_⟩
      intro j t' hj hcand
      rcases hlast j t' hj with ⟨hlt, hpre⟩ | ⟨hje, hte⟩
      · exact hall j t' hpre hcand
      · subst hte
        have := goodMatchCount_nonneg cv d t'
        have hle : ¬ goodMatchCount cv d t' > st.maxMatches := fun hgt => hn ⟨hcand, hgt⟩
        omega
    · right
      have hblt : b < pre.length := by
        by_contra hlt
        rw [List.getElem?_eq_none (Nat.le_of_not_lt hlt)] at hpre
        cases hpre
      refine ⟨b, tb, hb, ?_, hcb, hgb, hpos, ?_⟩
      · rw [List.getElem?_append_left hblt]
        exact hpre
      · intro j t' hj hcand
        rcases hlast j t' hj with ⟨hlt, hpre'⟩ | ⟨hje, hte⟩
        · exact hall j t' hpre' hcand
        · subst hte
          have hle : ¬ goodMatchCount cv d t' > st.maxMatches := fun hgt => hn ⟨hcand, hgt⟩
          exact ⟨by omega, fun _ => by omega⟩

theorem IsBestOf_loop (cv : Collaborators) (m : Int) (fs : List KeyPoint) (d : Mat)
    (ts pre : List TrackableInfo) (st : MatchState) (h : IsBestOf cv m d pre st) :
    IsBestOf cv m d (pre ++ ts) (MatchFeaturesLoop cv m fs d ts pre.length st) := by
  induction ts generalizing pre st with
  | nil => simpa [MatchFeaturesLoop] using h
  | cons t ts ih =>
    have := ih (pre ++ [t]) _ (IsBestOf_step cv m fs d pre st t h)
    simpa [MatchFeaturesLoop] using this

theorem IsBestOf_MatchFeaturesBest (cv : Collaborators) (s : PlanarTrackerImpl)
    (fs : List KeyPoint) (d : Mat) :
    IsBestOf cv s.minRequiredDetectedFeatures d s._trackables (MatchFeaturesBest cv s fs d) := by
  have h0 : IsBestOf cv s.minRequiredDetectedFeatures d [] ⟨0, -1, [], []⟩ :=
    Or.inl ⟨rfl, rfl, fun j t hj => by simp at hj⟩
  have := IsBestOf_loop cv s.minRequiredDetectedFeatures fs d s._trackables [] _ h0
  simpa [MatchFeaturesBest] using this

theorem modify_eq_set_of {α : Type} (l : List α) (i : Nat) (a : α) (f : α → α)
    (h : l[i]? = some a) : l.modify f i = l.set i (f a) := by
  induction l generalizing i with
  | nil => simp
  | cons x l ih =>
    cases i with
    | zero =>
      simp only [List.getElem?_cons_zero, Option.some.injEq] at h
      subst h
      simp
    | succ i =>
      simp only [List.getElem?_cons_succ] at h
      simp [ih i h]

/-- What `MatchFeatures` does to the flags and the counter. -/
theorem MatchFeatures_effect (cv : Collaborators) (s : PlanarTrackerImpl)
    (fs : List KeyPoint) (d : Mat) :
    frameOf (MatchFeatures cv s fs d).1 = frameOf s ∧
    (((MatchFeaturesBest cv s fs d).maxMatches ≤ 0 ∧
        (MatchFeatures cv s fs d).1 = s ∧ (MatchFeatures cv s fs d).2 = []) ∨
      (0 < (MatchFeaturesBest cv s fs d).maxMatches ∧
        (MatchFeatures cv s fs d).2
          = [Event.FitHomography (MatchFeaturesBest cv s fs d).bestMatchIndex
              (MatchFeaturesBest cv s fs d).maxMatches] ∧
        ((MatchFeatures cv s fs d).1 = s ∨
          ∃ (b : Nat) (tr : Bool),
            (MatchFeaturesBest cv s fs d).bestMatchIndex = (b : Int) ∧
            (flagsOf s)[b]? = some (false, tr) ∧
            flagsOf (MatchFeatures cv s fs d).1 = (flagsOf s).set b (true, tr) ∧
            (MatchFeatures cv s fs d).1._currentlyTrackedMarkers
              = s._currentlyTrackedMarkers + 1))) := by
  have hbest := IsBestOf_MatchFeaturesBest cv s fs d
  unfold MatchFeatures
  dsimp only
  generalize MatchFeaturesBest cv s fs d = st at hbest
  by_cases hpos : st.maxMatches > 0
  · rw [if_pos hpos]
    generalize cv.GetHomographyInliers _ _ = homoInfo
    by_cases hv : homoInfo.validHomography = true
    · rw [if_pos hv]
      refine ⟨rfl, Or.inr ⟨hpos, rfl, Or.inr ?_⟩⟩
      rcases hbest with ⟨h0, -⟩ | ⟨b, t, hb, hts, hcand, -, -, -⟩
      · omega
      · have hnd : t._isDetected = false := by
          unfold isCandidate at hcand
          simp only [Bool.and_eq_true, Bool.not_eq_true'] at hcand
          exact hcand.1
        have hfl : (flagsOf s)[b]? = some (false, t._isTracking) := by
          simp [flagsOf_getElem?, hts, hnd]
        refine ⟨b, t._isTracking, hb, hfl, ?_, rfl⟩
        have hbt : st.bestMatchIndex.toNat = b := by rw [hb]; simp
        rw [hbt]
        show flagsOf (UpdateTrackableBBox cv (modifyTrackable
          (ResetAllTrackingPointSelectorsForTrackable (modifyTrackable s b _) b) b _) b _) = _
        simp only [UpdateTrackableBBox, ResetAllTrackingPointSelectorsForTrackable]
        simp only [flagsOf_modifyTrackable_same, implies_true]
        rw [flagsOf_modifyTrackable_comm s b
          (fun t => { t with _isDetected := true, _resetTracks := true })
          (fun f => (true, f.2)) (fun _ => rfl), modify_eq_set_of _ _ _ _ hfl]
    · rw [if_neg hv]
      exact ⟨rfl, Or.inr ⟨hpos, rfl, Or.inl rfl⟩⟩
  · rw [if_neg hpos]
    exact ⟨rfl, Or.inl ⟨by omega, rfl, rfl⟩⟩

theorem ProcessFrameDetect_effect (cv : Collaborators) (s : PlanarTrackerImpl) (frame : Image) :
    (ProcessFrameDetect cv s frame).1._frameCount = s._frameCount ∧
    (ProcessFrameDetect cv s frame).1._prevPyramid = s._prevPyramid ∧
    (ProcessFrameDetect cv s frame).1._maxNumberOfMarkersToTrack
      = s._maxNumberOfMarkersToTrack ∧
    ((flagsOf (ProcessFrameDetect cv s frame).1 = flagsOf s ∧
        (ProcessFrameDetect cv s frame).1._currentlyTrackedMarkers
          = s._currentlyTrackedMarkers) ∨
      (s._currentlyTrackedMarkers < s._maxNumberOfMarkersToTrack ∧
        ∃ (b : Nat) (tr : Bool),
          (flagsOf s)[b]? = some (false, tr) ∧
          flagsOf (ProcessFrameDetect cv s frame).1 = (flagsOf s).set b (true, tr) ∧
          (ProcessFrameDetect cv s frame).1._currentlyTrackedMarkers
            = s._currentlyTrackedMarkers + 1)) ∧
    failures (ProcessFrameDetect cv s frame).2 = [] ∧
    (∀ j r, Event.RunOpticalFlow j r ∉ (ProcessFrameDetect cv s frame).2) := by
  unfold ProcessFrameDetect
  dsimp only
  by_cases h1 : s._currentlyTrackedMarkers < s._maxNumberOfMarkersToTrack
  · rw [if_pos h1]
    generalize cv.DetectFeatures _ _ = fs
    by_cases h2 : (fs.length : Int) > s.minRequiredDetectedFeatures
    · rw [if_pos h2]
      generalize cv.CalcDescriptors _ _ = d
      obtain ⟨e1, e2⟩ := MatchFeatures_effect cv s fs d
      generalize MatchFeaturesBest cv s fs d = st at e2
      generalize MatchFeatures cv s fs d = r at e1 e2
      obtain ⟨g1, g2, g3, -⟩ := frameCount_of_frameOf e1
      dsimp only
      refine ⟨g1, g2, g3, ?_, ?_, ?_⟩
      · rcases e2 with ⟨-, hs, -⟩ | ⟨-, -, hs | ⟨b, tr, -, hb, hf, hc⟩⟩
        · left; rw [hs]; exact ⟨rfl, rfl⟩
        · left; rw [hs]; exact ⟨rfl, rfl⟩
        · right
          exact ⟨h1, b, tr, hb, hf, hc⟩
      · rcases e2 with ⟨-, -, he⟩ | ⟨-, he, -⟩ <;> simp [he, failures]
      · intro j r
        rcases e2 with ⟨-, -, he⟩ | ⟨-, he, -⟩ <;> simp [he]
    · rw [if_neg h2]
      exact ⟨rfl, rfl, rfl, Or.inl ⟨rfl, rfl⟩, rfl, by simp⟩
  · rw [if_neg h1]
    exact ⟨rfl, rfl, rfl, Or.inl ⟨rfl, rfl⟩, rfl, by simp⟩

theorem ProcessFrameDetected_effect (cv : Collaborators) (s : PlanarTrackerImpl) (frame : Image) :
    (ProcessFrameDetected cv s frame).1._frameCount = s._frameCount ∧
    (ProcessFrameDetected cv s frame).1._prevPyramid = s._prevPyramid ∧
    (ProcessFrameDetected cv s frame).1._maxNumberOfMarkersToTrack
      = s._maxNumberOfMarkersToTrack ∧
    ((flagsOf (ProcessFrameDetected cv s frame).1 = flagsOf s ∧
        (ProcessFrameDetected cv s frame).1._currentlyTrackedMarkers
          = s._currentlyTrackedMarkers) ∨
      (s._currentlyTrackedMarkers < s._maxNumberOfMarkersToTrack ∧
        ∃ (b : Nat) (tr : Bool),
          (flagsOf s)[b]? = some (false, tr) ∧
          flagsOf (ProcessFrameDetected cv s frame).1 = (flagsOf s).set b (true, tr) ∧
          (ProcessFrameDetected cv s frame).1._currentlyTrackedMarkers
            = s._currentlyTrackedMarkers + 1)) ∧
    failures (ProcessFrameDetected cv s frame).2 = [] ∧
    (∀ j r, Event.RunOpticalFlow j r ∉ (ProcessFrameDetected cv s frame).2) :=
  ProcessFrameDetect_effect cv { s with _pyramid := cv.buildOpticalFlowPyramid frame } frame

/-- What the tracking phase does, in terms of an outcome per index. -/
theorem ProcessFrameTrack_summary (cv : Collaborators) (s : PlanarTrackerImpl) (frame : Image) :
    ∃ out : Nat → Option Bool,
      frameOf (ProcessFrameTrack cv s frame).1 = frameOf s ∧
      (∀ j, (flagsOf (ProcessFrameTrack cv s frame).1)[j]?
        = (match out j with
          | none => (flagsOf s)[j]?
          | some b => some (b, b))) ∧
      (ProcessFrameTrack cv s frame).1._currentlyTrackedMarkers
        = s._currentlyTrackedMarkers - (failures (ProcessFrameTrack cv s frame).2).length ∧
      (failures (ProcessFrameTrack cv s frame).2).Nodup ∧
      (∀ j, j ∈ failures (ProcessFrameTrack cv s frame).2 ↔ out j = some false) ∧
      (∀ j, (∃ r, Event.RunOpticalFlow j r ∈ (ProcessFrameTrack cv s frame).2)
        ↔ out j ≠ none) ∧
      (∀ j, out j ≠ none ↔
        (detectedAt s j = true ∧ 0 < s._currentlyTrackedMarkers ∧ 0 < s._frameCount ∧
          0 < s._prevPyramid.length)) := by
  unfold ProcessFrameTrack
  by_cases h : s._currentlyTrackedMarkers > 0
  · rw [if_pos h]
    obtain ⟨out, q1, q2, q3, q4, q5, q6, q7⟩ :=
      ProcessFrameTrackLoop_summary cv frame (List.range s._trackables.length)
        (List.nodup_range _) s
    refine ⟨out, q1, q2, q3, q4, q5, q6, ?_⟩
    intro j
    rw [q7 j]
    constructor
    · rintro ⟨-, h1, h2, h3⟩
      exact ⟨h1, h, h2, h3⟩
    · rintro ⟨h1, -, h2, h3⟩
      refine ⟨?_, h1, h2, h3⟩
      obtain ⟨tr, htr⟩ := (detectedAt_iff s j).mp h1
      rw [List.mem_range]
      by_contra hlt
      have : (flagsOf s).length ≤ j := by
        simpa [flagsOf] using Nat.le_of_not_lt hlt
      rw [List.getElem?_eq_none this] at htr
      cases htr
  · rw [if_neg h]
    refine ⟨fun _ => none, rfl, fun _ => rfl, ?_, ?_, ?_, ?_, ?_⟩
    · simp [failures]
    · simp [failures]
    · simp [failures]
    · simp
    · intro j
      simp only [ne_eq, not_true_eq_false, false_iff]
      rintro ⟨-, h1, -⟩
      exact h h1

theorem flagsOf_map_updatePose (cv : Collaborators) (s k : PlanarTrackerImpl) :
    flagsOf { k with _trackables := k._trackables.map (updatePose cv s) } = flagsOf k := by
  unfold flagsOf
  simp only [List.map_map]
  congr 1
  funext t
  simp only [Function.comp_apply, updatePose]
  split <;> rfl

theorem ProcessFrame_decompose (cv : Collaborators) (s : PlanarTrackerImpl) (frame : Image) :
    flagsOf (ProcessFrame cv s frame).1
      = flagsOf (ProcessFrameTrack cv (ProcessFrameDetected cv s frame).1 frame).1 ∧
    (ProcessFrame cv s frame).1._currentlyTrackedMarkers
      = (ProcessFrameTrack cv (ProcessFrameDetected cv s frame).1 frame).1._currentlyTrackedMarkers
      ∧
    (ProcessFrame cv s frame).1._maxNumberOfMarkersToTrack
      = (ProcessFrameTrack cv (ProcessFrameDetected cv s frame).1
          frame).1._maxNumberOfMarkersToTrack ∧
    (ProcessFrame cv s frame).2
      = (ProcessFrameDetected cv s frame).2
        ++ (ProcessFrameTrack cv (ProcessFrameDetected cv s frame).1 frame).2 := by
  unfold ProcessFrame
  dsimp only
  exact ⟨flagsOf_map_updatePose cv _ _, rfl, rfl, rfl⟩

end PlanarTrackerImpl

open PlanarTrackerImpl

namespace PlanarTrackerImpl

theorem countP_set_of {α : Type} (p : α → Bool) (l : List α) (i : Nat) (a b : α)
    (h : l[i]? = some a) :
    (l.set i b).countP p + (if p a = true then 1 else 0)
      = l.countP p + (if p b = true then 1 else 0) := by
  induction l generalizing i with
  | nil => simp at h
  | cons x l ih =>
    cases i with
    | zero =>
      simp only [List.getElem?_cons_zero, Option.some.injEq] at h
      subst h
      simp only [List.set_cons_zero, List.countP_cons]
      omega
    | succ i =>
      simp only [List.getElem?_cons_succ] at h
      have := ih i h
      simp only [List.set_cons_succ, List.countP_cons]
      omega

theorem detectedCount_eq (s : PlanarTrackerImpl) :
    detectedCount s = (flagsOf s).countP (fun f => f.1) := by
  unfold detectedCount flagsOf
  rw [List.countP_map]
  rfl

theorem ProcessFrameTrackLoop_count (cv : Collaborators) (frame : Image) (is : List Nat)
    (s : PlanarTrackerImpl) :
    ((flagsOf (ProcessFrameTrackLoop cv frame is s).1).countP (fun f => f.1) : Int)
        - (ProcessFrameTrackLoop cv frame is s).1._currentlyTrackedMarkers
      = ((flagsOf s).countP (fun f => f.1) : Int) - s._currentlyTrackedMarkers := by
  induction is generalizing s with
  | nil => rfl
  | cons i is ih =>
    rw [show ProcessFrameTrackLoop cv frame (i :: is) s
        = ((ProcessFrameTrackLoop cv frame is (ProcessFrameTrackStep cv frame s i).1).1,
          (ProcessFrameTrackStep cv frame s i).2
            ++ (ProcessFrameTrackLoop cv frame is (ProcessFrameTrackStep cv frame s i).1).2)
        from rfl]
    dsimp only
    rw [ih]
    obtain ⟨o, -, o2, o3, -, -, o6⟩ := ProcessFrameTrackStep_summary cv frame s i
    rw [o2, o3]
    cases o with
    | none => simp
    | some b =>
      obtain ⟨tr, htr⟩ := (detectedAt_iff s i).mp (o6.mp (by simp)).1
      have := countP_set_of (fun f : Bool × Bool => f.1) (flagsOf s) i (true, tr) (b, b) htr
      cases b
      · simp only [Bool.false_eq_true, if_false, if_true, Nat.add_zero] at this
        simp only [if_true]
        omega
      · simp only [if_true] at this
        simp only [Option.some.injEq, Bool.true_eq_false, if_false]
        omega

theorem ProcessFrameTrack_count (cv : Collaborators) (s : PlanarTrackerImpl) (frame : Image) :
    ((flagsOf (ProcessFrameTrack cv s frame).1).countP (fun f => f.1) : Int)
        - (ProcessFrameTrack cv s frame).1._currentlyTrackedMarkers
      = ((flagsOf s).countP (fun f => f.1) : Int) - s._currentlyTrackedMarkers := by
  unfold ProcessFrameTrack
  split
  · exact ProcessFrameTrackLoop_count cv frame _ s
  · rfl

end PlanarTrackerImpl

namespace PlanarTrackerImpl

theorem LoadTrackableDatabaseLoop_effect (cv : Collaborators) (file : DatabaseFile) (n i : Nat)
    (s : PlanarTrackerImpl) :
    (∃ k, flagsOf (LoadTrackableDatabaseLoop cv file n i s).2
        = flagsOf s ++ List.replicate k (false, false)) ∧
    (LoadTrackableDatabaseLoop cv file n i s).2._currentlyTrackedMarkers
      = s._currentlyTrackedMarkers ∧
    (LoadTrackableDatabaseLoop cv file n i s).2._maxNumberOfMarkersToTrack
      = s._maxNumberOfMarkersToTrack := by
  induction n generalizing i s with
  | zero => exact ⟨⟨0, by simp [LoadTrackableDatabaseLoop]⟩, rfl, rfl⟩
  | succ n ih =>
    unfold LoadTrackableDatabaseLoop
    cases h : file.trackables i with
    | none => exact ⟨⟨0, by simp⟩, rfl, rfl⟩
    | some r =>
      dsimp only
      obtain ⟨⟨k, hk⟩, h2, h3⟩ := ih (i + 1)
        { s with _trackables := s._trackables ++ [loadedTrackable cv r] }
      refine ⟨⟨k + 1, ?_⟩, h2, h3⟩
      rw [hk]
      simp [flagsOf, loadedTrackable, List.replicate_succ]

/-- The effect on the flags, the counter and the cap of every call other than
`ProcessFrameData`: the flags are kept, extended by undetected trackables, or all removed; the
counter is kept or (by `Initialise`) zeroed; the cap is kept or (by the setter) assigned. -/
theorem Call_apply_effect (s : PlanarTrackerImpl) (c : Call)
    (hc : ∀ cv frame, c ≠ Call.ProcessFrameData cv frame) :
    (flagsOf (c.apply s) = [] ∨
      ∃ k, flagsOf (c.apply s) = flagsOf s ++ List.replicate k (false, false)) ∧
    ((c.apply s)._currentlyTrackedMarkers = s._currentlyTrackedMarkers ∨
      ((∃ cParam pyrLevel, c = Call.Initialise cParam pyrLevel) ∧
        (c.apply s)._currentlyTrackedMarkers = 0 ∧ flagsOf (c.apply s) = flagsOf s)) ∧
    ((c.apply s)._maxNumberOfMarkersToTrack = s._maxNumberOfMarkersToTrack ∨
      ∃ n, c = Call.SetMaximumNumberOfMarkersToTrack n ∧
        (c.apply s)._maxNumberOfMarkersToTrack = n) := by
  cases c with
  | Initialise cParam pyrLevel =>
    exact ⟨Or.inr ⟨0, by simp [Call.apply, Initialise, flagsOf]⟩,
      Or.inr ⟨⟨cParam, pyrLevel, rfl⟩, rfl, rfl⟩, Or.inl rfl⟩
  | ProcessFrameData cv frame => exact absurd rfl (hc cv frame)
  | RemoveAllMarkers => exact ⟨Or.inl rfl, Or.inl rfl, Or.inl rfl⟩
  | AddMarker cv buff fileName width height uid scale =>
    simp only [Call.apply, AddMarker]
    split
    · exact ⟨Or.inr ⟨1, by simp [flagsOf]⟩, Or.inl rfl, Or.inl rfl⟩
    · exact ⟨Or.inr ⟨0, by simp⟩, Or.inl rfl, Or.inl rfl⟩
  | LoadTrackableDatabase cv file =>
    simp only [Call.apply, LoadTrackableDatabase]
    cases file with
    | none => exact ⟨Or.inr ⟨0, by simp⟩, Or.inl rfl, Or.inl rfl⟩
    | some f =>
      obtain ⟨h1, h2, h3⟩ := LoadTrackableDatabaseLoop_effect cv f f.totalTrackables.toNat 0
        (SetFeatureDetector s f.featureType)
      exact ⟨Or.inr h1, Or.inl h2, Or.inl h3⟩
  | ChangeImageId prevId newId =>
    simp only [Call.apply, ChangeImageId]
    split
    · refine ⟨Or.inr ⟨0, ?_⟩, Or.inl rfl, Or.inl rfl⟩
      simp [flagsOf_modifyTrackable_same]
    · exact ⟨Or.inr ⟨0, by simp⟩, Or.inl rfl, Or.inl rfl⟩
  | SetFeatureDetector detectorType =>
    exact ⟨Or.inr ⟨0, by simp [Call.apply, SetFeatureDetector, flagsOf]⟩, Or.inl rfl, Or.inl rfl⟩
  | SetMinRequiredDetectedFeatures num =>
    exact ⟨Or.inr ⟨0, by simp [Call.apply, SetMinRequiredDetectedFeatures, flagsOf]⟩,
      Or.inl rfl, Or.inl rfl⟩
  | SetHomographyEstimationRANSACThreshold thresh =>
    exact ⟨Or.inr ⟨0, by simp [Call.apply, SetHomographyEstimationRANSACThreshold, flagsOf]⟩,
      Or.inl rfl, Or.inl rfl⟩
  | SetMaximumNumberOfMarkersToTrack n =>
    simp only [Call.apply, SetMaximumNumberOfMarkersToTrack]
    split
    · exact ⟨Or.inr ⟨0, by simp [flagsOf]⟩, Or.inl rfl, Or.inr ⟨n, rfl, rfl⟩⟩
    · exact ⟨Or.inr ⟨0, by simp⟩, Or.inl rfl, Or.inl rfl⟩
  | SetTrackerVisualizationActive active =>
    exact ⟨Or.inr ⟨0, by simp [Call.apply, SetTrackerVisualizationActive, flagsOf]⟩,
      Or.inl rfl, Or.inl rfl⟩

/-- `ProcessFrame` keeps every pair of flags of the form "tracking only if detected". -/
theorem ProcessFrame_tracking_detected (cv : Collaborators) (s : PlanarTrackerImpl)
    (frame : Image) (h : ∀ f ∈ flagsOf s, f.2 = true → f.1 = true) :
    ∀ f ∈ flagsOf (ProcessFrame cv s frame).1, f.2 = true → f.1 = true := by
  obtain ⟨d1, -⟩ := ProcessFrame_decompose cv s frame
  rw [d1]
  obtain ⟨-, -, -, hd, -⟩ := ProcessFrameDetected_effect cv s frame
  generalize (ProcessFrameDetected cv s frame).1 = sd at hd
  have hsd : ∀ f ∈ flagsOf sd, f.2 = true → f.1 = true := by
    rcases hd with ⟨hf, -⟩ | ⟨-, b, tr, -, hf, -⟩
    · rw [hf]; exact h
    · rw [hf]
      intro f hf2
      rcases List.mem_or_eq_of_mem_set hf2 with hm | he
      · exact h f hm
      · subst he
        intro _
        rfl
  obtain ⟨out, -, q2, -⟩ := ProcessFrameTrack_summary cv sd frame
  intro f hf
  obtain ⟨j, hj⟩ := List.mem_iff_getElem?.mp hf
  rw [q2 j] at hj
  cases ho : out j with
  | none =>
    rw [ho] at hj
    exact hsd f (List.mem_iff_getElem?.mpr ⟨j, hj⟩)
  | some b =>
    rw [ho] at hj
    simp only [Option.some.injEq] at hj
    subst hj
    exact fun hb => hb

end PlanarTrackerImpl

theorem Reachable_flags_tracking_detected (s : PlanarTrackerImpl) (h : Reachable anyCall s) :
    ∀ f ∈ s.flagsOf, f.2 = true → f.1 = true := by
  induction h with
  | new => intro f hf; simp [PlanarTrackerImpl.new, flagsOf] at hf
  | call s c _ _ ih =>
    by_cases hc : ∃ cv frame, c = Call.ProcessFrameData cv frame
    · obtain ⟨cv, frame, rfl⟩ := hc
      exact ProcessFrame_tracking_detected cv s _ ih
    · have hc' : ∀ cv frame, c ≠ Call.ProcessFrameData cv frame :=
        fun cv frame heq => hc ⟨cv, frame, heq⟩
      obtain ⟨hf, -⟩ := Call_apply_effect s c hc'
      rcases hf with hf | ⟨k, hf⟩
      · rw [hf]; intro f hm; cases hm
      · rw [hf]
        intro f hm
        rcases List.mem_append.mp hm with hm | hm
        · exact ih f hm
        · rw [List.eq_of_mem_replicate hm]
          intro hb; cases hb

/-- C1. In every state reachable through the public interface (any sequence of `Initialise`,
`ProcessFrameData`, `RemoveAllMarkers`, `AddMarker`, `LoadTrackableDatabase`, `ChangeImageId`
and the setters, whatever the collaborators return), every trackable that has `_isTracking` set
has `_isDetected` set. -/
theorem C1_tracking_implies_detected (s : PlanarTrackerImpl) (h : Reachable anyCall s)
    (t : TrackableInfo) (ht : t ∈ s._trackables) (htr : t._isTracking = true) :
    t._isDetected = true := by
  have hm : (t._isDetected, t._isTracking) ∈ s.flagsOf :=
    List.mem_map_of_mem (fun t : TrackableInfo => (t._isDetected, t._isTracking)) ht
  exact Reachable_flags_tracking_detected s h _ hm htr

theorem Reachable_runCalls_anyCall (calls : List Call) (s : PlanarTrackerImpl)
    (h : Reachable anyCall s) : Reachable anyCall (runCalls s calls) := by
  induction calls generalizing s with
  | nil => exact h
  | cons c cs ih => exact ih _ (Reachable.call s c h trivial)

/-- Witness for C1: the tracker `Examples.tracked` is reachable, its trackable 0 is tracking (it
was detected in the first frame and tracked in the second), and it is detected. -/
theorem C1_tracking_implies_detected_witness :
    Reachable anyCall Examples.tracked ∧
    (Examples.tracked._trackables.getD 0 default)._isTracking = true ∧
    (Examples.tracked._trackables.getD 0 default)._isDetected = true :=
  ⟨Reachable_runCalls_anyCall _ _ Reachable.new, by decide!,
    C1_tracking_implies_detected Examples.tracked
      (Reachable_runCalls_anyCall _ _ Reachable.new)
      (Examples.tracked._trackables.getD 0 default) (by decide!) (by decide!)⟩

/-- C2, the code at two inputs where the claim fails. After `AddMarker`, a frame that detects the
marker and `RemoveAllMarkers`, the counter `_currentlyTrackedMarkers` is 1 although no trackable
is left; after `AddMarker`, the same frame and `Initialise`, the counter is 0 although one
trackable has `_isDetected` set. -/
theorem C2_counter_out_of_step :
    (runCalls PlanarTrackerImpl.new Examples.detectThenRemove)._currentlyTrackedMarkers = 1 ∧
    (runCalls PlanarTrackerImpl.new Examples.detectThenRemove).detectedCount = 0 ∧
    (runCalls PlanarTrackerImpl.new Examples.detectThenInitialise)._currentlyTrackedMarkers = 0 ∧
    (runCalls PlanarTrackerImpl.new Examples.detectThenInitialise).detectedCount = 1 := by
  decide!

/-- `ProcessFrame` keeps "detected count at most counter at most cap". -/
theorem ProcessFrame_cap (cv : Collaborators) (s : PlanarTrackerImpl) (frame : Image)
    (h1 : (s.detectedCount : Int) ≤ s._currentlyTrackedMarkers)
    (h2 : s._currentlyTrackedMarkers ≤ s._maxNumberOfMarkersToTrack) :
    ((ProcessFrame cv s frame).1.detectedCount : Int)
      ≤ (ProcessFrame cv s frame).1._currentlyTrackedMarkers ∧
    (ProcessFrame cv s frame).1._currentlyTrackedMarkers
      ≤ (ProcessFrame cv s frame).1._maxNumberOfMarkersToTrack := by
  obtain ⟨d1, d2, d3, -⟩ := ProcessFrame_decompose cv s frame
  rw [detectedCount_eq] at h1 ⊢
  rw [d1, d2, d3]
  obtain ⟨-, -, e3, hd, -⟩ := ProcessFrameDetected_effect cv s frame
  generalize (ProcessFrameDetected cv s frame).1 = sd at hd e3
  have hcount := ProcessFrameTrack_count cv sd frame
  obtain ⟨out, q1, -, q3, -⟩ := ProcessFrameTrack_summary cv sd frame
  obtain ⟨-, -, g3, -⟩ := frameCount_of_frameOf q1
  rw [g3, e3]
  have hlen : (0 : Int) ≤ ((failures (ProcessFrameTrack cv sd frame).2).length : Int) :=
    Int.ofNat_nonneg _
  rcases hd with ⟨hf, hc⟩ | ⟨hlt, b, tr, hb, hf, hc⟩
  · rw [hf, hc] at hcount
    rw [hc] at q3
    constructor <;> omega
  · have := countP_set_of (fun f : Bool × Bool => f.1) s.flagsOf b (false, tr) (true, tr) hb
    simp only [Bool.false_eq_true, if_false, if_true, Nat.add_zero] at this
    rw [hf, hc, this] at hcount
    rw [hc] at q3
    push_cast at hcount
    constructor <;> omega

theorem Reachable_cap (s : PlanarTrackerImpl) (h : Reachable capRespected s) :
    (s.detectedCount : Int) ≤ s._currentlyTrackedMarkers ∧
    s._currentlyTrackedMarkers ≤ s._maxNumberOfMarkersToTrack := by
  induction h with
  | new => simp [PlanarTrackerImpl.new, detectedCount]
  | call s c _ hall ih =>
    obtain ⟨i1, i2⟩ := ih
    by_cases hc : ∃ cv frame, c = Call.ProcessFrameData cv frame
    · obtain ⟨cv, frame, rfl⟩ := hc
      exact ProcessFrame_cap cv s _ i1 i2
    · have hc' : ∀ cv frame, c ≠ Call.ProcessFrameData cv frame :=
        fun cv frame heq => hc ⟨cv, frame, heq⟩
      obtain ⟨hf, hcnt, hmax⟩ := Call_apply_effect s c hc'
      have hnn : (0 : Int) ≤ (s.detectedCount : Int) := Int.ofNat_nonneg _
      have hcount : ((c.apply s).detectedCount : Int) ≤ s.detectedCount := by
        rw [detectedCount_eq, detectedCount_eq]
        rcases hf with hf | ⟨k, hf⟩
        · rw [hf]; simp
        · rw [hf, List.countP_append]
          have : (List.replicate k (false, false)).countP (fun f : Bool × Bool => f.1) = 0 := by
            rw [List.countP_eq_zero]
            intro a ha
            rw [List.eq_of_mem_replicate ha]
            simp
          rw [this]
          simp
      rcases hcnt with hcnt | ⟨⟨cParam, pyrLevel, rfl⟩, hcnt, hfl⟩
      · rcases hmax with hmax | ⟨n, rfl, hmax⟩
        · rw [hcnt, hmax]
          exact ⟨by omega, i2⟩
        · rw [hcnt, hmax]
          have hn : s._currentlyTrackedMarkers ≤ n := hall
          exact ⟨by omega, hn⟩
      · have h0 : s.detectedCount = 0 := hall
        rcases hmax with hmax | ⟨n, hn, -⟩
        · rw [hcnt, hmax]
          constructor
          · rw [detectedCount_eq, hfl, ← detectedCount_eq, h0]
            simp
          · omega
        · cases hn

/-- C3, as amended. In every state reachable from a new tracker through calls of the public
interface among which `Initialise` is made only while no trackable is detected and
`SetMaximumNumberOfMarkersToTrack(n)` only with `n` at least `_currentlyTrackedMarkers`, the
number of trackables with `_isDetected` set is at most `_maxNumberOfMarkersToTrack`. -/
theorem C3_detected_at_most_cap (s : PlanarTrackerImpl) (h : Reachable capRespected s) :
    (s.detectedCount : Int) ≤ s._maxNumberOfMarkersToTrack := by
  obtain ⟨h1, h2⟩ := Reachable_cap s h
  omega

theorem Reachable_detected_example :
    Reachable capRespected
      (runCalls PlanarTrackerImpl.new
        [Examples.addMarker, Call.ProcessFrameData Examples.cvDetect [0]]) := by
  have h1 : Reachable capRespected (Call.apply PlanarTrackerImpl.new Examples.addMarker) :=
    Reachable.call _ _ Reachable.new (by simp [Examples.addMarker, capRespected])
  exact Reachable.call _ (Call.ProcessFrameData Examples.cvDetect [0]) h1
    (by simp [capRespected])

/-- Witness for C3 as amended: a tracker after `AddMarker` and a frame that detects the marker
is reachable by admitted calls, and its one detected trackable is within the cap 1. -/
theorem C3_detected_at_most_cap_witness :
    Reachable capRespected
      (runCalls PlanarTrackerImpl.new
        [Examples.addMarker, Call.ProcessFrameData Examples.cvDetect [0]]) ∧
    ((runCalls PlanarTrackerImpl.new
        [Examples.addMarker, Call.ProcessFrameData Examples.cvDetect [0]]).detectedCount : Int)
      ≤ (runCalls PlanarTrackerImpl.new
        [Examples.addMarker,
          Call.ProcessFrameData Examples.cvDetect [0]])._maxNumberOfMarkersToTrack :=
  ⟨Reachable_detected_example, C3_detected_at_most_cap _ Reachable_detected_example⟩

/-- Counterexample to C3 as stated: after `AddMarker`, a frame that detects the marker and
`SetMaximumNumberOfMarkersToTrack(0)`, a state reachable through the public interface, one
trackable is detected while the cap is 0. -/
theorem C3_counterexample :
    Reachable anyCall (runCalls PlanarTrackerImpl.new Examples.detectThenLowerCap) ∧
    (runCalls PlanarTrackerImpl.new Examples.detectThenLowerCap).detectedCount = 1 ∧
    (runCalls PlanarTrackerImpl.new Examples.detectThenLowerCap)._maxNumberOfMarkersToTrack = 0 ∧
    ¬ (((runCalls PlanarTrackerImpl.new Examples.detectThenLowerCap).detectedCount : Int)
      ≤ (runCalls PlanarTrackerImpl.new
          Examples.detectThenLowerCap)._maxNumberOfMarkersToTrack) :=
  ⟨Reachable_runCalls_anyCall _ _ Reachable.new, by decide!, by decide!, by decide!⟩

namespace PlanarTrackerImpl

/-- When optical flow runs for index `i` during `ProcessFrame`. -/
theorem ProcessFrame_opticalFlow_iff (cv : Collaborators) (s : PlanarTrackerImpl)
    (frame : Image) (i : Nat) :
    (∃ r, Event.RunOpticalFlow i r ∈ (ProcessFrame cv s frame).2) ↔
      ((ProcessFrameDetected cv s frame).1.detectedAt i = true ∧
        0 < (ProcessFrameDetected cv s frame).1._currentlyTrackedMarkers ∧
        0 < s._frameCount ∧ 0 < s._prevPyramid.length) := by
  obtain ⟨-, -, -, d4⟩ := ProcessFrame_decompose cv s frame
  obtain ⟨e1, e2, -, -, -, e6⟩ := ProcessFrameDetected_effect cv s frame
  obtain ⟨out, -, -, -, -, -, q6, q7⟩ :=
    ProcessFrameTrack_summary cv (ProcessFrameDetected cv s frame).1 frame
  rw [d4, ← e1, ← e2, ← q7 i, ← q6 i]
  constructor
  · rintro ⟨r, hr⟩
    rcases List.mem_append.mp hr with h | h
    · exact absurd h (e6 i r)
    · exact ⟨r, h⟩
  · rintro ⟨r, hr⟩
    exact ⟨r, List.mem_append.mpr (Or.inr hr)⟩

/-- A trackable whose `_isDetected` flag the feature matching phase sets makes the counter one
more than it was. -/
theorem ProcessFrameDetected_promoted (cv : Collaborators) (s : PlanarTrackerImpl)
    (frame : Image) (b : Nat) (h1 : s.detectedAt b = false)
    (h2 : (ProcessFrameDetected cv s frame).1.detectedAt b = true) :
    (ProcessFrameDetected cv s frame).1._currentlyTrackedMarkers
      = s._currentlyTrackedMarkers + 1 := by
  obtain ⟨-, -, -, hd, -⟩ := ProcessFrameDetected_effect cv s frame
  rcases hd with ⟨hf, -⟩ | ⟨-, _, _, -, -, hc⟩
  · rw [detectedAt_eq, hf, ← detectedAt_eq, h1] at h2
    cases h2
  · exact hc

end PlanarTrackerImpl

namespace PlanarTrackerImpl

theorem templateMatchingFollowsFlow_append (ev1 ev2 : List Event)
    (h1 : templateMatchingFollowsFlow ev1) (h2 : templateMatchingFollowsFlow ev2) :
    templateMatchingFollowsFlow (ev1 ++ ev2) := by
  intro j
  simp only [List.mem_append, exists_or, h1 j, h2 j]

theorem templateMatchingFollowsFlow_ProcessFrameTrackStep (cv : Collaborators) (frame : Image)
    (s : PlanarTrackerImpl) (i : Nat) :
    templateMatchingFollowsFlow (ProcessFrameTrackStep cv frame s i).2 := by
  obtain ⟨-, h⟩ := ProcessFrameTrackStep_cases cv frame s i
  intro j
  rcases h with ⟨h, -⟩ | ⟨-, -, -, ⟨h | h, -⟩ | ⟨h, -⟩⟩ <;> rw [h] <;> simp

theorem templateMatchingFollowsFlow_ProcessFrameTrackLoop (cv : Collaborators) (frame : Image)
    (is : List Nat) (s : PlanarTrackerImpl) :
    templateMatchingFollowsFlow (ProcessFrameTrackLoop cv frame is s).2 := by
  induction is generalizing s with
  | nil => intro j; simp [ProcessFrameTrackLoop]
  | cons i is ih =>
    unfold ProcessFrameTrackLoop
    exact templateMatchingFollowsFlow_append _ _
      (templateMatchingFollowsFlow_ProcessFrameTrackStep cv frame s i) (ih _)

theorem templateMatchingFollowsFlow_ProcessFrameDetect (cv : Collaborators)
    (s : PlanarTrackerImpl) (frame : Image) :
    templateMatchingFollowsFlow (ProcessFrameDetect cv s frame).2 := by
  intro j
  unfold ProcessFrameDetect MatchFeatures
  dsimp only
  split_ifs <;> simp

/-- During `ProcessFrame`, `RunTemplateMatching` is called for exactly the trackables for which
`RunOpticalFlow` was called and returned `true`. -/
theorem templateMatchingFollowsFlow_ProcessFrame (cv : Collaborators) (s : PlanarTrackerImpl)
    (frame : Image) : templateMatchingFollowsFlow (ProcessFrame cv s frame).2 := by
  obtain ⟨-, -, -, d4⟩ := ProcessFrame_decompose cv s frame
  rw [d4]
  apply templateMatchingFollowsFlow_append
  · exact templateMatchingFollowsFlow_ProcessFrameDetect cv _ frame
  · unfold ProcessFrameTrack
    split_ifs
    · exact templateMatchingFollowsFlow_ProcessFrameTrackLoop cv frame _ _
    · intro j; simp

end PlanarTrackerImpl

/-- C4, as amended. A trackable that `MatchFeatures` promotes to detected during a
`ProcessFrame` call (its `_isDetected` is clear on entry and set when the feature matching phase
has ended) is passed to `RunOpticalFlow` in that same call exactly when, on entry, `_frameCount`
is positive and `_prevPyramid` is non-empty, and the counter after the promotion is positive;
and it is passed to `RunTemplateMatching` in that same call exactly when that `RunOpticalFlow`
call returned `true`. -/
theorem C4_promoted_enters_tracking (cv : Collaborators) (s : PlanarTrackerImpl) (frame : Image)
    (b : Nat) (h1 : s.detectedAt b = false)
    (h2 : (PlanarTrackerImpl.ProcessFrameDetected cv s frame).1.detectedAt b = true) :
    ((∃ r, Event.RunOpticalFlow b r ∈ (PlanarTrackerImpl.ProcessFrame cv s frame).2) ↔
      (0 < s._frameCount ∧ 0 < s._prevPyramid.length ∧ 0 < s._currentlyTrackedMarkers + 1)) ∧
    ((∃ r, Event.RunTemplateMatching b r ∈ (PlanarTrackerImpl.ProcessFrame cv s frame).2) ↔
      Event.RunOpticalFlow b true ∈ (PlanarTrackerImpl.ProcessFrame cv s frame).2) := by
  refine ⟨?_, templateMatchingFollowsFlow_ProcessFrame cv s frame b⟩
  rw [ProcessFrame_opticalFlow_iff, ProcessFrameDetected_promoted cv s frame b h1 h2]
  constructor
  · rintro ⟨-, h3, h4, h5⟩
    exact ⟨h4, h5, h3⟩
  · rintro ⟨h4, h5, h3⟩
    exact ⟨h2, h3, h4, h5⟩

/-- Witness for C4 as amended: in the second frame of `Examples.oneMarkerSecondFrame` the
trackable 0 is promoted, and `RunOpticalFlow` is called for it in that frame. -/
theorem C4_promoted_enters_tracking_witness :
    Examples.oneMarkerSecondFrame.detectedAt 0 = false ∧
    (PlanarTrackerImpl.ProcessFrameDetected Examples.cvDetect Examples.oneMarkerSecondFrame
      Examples.frame).1.detectedAt 0 = true ∧
    ((∃ r, Event.RunOpticalFlow 0 r ∈ (PlanarTrackerImpl.ProcessFrame Examples.cvDetect
        Examples.oneMarkerSecondFrame Examples.frame).2) ↔
      (0 < Examples.oneMarkerSecondFrame._frameCount ∧
        0 < Examples.oneMarkerSecondFrame._prevPyramid.length ∧
        0 < Examples.oneMarkerSecondFrame._currentlyTrackedMarkers + 1)) ∧
    ((∃ r, Event.RunTemplateMatching 0 r ∈ (PlanarTrackerImpl.ProcessFrame Examples.cvDetect
        Examples.oneMarkerSecondFrame Examples.frame).2) ↔
      Event.RunOpticalFlow 0 true ∈ (PlanarTrackerImpl.ProcessFrame Examples.cvDetect
        Examples.oneMarkerSecondFrame Examples.frame).2) :=
  ⟨by decide!, by decide!,
    C4_promoted_enters_tracking Examples.cvDetect Examples.oneMarkerSecondFrame Examples.frame 0
      (by decide!) (by decide!)⟩

/-- Counterexample to C4 as stated: the tracker `Examples.oneMarkerSecondFrame` has processed one
frame and holds one trackable that is not detected; in the next `ProcessFrame` call
`MatchFeatures` promotes it, and the same call passes it to `RunOpticalFlow` and to
`RunTemplateMatching`. -/
theorem C4_counterexample :
    Examples.oneMarkerSecondFrame.detectedAt 0 = false ∧
    (PlanarTrackerImpl.ProcessFrameDetected Examples.cvDetect Examples.oneMarkerSecondFrame
      Examples.frame).1.detectedAt 0 = true ∧
    (PlanarTrackerImpl.ProcessFrame Examples.cvDetect Examples.oneMarkerSecondFrame
      Examples.frame).2
      = [Event.CalcDescriptors, Event.MatchFeatures, Event.FitHomography 0 51,
          Event.RunOpticalFlow 0 true, Event.RunTemplateMatching 0 true] := by
  decide!

/-- C5, as amended. If `MatchFeatures` fits a homography (the only way it changes the tracker),
then it does so once, for a trackable that is not detected, for which the matcher returned more
than `minRequiredDetectedFeatures` matches (compared as `size_t`) and of whose matches a positive
number `m` passes the ratio test; `m` itself is not compared with
`minRequiredDetectedFeatures`. -/
theorem C5_homography_fit_condition (cv : Collaborators) (s : PlanarTrackerImpl)
    (fs : List KeyPoint) (d : Mat)
    (h : (PlanarTrackerImpl.MatchFeatures cv s fs d).2 ≠ [] ∨
      (PlanarTrackerImpl.MatchFeatures cv s fs d).1 ≠ s) :
    ∃ (b : Nat) (t : TrackableInfo) (m : Int),
      (PlanarTrackerImpl.MatchFeatures cv s fs d).2 = [Event.FitHomography b m] ∧
      0 < m ∧ s._trackables[b]? = some t ∧ t._isDetected = false ∧
      (cv.MatchFeatures d t._descriptors).length > toSizeT s.minRequiredDetectedFeatures ∧
      totalGoodMatches (cv.MatchFeatures d t._descriptors) = m := by
  obtain ⟨-, he⟩ := MatchFeatures_effect cv s fs d
  have hbest := IsBestOf_MatchFeaturesBest cv s fs d
  rcases he with ⟨-, hs, hev⟩ | ⟨hpos, hev, -⟩
  · rcases h with h | h
    · exact absurd hev h
    · exact absurd hs h
  · rcases hbest with ⟨h0, -⟩ | ⟨b, t, hb, hts, hcand, hgood, -, -⟩
    · omega
    · unfold isCandidate at hcand
      simp only [Bool.and_eq_true, Bool.not_eq_true', decide_eq_true_eq] at hcand
      refine ⟨b, t, _, ?_, hpos, hts, hcand.1, hcand.2, hgood⟩
      rw [hev, hb]

/-- Witness for C5 as amended: `MatchFeatures` fits a homography for the one trackable of
`Examples.oneMarker` when 51 matches are returned and one of them passes the ratio test. -/
theorem C5_homography_fit_condition_witness :
    ∃ (b : Nat) (t : TrackableInfo) (m : Int),
      (PlanarTrackerImpl.MatchFeatures Examples.cvOneGood Examples.oneMarker [] []).2
        = [Event.FitHomography b m] ∧
      0 < m ∧ Examples.oneMarker._trackables[b]? = some t ∧ t._isDetected = false ∧
      (Examples.cvOneGood.MatchFeatures [] t._descriptors).length
        > toSizeT Examples.oneMarker.minRequiredDetectedFeatures ∧
      totalGoodMatches (Examples.cvOneGood.MatchFeatures [] t._descriptors) = m :=
  C5_homography_fit_condition Examples.cvOneGood Examples.oneMarker [] []
    (Or.inl (by decide!))

/-- Counterexample to C5 as stated: with the default `minRequiredDetectedFeatures` of 50 and a
matcher that returns 51 matches of which one passes the ratio test, `MatchFeatures` fits a
homography for the trackable, whose count of surviving matches is 1 and does not exceed 50, and
promotes it to detected. -/
theorem C5_counterexample :
    Examples.oneMarker.minRequiredDetectedFeatures = 50 ∧
    Examples.oneMarker.detectedAt 0 = false ∧
    PlanarTrackerImpl.goodMatchCount Examples.cvOneGood []
      (Examples.oneMarker._trackables.getD 0 default) = 1 ∧
    (PlanarTrackerImpl.MatchFeatures Examples.cvOneGood Examples.oneMarker [] []).2
      = [Event.FitHomography 0 1] ∧
    (PlanarTrackerImpl.MatchFeatures Examples.cvOneGood Examples.oneMarker
      [] []).1.detectedAt 0 = true := by
  decide!

namespace PlanarTrackerImpl

theorem countP_le_one_of_unique {α : Type} (p : α → Bool) (l : List α) (b : Nat)
    (h : ∀ (j : Nat) (x : α), l[j]? = some x → p x = true → j = b) : l.countP p ≤ 1 := by
  induction l generalizing b with
  | nil => simp
  | cons x xs ih =>
    by_cases hx : p x = true
    · have hb : 0 = b := h 0 x (by simp) hx
      have hz : xs.countP p = 0 := by
        rw [List.countP_eq_zero]
        intro a ha hpa
        obtain ⟨j, hj⟩ := List.mem_iff_getElem?.mp ha
        have := h (j + 1) a (by simpa using hj) hpa
        omega
      rw [List.countP_cons, hz]
      simp [hx]
    · rw [List.countP_cons]
      simp only [hx, Bool.false_eq_true, if_false, Nat.add_zero]
      refine ih (b - 1) ?_
      intro j a hj hpa
      have := h (j + 1) a (by simpa using hj) hpa
      omega

/-- The tracking phase sets `_isDetected` for no trackable. -/
theorem ProcessFrameTrack_detected_only_before (cv : Collaborators) (s : PlanarTrackerImpl)
    (frame : Image) (j : Nat) (tr : Bool)
    (h : (flagsOf (ProcessFrameTrack cv s frame).1)[j]? = some (true, tr)) :
    ∃ tr', (flagsOf s)[j]? = some (true, tr') := by
  obtain ⟨out, -, q2, -, -, -, -, q7⟩ := ProcessFrameTrack_summary cv s frame
  rw [q2 j] at h
  cases ho : out j with
  | none =>
    rw [ho] at h
    exact ⟨tr, h⟩
  | some b =>
    have := (q7 j).mp (by rw [ho]; simp)
    exact (detectedAt_iff s j).mp this.1

end PlanarTrackerImpl

/-- C7. A `ProcessFrame` call changes `_isDetected` from false to true for at most one
trackable (the number of positions at which the flag is clear before the call and set after it is
at most 1), and its feature matching phase increases `_currentlyTrackedMarkers` by at most 1. -/
theorem C7_at_most_one_promotion (cv : Collaborators) (s : PlanarTrackerImpl) (frame : Image) :
    ((s.flagsOf.zip (PlanarTrackerImpl.ProcessFrame cv s frame).1.flagsOf).countP
      (fun p => !p.1.1 && p.2.1)) ≤ 1 ∧
    (PlanarTrackerImpl.ProcessFrameDetected cv s frame).1._currentlyTrackedMarkers
      ≤ s._currentlyTrackedMarkers + 1 := by
  obtain ⟨d1, -⟩ := ProcessFrame_decompose cv s frame
  obtain ⟨-, -, -, hd, -⟩ := ProcessFrameDetected_effect cv s frame
  rw [d1]
  have hback := ProcessFrameTrack_detected_only_before cv
    (ProcessFrameDetected cv s frame).1 frame
  generalize (ProcessFrameTrack cv (ProcessFrameDetected cv s frame).1 frame).1.flagsOf
    = fl at hback
  rcases hd with ⟨hf, hc⟩ | ⟨-, b, tr, hb, hf, hc⟩
  · refine ⟨?_, by omega⟩
    apply countP_le_one_of_unique _ _ 0
    intro j x hj hp
    obtain ⟨x1, x2⟩ := x
    obtain ⟨h1, h2⟩ := List.getElem?_zip_eq_some.mp hj
    simp only [Bool.and_eq_true, Bool.not_eq_true'] at hp
    obtain ⟨y1, y2⟩ := x2
    obtain ⟨z1, z2⟩ := x1
    dsimp only at hp h1 h2
    obtain ⟨hp1, hp2⟩ := hp
    subst hp1 hp2
    obtain ⟨tr', htr'⟩ := hback j y2 h2
    rw [hf, h1] at htr'
    simp at htr'
  · refine ⟨?_, by omega⟩
    apply countP_le_one_of_unique _ _ b
    intro j x hj hp
    obtain ⟨x1, x2⟩ := x
    obtain ⟨h1, h2⟩ := List.getElem?_zip_eq_some.mp hj
    simp only [Bool.and_eq_true, Bool.not_eq_true'] at hp
    obtain ⟨y1, y2⟩ := x2
    obtain ⟨z1, z2⟩ := x1
    dsimp only at hp h1 h2
    obtain ⟨hp1, hp2⟩ := hp
    subst hp1 hp2
    obtain ⟨tr', htr'⟩ := hback j y2 h2
    by_contra hne
    rw [hf, List.getElem?_set, if_neg (fun h => hne h.symm), h1] at htr'
    simp at htr'

/-- Witness for C7: in the frame that detects the one trackable of `Examples.oneMarker`, at most
one trackable is promoted and the counter rises by at most 1. -/
theorem C7_at_most_one_promotion_witness :
    ((Examples.oneMarker.flagsOf.zip (PlanarTrackerImpl.ProcessFrame Examples.cvDetect
        Examples.oneMarker Examples.frame).1.flagsOf).countP (fun p => !p.1.1 && p.2.1)) ≤ 1 ∧
    (PlanarTrackerImpl.ProcessFrameDetected Examples.cvDetect Examples.oneMarker
      Examples.frame).1._currentlyTrackedMarkers
      ≤ Examples.oneMarker._currentlyTrackedMarkers + 1 :=
  C7_at_most_one_promotion Examples.cvDetect Examples.oneMarker Examples.frame

namespace PlanarTrackerImpl

/-- The events of one iteration of the tracking loop are optical flow and template matching
calls. -/
theorem ProcessFrameTrackStep_events (cv : Collaborators) (frame : Image)
    (s : PlanarTrackerImpl) (i : Nat) :
    ∀ e ∈ (ProcessFrameTrackStep cv frame s i).2,
      e ≠ Event.CalcDescriptors ∧ e ≠ Event.MatchFeatures := by
  obtain ⟨-, h⟩ := ProcessFrameTrackStep_cases cv frame s i
  intro e he
  rcases h with ⟨hev, -⟩ | ⟨-, -, -, ⟨hev | hev, -⟩ | ⟨hev, -⟩⟩ <;>
    (rw [hev] at he; simp at he; try (rcases he with rfl | rfl <;> simp))

theorem ProcessFrameTrackLoop_events (cv : Collaborators) (frame : Image) (is : List Nat)
    (s : PlanarTrackerImpl) :
    ∀ e ∈ (ProcessFrameTrackLoop cv frame is s).2,
      e ≠ Event.CalcDescriptors ∧ e ≠ Event.MatchFeatures := by
  induction is generalizing s with
  | nil => intro e he; simp [ProcessFrameTrackLoop] at he
  | cons i is ih =>
    intro e he
    rw [show ProcessFrameTrackLoop cv frame (i :: is) s
        = ((ProcessFrameTrackLoop cv frame is (ProcessFrameTrackStep cv frame s i).1).1,
          (ProcessFrameTrackStep cv frame s i).2
            ++ (ProcessFrameTrackLoop cv frame is (ProcessFrameTrackStep cv frame s i).1).2)
        from rfl] at he
    rcases List.mem_append.mp he with h | h
    · exact ProcessFrameTrackStep_events cv frame s i e h
    · exact ih _ e h

theorem ProcessFrameTrack_events (cv : Collaborators) (s : PlanarTrackerImpl) (frame : Image) :
    ∀ e ∈ (ProcessFrameTrack cv s frame).2,
      e ≠ Event.CalcDescriptors ∧ e ≠ Event.MatchFeatures := by
  unfold ProcessFrameTrack
  split
  · exact ProcessFrameTrackLoop_events cv frame _ s
  · intro e he; cases he

theorem ProcessFrameDetect_events (cv : Collaborators) (s : PlanarTrackerImpl)
    (frame : Image) :
    (Event.MatchFeatures ∈ (ProcessFrameDetect cv s frame).2 ↔
      (s._currentlyTrackedMarkers < s._maxNumberOfMarkersToTrack ∧
        ((cv.DetectFeatures (detectionFrame cv s frame) (CreateFeatureMask s)).length : Int)
          > s.minRequiredDetectedFeatures)) ∧
    (Event.CalcDescriptors ∈ (ProcessFrameDetect cv s frame).2 ↔
      (s._currentlyTrackedMarkers < s._maxNumberOfMarkersToTrack ∧
        ((cv.DetectFeatures (detectionFrame cv s frame) (CreateFeatureMask s)).length : Int)
          > s.minRequiredDetectedFeatures)) := by
  unfold ProcessFrameDetect
  dsimp only
  by_cases h1 : s._currentlyTrackedMarkers < s._maxNumberOfMarkersToTrack
  · by_cases h2 : ((cv.DetectFeatures (detectionFrame cv s frame) (CreateFeatureMask s)).length
        : Int) > s.minRequiredDetectedFeatures
    · simp [if_pos h1, if_pos h2, h1, h2]
    · simp [if_pos h1, if_neg h2, h1, h2]
  · simp [if_neg h1, h1]

/-- When the feature matching phase computes descriptors and calls `MatchFeatures`. -/
theorem ProcessFrameDetected_events (cv : Collaborators) (s : PlanarTrackerImpl)
    (frame : Image) :
    (Event.MatchFeatures ∈ (ProcessFrameDetected cv s frame).2 ↔
      (s._currentlyTrackedMarkers < s._maxNumberOfMarkersToTrack ∧
        ((cv.DetectFeatures (detectionFrame cv s frame) (CreateFeatureMask s)).length : Int)
          > s.minRequiredDetectedFeatures)) ∧
    (Event.CalcDescriptors ∈ (ProcessFrameDetected cv s frame).2 ↔
      (s._currentlyTrackedMarkers < s._maxNumberOfMarkersToTrack ∧
        ((cv.DetectFeatures (detectionFrame cv s frame) (CreateFeatureMask s)).length : Int)
          > s.minRequiredDetectedFeatures)) :=
  ProcessFrameDetect_events cv { s with _pyramid := cv.buildOpticalFlowPyramid frame } frame

theorem ProcessFrame_events_detect (cv : Collaborators) (s : PlanarTrackerImpl)
    (frame : Image) (e : Event) (he : e = Event.CalcDescriptors ∨ e = Event.MatchFeatures) :
    e ∈ (ProcessFrame cv s frame).2 ↔ e ∈ (ProcessFrameDetected cv s frame).2 := by
  obtain ⟨-, -, -, d4⟩ := ProcessFrame_decompose cv s frame
  rw [d4, List.mem_append]
  constructor
  · rintro (h | h)
    · exact h
    · have := ProcessFrameTrack_events cv _ frame e h
      rcases he with rfl | rfl
      · exact absurd rfl this.1
      · exact absurd rfl this.2
  · exact Or.inl

end PlanarTrackerImpl

/-- C8, as amended. When the feature matching phase of `ProcessFrame` runs (the counter is
below the cap), descriptors are computed and `MatchFeatures` is called exactly when the number of
features detected on the detection frame is greater than `minRequiredDetectedFeatures`; with a
number equal to or smaller than it, both are skipped. -/
theorem C8_feature_count_gate (cv : Collaborators) (s : PlanarTrackerImpl) (frame : Image)
    (h : s._currentlyTrackedMarkers < s._maxNumberOfMarkersToTrack) :
    (Event.MatchFeatures ∈ (PlanarTrackerImpl.ProcessFrame cv s frame).2 ↔
      ((cv.DetectFeatures (PlanarTrackerImpl.detectionFrame cv s frame)
          s.CreateFeatureMask).length : Int) > s.minRequiredDetectedFeatures) ∧
    (Event.CalcDescriptors ∈ (PlanarTrackerImpl.ProcessFrame cv s frame).2 ↔
      ((cv.DetectFeatures (PlanarTrackerImpl.detectionFrame cv s frame)
          s.CreateFeatureMask).length : Int) > s.minRequiredDetectedFeatures) := by
  obtain ⟨h1, h2⟩ := ProcessFrameDetected_events cv s frame
  rw [ProcessFrame_events_detect cv s frame _ (Or.inr rfl),
    ProcessFrame_events_detect cv s frame _ (Or.inl rfl), h1, h2]
  simp [h]

/-- Witness for C8 as amended: for `Examples.oneMarker` the feature matching phase runs, and
with 51 detected features `MatchFeatures` is called. -/
theorem C8_feature_count_gate_witness :
    Examples.oneMarker._currentlyTrackedMarkers < Examples.oneMarker._maxNumberOfMarkersToTrack ∧
    (Event.MatchFeatures ∈ (PlanarTrackerImpl.ProcessFrame Examples.cvDetect Examples.oneMarker
        Examples.frame).2 ↔
      ((Examples.cvDetect.DetectFeatures
          (PlanarTrackerImpl.detectionFrame Examples.cvDetect Examples.oneMarker Examples.frame)
          Examples.oneMarker.CreateFeatureMask).length : Int)
        > Examples.oneMarker.minRequiredDetectedFeatures) :=
  ⟨by decide!,
    (C8_feature_count_gate Examples.cvDetect Examples.oneMarker Examples.frame (by decide!)).1⟩

/-- Counterexample to C8 as stated: for `Examples.oneMarker` the feature matching phase runs
and exactly `minRequiredDetectedFeatures` (50) features are detected, a count that is not fewer
than `minRequiredDetectedFeatures`; `ProcessFrame` computes no descriptors and does not call
`MatchFeatures`. -/
theorem C8_counterexample :
    Examples.oneMarker._currentlyTrackedMarkers < Examples.oneMarker._maxNumberOfMarkersToTrack ∧
    ((Examples.cvFifty.DetectFeatures
        (PlanarTrackerImpl.detectionFrame Examples.cvFifty Examples.oneMarker Examples.frame)
        Examples.oneMarker.CreateFeatureMask).length : Int)
      = Examples.oneMarker.minRequiredDetectedFeatures ∧
    (PlanarTrackerImpl.ProcessFrame Examples.cvFifty Examples.oneMarker Examples.frame).2 = [] := by
  decide!

theorem mem_failures_iff (es : List Event) (i : Nat) :
    i ∈ failures es ↔
      (Event.RunOpticalFlow i false ∈ es ∨ Event.RunTemplateMatching i false ∈ es) := by
  induction es with
  | nil => simp [failures]
  | cons e es ih =>
    cases e with
    | RunOpticalFlow j r =>
      cases r
      · simp only [failures, List.mem_cons, ih, Event.RunOpticalFlow.injEq, and_true]
        tauto
      · simp [failures, ih]
    | RunTemplateMatching j r =>
      cases r
      · simp only [failures, List.mem_cons, ih, Event.RunTemplateMatching.injEq, and_true]
        tauto
      · simp [failures, ih]
    | CalcDescriptors => simp [failures, ih]
    | MatchFeatures => simp [failures, ih]
    | FitHomography b m => simp [failures, ih]

/-- C9. In a `ProcessFrame` call, the trackables for which `RunOpticalFlow` or
`RunTemplateMatching` returns false are those listed by `failures`; no trackable is listed twice;
`_currentlyTrackedMarkers` at the end of the call is its value after the feature matching phase
less the number of listed trackables (one decrement each); and each listed trackable was detected
when the tracking phase began and ends the call with `_isDetected` and `_isTracking` both
false. -/
theorem C9_failure_clears_flags_once (cv : Collaborators) (s : PlanarTrackerImpl)
    (frame : Image) :
    (∀ i, i ∈ failures (PlanarTrackerImpl.ProcessFrame cv s frame).2 ↔
      (Event.RunOpticalFlow i false ∈ (PlanarTrackerImpl.ProcessFrame cv s frame).2 ∨
        Event.RunTemplateMatching i false ∈ (PlanarTrackerImpl.ProcessFrame cv s frame).2)) ∧
    (failures (PlanarTrackerImpl.ProcessFrame cv s frame).2).Nodup ∧
    (PlanarTrackerImpl.ProcessFrame cv s frame).1._currentlyTrackedMarkers
      = (PlanarTrackerImpl.ProcessFrameDetected cv s frame).1._currentlyTrackedMarkers
        - ((failures (PlanarTrackerImpl.ProcessFrame cv s frame).2).length : Int) ∧
    ∀ i ∈ failures (PlanarTrackerImpl.ProcessFrame cv s frame).2,
      (PlanarTrackerImpl.ProcessFrameDetected cv s frame).1.detectedAt i = true ∧
      (PlanarTrackerImpl.ProcessFrame cv s frame).1.detectedAt i = false ∧
      (PlanarTrackerImpl.ProcessFrame cv s frame).1.trackingAt i = false := by
  refine ⟨fun i => mem_failures_iff _ i, ?_⟩
  obtain ⟨d1, d2, -, d4⟩ := ProcessFrame_decompose cv s frame
  obtain ⟨-, -, -, -, e5, -⟩ := ProcessFrameDetected_effect cv s frame
  obtain ⟨out, -, q2, q3, q4, q5, -, q7⟩ :=
    ProcessFrameTrack_summary cv (ProcessFrameDetected cv s frame).1 frame
  have hfail : failures (ProcessFrame cv s frame).2
      = failures (ProcessFrameTrack cv (ProcessFrameDetected cv s frame).1 frame).2 := by
    rw [d4, failures_append, e5, List.nil_append]
  rw [hfail, d2]
  refine ⟨q4, q3, ?_⟩
  intro i hi
  have ho := (q5 i).mp hi
  have hfl := q2 i
  rw [ho] at hfl
  refine ⟨((q7 i).mp (by rw [ho]; simp)).1, ?_, ?_⟩
  · rw [detectedAt_eq, d1, hfl]; rfl
  · rw [trackingAt_eq, d1, hfl]; rfl

/-- Witness for C9: in the second frame of `Examples.detected`, template matching fails for the
trackable 0, which ends the call with both flags false, the counter having dropped from 1
to 0. -/
theorem C9_failure_clears_flags_once_witness :
    Event.RunTemplateMatching 0 false ∈ (PlanarTrackerImpl.ProcessFrame Examples.cvTemplateFail
      Examples.detected Examples.frame).2 ∧
    (PlanarTrackerImpl.ProcessFrameDetected Examples.cvTemplateFail Examples.detected
      Examples.frame).1._currentlyTrackedMarkers = 1 ∧
    (PlanarTrackerImpl.ProcessFrame Examples.cvTemplateFail Examples.detected
      Examples.frame).1._currentlyTrackedMarkers = 0 ∧
    ((PlanarTrackerImpl.ProcessFrameDetected Examples.cvTemplateFail Examples.detected
        Examples.frame).1.detectedAt 0 = true ∧
      (PlanarTrackerImpl.ProcessFrame Examples.cvTemplateFail Examples.detected
        Examples.frame).1.detectedAt 0 = false ∧
      (PlanarTrackerImpl.ProcessFrame Examples.cvTemplateFail Examples.detected
        Examples.frame).1.trackingAt 0 = false) :=
  ⟨by decide!, by decide!, by decide!,
    (C9_failure_clears_flags_once Examples.cvTemplateFail Examples.detected Examples.frame).2.2.2
      0 (by decide!)⟩

/-- C10. `ProcessFrame` calls `RunOpticalFlow` for the trackable `i` exactly when, as the
tracking phase begins, the trackable is detected and `_currentlyTrackedMarkers` is positive, and
`_frameCount` is positive and `_prevPyramid` is non-empty; and in a call with `_frameCount` not
positive or `_prevPyramid` empty no trackable gains `_isTracking` and none loses
`_isDetected`. -/
theorem C10_tracking_phase_condition (cv : Collaborators) (s : PlanarTrackerImpl)
    (frame : Image) (i : Nat) :
    ((∃ r, Event.RunOpticalFlow i r ∈ (PlanarTrackerImpl.ProcessFrame cv s frame).2) ↔
      ((PlanarTrackerImpl.ProcessFrameDetected cv s frame).1.detectedAt i = true ∧
        0 < (PlanarTrackerImpl.ProcessFrameDetected cv s frame).1._currentlyTrackedMarkers ∧
        0 < s._frameCount ∧ 0 < s._prevPyramid.length)) ∧
    (¬(0 < s._frameCount ∧ 0 < s._prevPyramid.length) →
      ∀ j, ((PlanarTrackerImpl.ProcessFrame cv s frame).1.trackingAt j = true →
          s.trackingAt j = true) ∧
        (s.detectedAt j = true →
          (PlanarTrackerImpl.ProcessFrame cv s frame).1.detectedAt j = true)) := by
  refine ⟨ProcessFrame_opticalFlow_iff cv s frame i, ?_⟩
  intro hg j
  obtain ⟨d1, -⟩ := ProcessFrame_decompose cv s frame
  obtain ⟨e1, e2, -, hd, -⟩ := ProcessFrameDetected_effect cv s frame
  obtain ⟨out, -, q2, -, -, -, -, q7⟩ :=
    ProcessFrameTrack_summary cv (ProcessFrameDetected cv s frame).1 frame
  have hout : out j = none := by
    by_contra h
    obtain ⟨-, -, h3, h4⟩ := (q7 j).mp h
    rw [e1] at h3
    rw [e2] at h4
    exact hg ⟨h3, h4⟩
  have hfl := q2 j
  rw [hout] at hfl
  dsimp only at hfl
  rw [detectedAt_eq, trackingAt_eq, detectedAt_eq, trackingAt_eq, d1, hfl]
  rcases hd with ⟨hf, -⟩ | ⟨-, b, tr, hb, hf, -⟩
  · rw [hf]
    exact ⟨id, id⟩
  · rw [hf, List.getElem?_set]
    by_cases hbj : b = j
    · subst hbj
      have hlen : b < s.flagsOf.length := by
        by_contra hlt
        rw [List.getElem?_eq_none (Nat.le_of_not_lt hlt)] at hb
        cases hb
      rw [if_pos rfl, if_pos hlen, hb]
      simp
    · rw [if_neg hbj]
      exact ⟨id, id⟩

/-- Witness for C10: in the second frame of `Examples.detected` the trackable 0 is detected, the
counter is 1, one frame has been processed and the previous pyramid is there, and
`RunOpticalFlow` is called for it. -/
theorem C10_tracking_phase_condition_witness :
    ∃ r, Event.RunOpticalFlow 0 r ∈ (PlanarTrackerImpl.ProcessFrame Examples.cvDetect
      Examples.detected Examples.frame).2 :=
  (C10_tracking_phase_condition Examples.cvDetect Examples.detected Examples.frame 0).1.mpr
    (by decide!)

/-! ## Rounding to `float` -/

theorem pow2_eq (e : Int) : pow2 e = (2 : ℚ) ^ e := by
  unfold pow2
  split_ifs with h
  · obtain ⟨n, rfl⟩ := Int.eq_ofNat_of_zero_le h
    simp
  · obtain ⟨n, rfl⟩ : ∃ n : ℕ, e = -(n : ℤ) := ⟨(-e).toNat, by omega⟩
    simp [zpow_neg]

theorem pow2_pos (e : Int) : 0 < pow2 e := by
  rw [pow2_eq]; positivity

theorem pow2_add (a b : Int) : pow2 (a + b) = pow2 a * pow2 b := by
  simp only [pow2_eq]
  exact zpow_add₀ (by norm_num) a b

theorem pow2_le_pow2 {a b : Int} (h : a ≤ b) : pow2 a ≤ pow2 b := by
  simp only [pow2_eq]
  exact zpow_le_zpow_right₀ (by norm_num) h

theorem pow2_lt_pow2_iff {a b : Int} : pow2 a < pow2 b ↔ a < b := by
  simp only [pow2_eq]
  exact zpow_lt_zpow_iff_right₀ (by norm_num)

theorem log2Aux_spec (f n : Nat) (h1 : 1 ≤ n) (h2 : n ≤ f) :
    2 ^ log2Aux f n ≤ n ∧ n < 2 ^ (log2Aux f n + 1) := by
  induction f generalizing n with
  | zero => omega
  | succ f ih =>
    unfold log2Aux
    split_ifs with h
    · obtain ⟨a, b⟩ := ih (n / 2) (by omega) (by omega)
      constructor
      · rw [pow_succ]; omega
      · rw [pow_succ]; omega
    · have : n = 1 := by omega
      subst this
      simp

theorem natLog2_spec (n : Nat) (h : 1 ≤ n) :
    2 ^ natLog2 n ≤ n ∧ n < 2 ^ (natLog2 n + 1) :=
  log2Aux_spec n n h le_rfl

theorem pow2_natCast_sub (m n : ℕ) : pow2 ((m : ℤ) - n) = (2 : ℚ) ^ m / 2 ^ n := by
  rw [pow2_eq, zpow_sub₀ (by norm_num)]
  simp [zpow_natCast]

theorem floorLog2_spec (q : ℚ) (hq : 0 < q) :
    pow2 (floorLog2 q) ≤ q ∧ q < pow2 (floorLog2 q + 1) := by
  have hnum : 0 < q.num := Rat.num_pos.mpr hq
  have ha : 1 ≤ q.num.natAbs := by omega
  have hb : 1 ≤ q.den := q.den_pos
  obtain ⟨a1, a2⟩ := natLog2_spec _ ha
  obtain ⟨b1, b2⟩ := natLog2_spec _ hb
  have hq' : q = (q.num.natAbs : ℚ) / (q.den : ℚ) := by
    have h1 : ((q.num.natAbs : ℤ) : ℚ) = (q.num : ℚ) := by
      rw [Int.natAbs_of_nonneg hnum.le]
    rw [← Int.cast_natCast, h1, Rat.num_div_den]
  unfold floorLog2
  dsimp only
  generalize q.num.natAbs = a at *
  generalize q.den = b at *
  have a1' : (2 : ℚ) ^ natLog2 a ≤ a := by exact_mod_cast a1
  have a2' : (a : ℚ) < 2 ^ (natLog2 a + 1) := by exact_mod_cast a2
  have b1' : (2 : ℚ) ^ natLog2 b ≤ b := by exact_mod_cast b1
  have b2' : (b : ℚ) < 2 ^ (natLog2 b + 1) := by exact_mod_cast b2
  have hb0 : (0 : ℚ) < b := by exact_mod_cast hb
  have ha0 : (0 : ℚ) < a := by exact_mod_cast ha
  have hup : q < pow2 ((natLog2 a : ℤ) - natLog2 b + 1) := by
    have e : ((natLog2 a : ℤ) - natLog2 b + 1) = ((natLog2 a + 1 : ℕ) : ℤ) - natLog2 b := by
      push_cast; ring
    rw [e, pow2_natCast_sub, hq', div_lt_div_iff₀ hb0 (by positivity)]
    calc (a : ℚ) * 2 ^ natLog2 b < 2 ^ (natLog2 a + 1) * 2 ^ natLog2 b := by
          apply mul_lt_mul_of_pos_right a2' (by positivity)
      _ ≤ 2 ^ (natLog2 a + 1) * b := by
          apply mul_le_mul_of_nonneg_left b1' (by positivity)
  have hlo : pow2 ((natLog2 a : ℤ) - natLog2 b - 1) ≤ q := by
    have e : ((natLog2 a : ℤ) - natLog2 b - 1) = ((natLog2 a : ℕ) : ℤ) - (natLog2 b + 1 : ℕ) := by
      push_cast; ring
    rw [e, pow2_natCast_sub, hq', div_le_div_iff₀ (by positivity) hb0]
    calc (2 : ℚ) ^ natLog2 a * b ≤ a * b := by
          apply mul_le_mul_of_nonneg_right a1' hb0.le
      _ ≤ a * 2 ^ (natLog2 b + 1) := by
          apply mul_le_mul_of_nonneg_left b2'.le ha0.le
  split_ifs with h
  · exact ⟨h, hup⟩
  · refine ⟨hlo, ?_⟩
    rw [sub_add_cancel]
    exact not_le.mp h

theorem floorLog2_unique (q : ℚ) (e : Int) (h1 : pow2 e ≤ q) (h2 : q < pow2 (e + 1)) :
    floorLog2 q = e := by
  have hq : 0 < q := lt_of_lt_of_le (pow2_pos e) h1
  obtain ⟨s1, s2⟩ := floorLog2_spec q hq
  have a : e < floorLog2 q + 1 := pow2_lt_pow2_iff.mp (lt_of_le_of_lt h1 s2)
  have b : floorLog2 q < e + 1 := pow2_lt_pow2_iff.mp (lt_of_le_of_lt s1 h2)
  omega

theorem floorLog2_mono (q1 q2 : ℚ) (h1 : 0 < q1) (h : q1 ≤ q2) : floorLog2 q1 ≤ floorLog2 q2 := by
  obtain ⟨s1, -⟩ := floorLog2_spec q1 h1
  obtain ⟨-, t2⟩ := floorLog2_spec q2 (lt_of_lt_of_le h1 h)
  have : floorLog2 q1 < floorLog2 q2 + 1 :=
    pow2_lt_pow2_iff.mp (lt_of_le_of_lt (le_trans s1 h) t2)
  omega

theorem floorLog2_pow2_mul (q : ℚ) (k : Int) (hq : 0 < q) :
    floorLog2 (pow2 k * q) = floorLog2 q + k := by
  obtain ⟨s1, s2⟩ := floorLog2_spec q hq
  apply floorLog2_unique
  · rw [add_comm, pow2_add]
    exact mul_le_mul_of_nonneg_left s1 (pow2_pos k).le
  · rw [show floorLog2 q + k + 1 = k + (floorLog2 q + 1) by ring, pow2_add]
    exact mul_lt_mul_of_pos_left s2 (pow2_pos k)

theorem roundHalfEven_eq (t : ℚ) :
    roundHalfEven t = if t - (⌊t⌋ : ℤ) < 1 / 2 then ⌊t⌋
      else if 1 / 2 < t - (⌊t⌋ : ℤ) then ⌊t⌋ + 1
      else if ⌊t⌋ % 2 = 0 then ⌊t⌋ else ⌊t⌋ + 1 := rfl

theorem roundHalfEven_cases (t : ℚ) :
    (roundHalfEven t = ⌊t⌋ ∧ t - ⌊t⌋ ≤ 1 / 2) ∨ (roundHalfEven t = ⌊t⌋ + 1 ∧ 1 / 2 ≤ t - ⌊t⌋) := by
  rw [roundHalfEven_eq]
  split_ifs with h1 h2 h3
  · exact Or.inl ⟨rfl, h1.le⟩
  · exact Or.inr ⟨rfl, h2.le⟩
  · exact Or.inl ⟨rfl, not_lt.mp h2⟩
  · exact Or.inr ⟨rfl, not_lt.mp h1⟩

theorem roundHalfEven_intCast (n : Int) : roundHalfEven (n : ℚ) = n := by
  rcases roundHalfEven_cases (n : ℚ) with ⟨h, -⟩ | ⟨-, h⟩
  · rw [h, Int.floor_intCast]
  · rw [Int.floor_intCast] at h
    norm_num at h

theorem roundHalfEven_sub_le (t : ℚ) : (roundHalfEven t : ℚ) - t ≤ 1 / 2 := by
  have h1 := Int.floor_le t
  have h2 := Int.lt_floor_add_one t
  rcases roundHalfEven_cases t with ⟨h, h'⟩ | ⟨h, h'⟩ <;> rw [h] <;> push_cast <;> linarith

theorem sub_roundHalfEven_le (t : ℚ) : t - (roundHalfEven t : ℚ) ≤ 1 / 2 := by
  have h1 := Int.floor_le t
  have h2 := Int.lt_floor_add_one t
  rcases roundHalfEven_cases t with ⟨h, h'⟩ | ⟨h, h'⟩ <;> rw [h] <;> push_cast <;> linarith

theorem roundHalfEven_mono (t t' : ℚ) (h : t ≤ t') : roundHalfEven t ≤ roundHalfEven t' := by
  have hf : ⌊t⌋ ≤ ⌊t'⌋ := Int.floor_mono h
  rcases lt_or_eq_of_le hf with hlt | heq
  · rcases roundHalfEven_cases t with ⟨a, -⟩ | ⟨a, -⟩ <;>
      rcases roundHalfEven_cases t' with ⟨b, -⟩ | ⟨b, -⟩ <;> omega
  · rw [roundHalfEven_eq, roundHalfEven_eq]
    rw [← heq]
    split_ifs <;> first | omega | (exfalso; linarith)

theorem roundHalfEven_nonneg (t : ℚ) (h : 0 ≤ t) : 0 ≤ roundHalfEven t := by
  have := roundHalfEven_mono 0 t h
  rwa [show (0 : ℚ) = ((0 : ℤ) : ℚ) by norm_num, roundHalfEven_intCast] at this

theorem le_roundHalfEven (n : Int) (t : ℚ) (h : (n : ℚ) ≤ t) : n ≤ roundHalfEven t := by
  have := roundHalfEven_mono n t h
  rwa [roundHalfEven_intCast] at this

theorem roundHalfEven_le (n : Int) (t : ℚ) (h : t ≤ (n : ℚ)) : roundHalfEven t ≤ n := by
  have := roundHalfEven_mono t n h
  rwa [roundHalfEven_intCast] at this

theorem roundToGrid_zero : roundToGrid 0 = 0 := by
  unfold roundToGrid; simp

theorem roundToGrid_eq (q : ℚ) (h : q ≠ 0) :
    roundToGrid q = (roundHalfEven (q / pow2 (ulpExponent q)) : ℚ) * pow2 (ulpExponent q) := by
  unfold roundToGrid; rw [if_neg h]

theorem roundToGrid_nonneg (q : ℚ) (h : 0 ≤ q) : 0 ≤ roundToGrid q := by
  by_cases h0 : q = 0
  · rw [h0, roundToGrid_zero]
  · rw [roundToGrid_eq q h0]
    have h1 : 0 ≤ q / pow2 (ulpExponent q) := div_nonneg h (pow2_pos _).le
    have h2 : (0 : ℚ) ≤ (roundHalfEven (q / pow2 (ulpExponent q)) : ℚ) := by
      exact_mod_cast roundHalfEven_nonneg _ h1
    exact mul_nonneg h2 (pow2_pos _).le

theorem pow2_sub (a b : Int) : pow2 (a - b) = pow2 a / pow2 b := by
  simp only [pow2_eq]
  exact zpow_sub₀ (by norm_num) a b

theorem pow2_natCast (n : ℕ) : pow2 (n : ℤ) = (((2 : ℤ) ^ n : ℤ) : ℚ) := by
  rw [pow2_eq]; push_cast; exact zpow_natCast 2 n

/-- A multiple of a power of two at least the unit in the last place is left unchanged. -/
theorem roundToGrid_of_grid (q : ℚ) (m u : ℤ) (hq : q = m * pow2 u) (hu : ulpExponent q ≤ u) :
    roundToGrid q = q := by
  by_cases h0 : q = 0
  · rw [h0, roundToGrid_zero]
  · rw [roundToGrid_eq q h0]
    obtain ⟨n, hn⟩ := Int.eq_ofNat_of_zero_le (sub_nonneg.mpr hu)
    have e1 : q / pow2 (ulpExponent q) = ((m * 2 ^ n : ℤ) : ℚ) := by
      rw [hq] at *
      rw [mul_div_assoc, ← pow2_sub, hn, pow2_natCast]
      push_cast; ring
    rw [e1, roundHalfEven_intCast]
    have e2 : u = ulpExponent q + n := by omega
    generalize ulpExponent q = U at *
    subst e2
    rw [hq, pow2_add, pow2_natCast]
    push_cast; ring

theorem floorLog2_ge_of_le (q : ℚ) (e : ℤ) (h : pow2 e ≤ q) : e ≤ floorLog2 q := by
  have hq : 0 < q := lt_of_lt_of_le (pow2_pos e) h
  obtain ⟨-, s2⟩ := floorLog2_spec q hq
  have : e < floorLog2 q + 1 := pow2_lt_pow2_iff.mp (lt_of_le_of_lt h s2)
  omega

theorem floorLog2_lt_of_lt (q : ℚ) (e : ℤ) (hq : 0 < q) (h : q < pow2 e) : floorLog2 q < e := by
  obtain ⟨s1, -⟩ := floorLog2_spec q hq
  exact pow2_lt_pow2_iff.mp (lt_of_le_of_lt s1 h)

theorem ulpExponent_normal (q : ℚ) (h : pow2 (-126) ≤ q) : ulpExponent q = floorLog2 q - 23 := by
  have hq : 0 < q := lt_of_lt_of_le (pow2_pos _) h
  have := floorLog2_ge_of_le q _ h
  unfold ulpExponent
  rw [abs_of_pos hq]
  omega

/-- The scaled value that is rounded to an integer lies between `2 ^ 23` and `2 ^ 24`. -/
theorem scaled_bounds (q : ℚ) (hq : 0 < q) :
    (((2 : ℤ) ^ 23 : ℤ) : ℚ) ≤ q / pow2 (floorLog2 q - 23) ∧
    q / pow2 (floorLog2 q - 23) < (((2 : ℤ) ^ 24 : ℤ) : ℚ) := by
  obtain ⟨s1, s2⟩ := floorLog2_spec q hq
  have hp := pow2_pos (floorLog2 q - 23)
  have e1 : pow2 (floorLog2 q) = (((2 : ℤ) ^ 23 : ℤ) : ℚ) * pow2 (floorLog2 q - 23) := by
    rw [← pow2_natCast, ← pow2_add]; congr 1; push_cast; ring
  have e2 : pow2 (floorLog2 q + 1) = (((2 : ℤ) ^ 24 : ℤ) : ℚ) * pow2 (floorLog2 q - 23) := by
    rw [← pow2_natCast, ← pow2_add]; congr 1; push_cast; ring
  constructor
  · rw [le_div_iff₀ hp, ← e1]; exact s1
  · rw [div_lt_iff₀ hp, ← e2]; exact s2

theorem roundToGrid_normal (q : ℚ) (h : pow2 (-126) ≤ q) :
    roundToGrid q
      = (roundHalfEven (q / pow2 (floorLog2 q - 23)) : ℚ) * pow2 (floorLog2 q - 23) := by
  have hq : 0 < q := lt_of_lt_of_le (pow2_pos _) h
  rw [roundToGrid_eq q hq.ne', ulpExponent_normal q h]

theorem roundToGrid_bounds (q : ℚ) (h : pow2 (-126) ≤ q) :
    pow2 (floorLog2 q) ≤ roundToGrid q ∧ roundToGrid q ≤ pow2 (floorLog2 q + 1) := by
  have hq : 0 < q := lt_of_lt_of_le (pow2_pos _) h
  obtain ⟨b1, b2⟩ := scaled_bounds q hq
  have hp := pow2_pos (floorLog2 q - 23)
  have e1 : pow2 (floorLog2 q) = (((2 : ℤ) ^ 23 : ℤ) : ℚ) * pow2 (floorLog2 q - 23) := by
    rw [← pow2_natCast, ← pow2_add]; congr 1; push_cast; ring
  have e2 : pow2 (floorLog2 q + 1) = (((2 : ℤ) ^ 24 : ℤ) : ℚ) * pow2 (floorLog2 q - 23) := by
    rw [← pow2_natCast, ← pow2_add]; congr 1; push_cast; ring
  rw [roundToGrid_normal q h, e1, e2]
  have r1 := le_roundHalfEven _ _ b1
  have r2 := roundHalfEven_le _ _ b2.le
  constructor
  · exact mul_le_mul_of_nonneg_right (by exact_mod_cast r1) hp.le
  · exact mul_le_mul_of_nonneg_right (by exact_mod_cast r2) hp.le

theorem roundToGrid_mono (q1 q2 : ℚ) (h1 : pow2 (-126) ≤ q1) (h : q1 ≤ q2) :
    roundToGrid q1 ≤ roundToGrid q2 := by
  have hq1 : 0 < q1 := lt_of_lt_of_le (pow2_pos _) h1
  have h2 : pow2 (-126) ≤ q2 := le_trans h1 h
  have he := floorLog2_mono q1 q2 hq1 h
  rcases lt_or_eq_of_le he with hlt | heq
  · obtain ⟨-, a⟩ := roundToGrid_bounds q1 h1
    obtain ⟨b, -⟩ := roundToGrid_bounds q2 h2
    exact le_trans a (le_trans (pow2_le_pow2 (by omega)) b)
  · rw [roundToGrid_normal q1 h1, roundToGrid_normal q2 h2, heq]
    have hp := pow2_pos (floorLog2 q2 - 23)
    apply mul_le_mul_of_nonneg_right _ hp.le
    have := roundHalfEven_mono (q1 / pow2 (floorLog2 q2 - 23)) (q2 / pow2 (floorLog2 q2 - 23))
      (div_le_div_of_nonneg_right h hp.le)
    exact_mod_cast this

theorem roundToGrid_pow2_mul (q : ℚ) (k : ℤ) (h1 : pow2 (-126) ≤ q)
    (h2 : pow2 (-126) ≤ pow2 k * q) : roundToGrid (pow2 k * q) = pow2 k * roundToGrid q := by
  have hq : 0 < q := lt_of_lt_of_le (pow2_pos _) h1
  rw [roundToGrid_normal q h1, roundToGrid_normal _ h2, floorLog2_pow2_mul q k hq]
  have e : floorLog2 q + k - 23 = k + (floorLog2 q - 23) := by ring
  rw [e, pow2_add]
  have hk := pow2_pos k
  have hp := pow2_pos (floorLog2 q - 23)
  rw [mul_div_mul_left _ _ hk.ne']
  ring

theorem roundToGrid_error (q : ℚ) (h : pow2 (-126) ≤ q) :
    |roundToGrid q - q| ≤ pow2 (-24) * q := by
  have hq : 0 < q := lt_of_lt_of_le (pow2_pos _) h
  obtain ⟨s1, -⟩ := floorLog2_spec q hq
  have hp := pow2_pos (floorLog2 q - 23)
  rw [roundToGrid_normal q h]
  have a1 := roundHalfEven_sub_le (q / pow2 (floorLog2 q - 23))
  have a2 := sub_roundHalfEven_le (q / pow2 (floorLog2 q - 23))
  have e1 : pow2 (floorLog2 q) = 2 ^ 23 * pow2 (floorLog2 q - 23) := by
    have : (2 : ℚ) ^ 23 = pow2 23 := by rw [pow2_eq]; norm_num
    rw [this, ← pow2_add]; congr 1; ring
  have e3 : pow2 (-24) = 1 / 2 ^ 24 := by
    rw [pow2_eq]; norm_num
  generalize pow2 (floorLog2 q - 23) = P at *
  generalize (roundHalfEven (q / P) : ℚ) = R at *
  have hqP : q / P * P = q := div_mul_cancel₀ q hp.ne'
  rw [e3, abs_le]
  constructor
  · nlinarith
  · nlinarith

theorem roundToFloat_of_lt (q : ℚ) (h : |roundToGrid q| < pow2 128) :
    roundToFloat q = FloatValue.finite (roundToGrid q) := by
  unfold roundToFloat; rw [if_pos h]

theorem pow2_zero : pow2 0 = 1 := by rw [pow2_eq]; norm_num

theorem pow2_ofNat (n : ℕ) : pow2 (n : ℤ) = (2 : ℚ) ^ n := by
  rw [pow2_eq]; exact zpow_natCast 2 n

theorem floorLog2_pow2 (k : ℤ) : floorLog2 (pow2 k) = k :=
  floorLog2_unique _ _ le_rfl (pow2_lt_pow2_iff.mpr (by omega))

/-- Powers of two from `2 ^ (-126)` on are left unchanged by the rounding. -/
theorem roundToGrid_pow2 (k : ℤ) (hk : -126 ≤ k) : roundToGrid (pow2 k) = pow2 k := by
  apply roundToGrid_of_grid (pow2 k) 1 k (by simp)
  rw [ulpExponent_normal _ (pow2_le_pow2 hk), floorLog2_pow2]
  omega

theorem roundToGrid_one : roundToGrid 1 = 1 := by
  have := roundToGrid_pow2 0 (by norm_num)
  rwa [pow2_zero] at this

theorem pow2_neg126_le_one : pow2 (-126) ≤ 1 := by
  rw [← pow2_zero]; exact pow2_le_pow2 (by norm_num)

theorem one_le_roundToGrid (q : ℚ) (h : 1 ≤ q) : 1 ≤ roundToGrid q := by
  have := roundToGrid_mono 1 q pow2_neg126_le_one h
  rwa [roundToGrid_one] at this

theorem roundToGrid_le_pow2 (q : ℚ) (k : ℤ) (hk : -126 ≤ k) (h1 : 1 ≤ q) (h : q ≤ pow2 k) :
    roundToGrid q ≤ pow2 k := by
  have := roundToGrid_mono q (pow2 k) (le_trans pow2_neg126_le_one h1) h
  rwa [roundToGrid_pow2 k hk] at this

theorem roundToFloat_of_bounds (q : ℚ) (k : ℤ) (hk1 : -126 ≤ k) (hk2 : k < 128) (h1 : 1 ≤ q)
    (h : q ≤ pow2 k) : roundToFloat q = FloatValue.finite (roundToGrid q) := by
  apply roundToFloat_of_lt
  have a := one_le_roundToGrid q h1
  have b := roundToGrid_le_pow2 q k hk1 h1 h
  rw [abs_of_pos (by linarith)]
  exact lt_of_le_of_lt b (pow2_lt_pow2_iff.mpr hk2)

/-! ## The halving of the frame size -/

theorem halvedSize_pos (n : Int) (h : 1 ≤ n) : 1 ≤ halvedSize n := by
  unfold halvedSize; omega

theorem iterate_halvedSize_pos (k : Nat) (n : Int) (h : 1 ≤ n) : 1 ≤ halvedSize^[k] n := by
  induction k generalizing n with
  | zero => simpa using h
  | succ k ih => rw [Function.iterate_succ_apply]; exact ih _ (halvedSize_pos n h)

/-- On a positive size the truncating division of the code is the halving of the
specification. -/
theorem tdiv_eq_halvedSize (n : Int) (h : 1 ≤ n) : Int.tdiv (n + 1) 2 = halvedSize n := by
  unfold halvedSize
  exact Int.tdiv_eq_ediv (by omega) (by omega)

theorem iterate_halvedSize_mul (k : Nat) (a : Int) : halvedSize^[k] (2 ^ k * a) = a := by
  induction k with
  | zero => simp
  | succ k ih =>
    rw [Function.iterate_succ_apply]
    have : halvedSize (2 ^ (k + 1) * a) = 2 ^ k * a := by
      unfold halvedSize
      have e : (2 : Int) ^ (k + 1) * a = 2 * (2 ^ k * a) := by ring
      rw [e]
      generalize (2 : Int) ^ k * a = m
      omega
    rw [this, ih]

/-- The quotient of a positive size by its `k`-fold halving is `2 ^ k` exactly when `2 ^ k`
divides the size. -/
theorem div_iterate_halvedSize_eq_iff (k : Nat) (x : Int) (hx : 1 ≤ x) :
    (x : ℚ) / (halvedSize^[k] x : Int) = 2 ^ k ↔ (2 : Int) ^ k ∣ x := by
  have hF := iterate_halvedSize_pos k x hx
  have hF0 : ((halvedSize^[k] x : Int) : ℚ) ≠ 0 := by
    have : (halvedSize^[k] x) ≠ 0 := by omega
    exact_mod_cast this
  rw [div_eq_iff hF0]
  constructor
  · intro h
    have h2 : x = 2 ^ k * halvedSize^[k] x := by exact_mod_cast h
    exact Dvd.intro _ h2.symm
  · rintro ⟨a, rfl⟩
    rw [iterate_halvedSize_mul]
    push_cast
    ring

/-! ## The template pyramid level, camera parameters and homography updates -/

/-- The bounding of the template pyramid level: whatever the value of the floating-point
expression, the stored level lies between 0 and `k_OCVTTemplateMatchingMaxPyrLevel`; it is 0 for
a value that is not positive and the value itself inside the range. -/
theorem clampTemplatePyrLevel_range (n : Int) :
    0 ≤ clampTemplatePyrLevel n ∧ clampTemplatePyrLevel n ≤ k_OCVTTemplateMatchingMaxPyrLevel ∧
    (n ≤ 0 → clampTemplatePyrLevel n = 0) ∧
    (0 ≤ n → n ≤ k_OCVTTemplateMatchingMaxPyrLevel → clampTemplatePyrLevel n = n) := by
  unfold clampTemplatePyrLevel k_OCVTTemplateMatchingMaxPyrLevel
  split_ifs <;> omega

/-- When the determinant converts to NaN, `-∞` or a negative `float`, `sqrtf` returns NaN and the
level before clamping is what the platform gives for the conversion of NaN to `int`. -/
theorem templatePyrLevelOf_of_not_ge (cv : Collaborators) (H : Mat)
    (h : doubleToFloat (cv.determinant H) = FloatValue.nan ∨
      doubleToFloat (cv.determinant H) = FloatValue.inf true ∨
      ∃ d : ℚ, doubleToFloat (cv.determinant H) = FloatValue.finite d ∧ d < 0) :
    sqrtf (doubleToFloat (cv.determinant H)) = FloatValue.nan ∧
    cv.templatePyrLevelOf H = cv.invalidFloatToInt FloatValue.nan := by
  have hs : sqrtf (doubleToFloat (cv.determinant H)) = FloatValue.nan := by
    rcases h with h | h | ⟨d, h, hd⟩
    · rw [h]; rfl
    · rw [h]; rfl
    · rw [h]; simp [sqrtf, hd]
  refine ⟨hs, ?_⟩
  unfold Collaborators.templatePyrLevelOf
  rw [hs]
  rfl

theorem levels_modifyTrackable (s : PlanarTrackerImpl) (i : Nat)
    (f : TrackableInfo → TrackableInfo) (hf : ∀ t, (f t)._templatePyrLevel = t._templatePyrLevel) :
    (modifyTrackable s i f)._trackables.map (fun t => t._templatePyrLevel)
      = s._trackables.map (fun t => t._templatePyrLevel) :=
  map_modify_same _ f hf _ i

theorem levels_UpdateTrackableHomography (cv : Collaborators) (s : PlanarTrackerImpl) (i : Nat)
    (p q : List Point2f) :
    (UpdateTrackableHomography cv s i p q).2._trackables.map (fun t => t._templatePyrLevel)
      = s._trackables.map (fun t => t._templatePyrLevel) := by
  by_cases h1 : p.length > 4
  · by_cases h2 : (cv.GetHomographyInliers p q).validHomography = true
    · by_cases h3 : s._frameCount > 1
      · simp [UpdateTrackableHomography, h1, h2, h3, UpdateTrackableBBox,
          ResetAllTrackingPointSelectorsForTrackable, levels_modifyTrackable]
      · simp [UpdateTrackableHomography, h1, h2, h3, UpdateTrackableBBox,
          ResetAllTrackingPointSelectorsForTrackable, levels_modifyTrackable]
    · simp [UpdateTrackableHomography, h1, h2]
  · simp [UpdateTrackableHomography, h1]

theorem levels_RunOpticalFlow (cv : Collaborators) (s : PlanarTrackerImpl) (i : Nat)
    (p q : List Point2f) :
    (RunOpticalFlow cv s i p q).2._trackables.map (fun t => t._templatePyrLevel)
      = s._trackables.map (fun t => t._templatePyrLevel) := by
  unfold RunOpticalFlow
  dsimp only
  generalize flowFiltered cv s p q = f
  have hs := levels_UpdateTrackableHomography cv s i f.1 f.2
  generalize UpdateTrackableHomography cv s i f.1 f.2 = r at hs
  obtain ⟨b, s'⟩ := r
  cases b
  · dsimp only at hs ⊢
    rw [← hs]
    exact levels_modifyTrackable s' i _ (fun _ => rfl)
  · dsimp only at hs ⊢
    rw [← hs]
    exact levels_modifyTrackable s' i _ (fun _ => rfl)

theorem levels_RunTemplateMatching (cv : Collaborators) (s : PlanarTrackerImpl) (frame : Image)
    (i : Nat) :
    (RunTemplateMatching cv s frame i).2._trackables.map (fun t => t._templatePyrLevel)
      = s._trackables.map (fun t => t._templatePyrLevel) := by
  unfold RunTemplateMatching
  dsimp only
  generalize cv.templateMatchPoints frame (s._trackables.getD i default) = f
  have hs := levels_UpdateTrackableHomography cv s i f.1 f.2
  generalize UpdateTrackableHomography cv s i f.1 f.2 = r at hs
  obtain ⟨b, s'⟩ := r
  cases b
  · dsimp only at hs ⊢
    rw [← hs]
    exact levels_modifyTrackable s' i _ (fun _ => rfl)
  · exact hs

theorem map_modify_set {α β : Type} (h : α → β) (f : α → α) (b : β) (hc : ∀ a, h (f a) = b)
    (l : List α) (i : Nat) : (l.modify f i).map h = (l.map h).set i b := by
  induction l generalizing i with
  | nil => simp
  | cons a l ih =>
    cases i with
    | zero => simp [hc]
    | succ i => simp [ih]

/-- The tracking phase of `ProcessFrame` stores, for a detected trackable, the clamped value of
`(int)log2f(1.0f / sqrtf((float)cv::determinant(_homography)))` as its `_templatePyrLevel`, and
leaves the levels of the other trackables as they are. -/
theorem ProcessFrameTrackStep_templatePyrLevel (cv : Collaborators) (frame : Image)
    (s : PlanarTrackerImpl) (i : Nat) (t : TrackableInfo) (ht : s._trackables[i]? = some t)
    (hd : t._isDetected = true) :
    (ProcessFrameTrackStep cv frame s i).1._trackables.map (fun t => t._templatePyrLevel)
      = (s._trackables.map (fun t => t._templatePyrLevel)).set i
          (clampTemplatePyrLevel (cv.templatePyrLevelOf t._homography)) := by
  unfold ProcessFrameTrackStep
  rw [ht]
  dsimp only
  rw [if_pos hd]
  generalize clampTemplatePyrLevel (cv.templatePyrLevelOf t._homography) = lvl
  have h2 : ∀ g2 : TrackableInfo → TrackableInfo,
      (∀ t, (g2 t)._templatePyrLevel = t._templatePyrLevel) →
      (modifyTrackable (modifyTrackable s i
          (fun t => { t with _templatePyrLevel := lvl })) i g2)._trackables.map
          (fun t => t._templatePyrLevel)
        = (s._trackables.map (fun t => t._templatePyrLevel)).set i lvl := by
    intro g2 e2
    rw [levels_modifyTrackable _ _ _ e2]
    exact map_modify_set _ _ lvl (fun _ => rfl) _ i
  split
  · split
    · rw [levels_RunOpticalFlow]
      exact h2 _ (fun _ => rfl)
    · rw [levels_RunTemplateMatching, levels_RunOpticalFlow]
      exact h2 _ (fun _ => rfl)
  · exact h2 _ (fun _ => rfl)

/-- C13, the code at inputs where the claim fails. For a detected trackable whose homography has
the determinant `1/16`, `1/4` or `1`, `ProcessFrame` stores the level 2, 1 or 0, as
`clamp(⌊log₂(1/√|det H|)⌋, 0, 2)` gives. For the determinant `-1/16`, where that formula gives
2, `sqrtf` is applied to a negative number, the result NaN is converted to `int`, and with the
value `INT_MIN` that x86 gives for this conversion the level stored is 0. Whatever value the
conversion gives, the level is the same for the determinants `-1/16` and `-1`, for which the
formula gives 2 and 0. -/
theorem C13_template_level_negative_determinant :
    Examples.detected.detectedAt 0 = true ∧
    (ProcessFrame (Examples.cvDeterminant (1 / 16) (-2147483648)) Examples.detected
      Examples.frame).1._trackables.map (fun t => t._templatePyrLevel) = [2] ∧
    (ProcessFrame (Examples.cvDeterminant (1 / 4) (-2147483648)) Examples.detected
      Examples.frame).1._trackables.map (fun t => t._templatePyrLevel) = [1] ∧
    (ProcessFrame (Examples.cvDeterminant 1 (-2147483648)) Examples.detected
      Examples.frame).1._trackables.map (fun t => t._templatePyrLevel) = [0] ∧
    sqrtf (doubleToFloat (FloatValue.finite (-1 / 16))) = FloatValue.nan ∧
    (Examples.cvDeterminant (-1 / 16) (-2147483648)).templatePyrLevelOf [] = -2147483648 ∧
    (ProcessFrame (Examples.cvDeterminant (-1 / 16) (-2147483648)) Examples.detected
      Examples.frame).1._trackables.map (fun t => t._templatePyrLevel) = [0] ∧
    (∀ c : Int,
      clampTemplatePyrLevel ((Examples.cvDeterminant (-1 / 16) c).templatePyrLevelOf [])
        = clampTemplatePyrLevel ((Examples.cvDeterminant (-1) c).templatePyrLevelOf [])) := by
  refine ⟨by decide!, by decide!, by decide!, by decide!, by decide!, by decide!, by decide!, ?_⟩
  intro c
  have h1 := (templatePyrLevelOf_of_not_ge (Examples.cvDeterminant (-1 / 16) c) []
    (Or.inr (Or.inr ⟨-1 / 16,
      show doubleToFloat (FloatValue.finite (-1 / 16)) = FloatValue.finite (-1 / 16) by decide!,
      by norm_num⟩))).2
  have h2 := (templatePyrLevelOf_of_not_ge (Examples.cvDeterminant (-1) c) []
    (Or.inr (Or.inr ⟨-1,
      show doubleToFloat (FloatValue.finite (-1)) = FloatValue.finite (-1) by decide!,
      by norm_num⟩))).2
  rw [h1, h2]
  rfl

/-- With a distortion function version other than 4 and 5, `Initialise` keeps the distortion
coefficients the tracker had. -/
theorem Initialise_distortionCoeff_unsupported (s : PlanarTrackerImpl) (cParam : ARParam)
    (pyrLevel : Int) (h5 : cParam.dist_function_version ≠ 5)
    (h4 : cParam.dist_function_version ≠ 4) :
    (s.Initialise cParam pyrLevel)._distortionCoeff = s._distortionCoeff := by
  simp [Initialise, h5, h4]

/-- C14: `Initialise` with the unsupported distortion function version 3 leaves the distortion
coefficients empty on a new tracker, but after an earlier `Initialise` with version 4 and the
coefficients 1, 2, 3, 4 the tracker still holds `[1, 2, 3, 4, 0]`: the coefficients of the
earlier camera are not cleared. -/
theorem C14_stale_distortion_coefficients :
    Examples.unsupportedCamera.dist_function_version = 3 ∧
    (PlanarTrackerImpl.new.Initialise Examples.unsupportedCamera 1)._distortionCoeff = [] ∧
    ((PlanarTrackerImpl.new.Initialise Examples.camera 1).Initialise
      Examples.unsupportedCamera 1)._distortionCoeff = [1, 2, 3, 4, 0] := by
  decide!

theorem homography_modifyTrackable_same (s : PlanarTrackerImpl) (i : Nat)
    (f : TrackableInfo → TrackableInfo) (hf : ∀ t, (f t)._homography = t._homography) :
    (modifyTrackable s i f)._trackables.map (fun t => t._homography)
      = s._trackables.map (fun t => t._homography) :=
  map_modify_same _ f hf _ i

theorem homography_modifyTrackable_const (s : PlanarTrackerImpl) (i : Nat)
    (f : TrackableInfo → TrackableInfo) (H : Mat) (hf : ∀ t, (f t)._homography = H) :
    (modifyTrackable s i f)._trackables.map (fun t => t._homography)
      = (s._trackables.map (fun t => t._homography)).set i H :=
  map_modify_const _ f H hf _ i

/-- C15: `UpdateTrackableHomography` returns true exactly when more than 4 correspondences were
supplied and the solver reported a valid homography; when it returns false the whole tracker
(so the homography, transformed bounding box and selectors of the trackable) is unchanged; when
it returns true the homography stored for the trackable is the one the solver returned, and
the homographies of the other trackables are as before. -/
theorem C15_update_homography_contract (cv : Collaborators) (s : PlanarTrackerImpl) (i : Nat)
    (p q : List Point2f) :
    ((UpdateTrackableHomography cv s i p q).1 = true
      ↔ 4 < p.length ∧ (cv.GetHomographyInliers p q).validHomography = true) ∧
    ((UpdateTrackableHomography cv s i p q).1 = false
      → (UpdateTrackableHomography cv s i p q).2 = s) ∧
    ((UpdateTrackableHomography cv s i p q).1 = true →
      (UpdateTrackableHomography cv s i p q).2._trackables.map (fun t => t._homography)
        = (s._trackables.map (fun t => t._homography)).set i
            (cv.GetHomographyInliers p q).homography) := by
  by_cases h1 : p.length > 4
  · by_cases h2 : (cv.GetHomographyInliers p q).validHomography = true
    · refine ⟨?_, ?_, ?_⟩
      · simp [UpdateTrackableHomography, h1, h2]
      · simp [UpdateTrackableHomography, h1, h2]
      · intro _
        by_cases h3 : s._frameCount > 1
        · simp [UpdateTrackableHomography, h1, h2, h3, UpdateTrackableBBox,
            ResetAllTrackingPointSelectorsForTrackable, frameCount_modifyTrackable,
            homography_modifyTrackable_same, homography_modifyTrackable_const]
        · simp [UpdateTrackableHomography, h1, h2, h3, UpdateTrackableBBox,
            ResetAllTrackingPointSelectorsForTrackable, frameCount_modifyTrackable,
            homography_modifyTrackable_same, homography_modifyTrackable_const]
    · simp [UpdateTrackableHomography, h1, h2]
  · simp [UpdateTrackableHomography, h1]

/-- C17: `LoadTrackableDatabase` on a path that cannot be opened returns false and leaves the
tracker state, every field of it, unchanged. -/
theorem C17_load_bad_path (cv : Collaborators) (s : PlanarTrackerImpl) :
    (LoadTrackableDatabase cv s none).1 = false ∧ (LoadTrackableDatabase cv s none).2 = s :=
  ⟨rfl, rfl⟩

/-! ## Trackable ids -/

/-- The search of `ChangeImageId` on a list of trackables: it finds an index exactly when the id
occurs, and assigning the new id at that index replaces the first occurrence of the id in the
list of ids and changes nothing else of any trackable. -/
theorem findIdx_id_spec (l : List TrackableInfo) (prevId newId : Int) :
    match l.findIdx? (fun e => e._id == prevId) with
    | some k =>
      prevId ∈ l.map (fun t => t._id) ∧
      (l.modify (fun t => { t with _id := newId }) k).map (fun t => t._id)
        = (l.map (fun t => t._id)).replace prevId newId ∧
      (l.modify (fun t => { t with _id := newId }) k).map (fun t => { t with _id := 0 })
        = l.map (fun t => { t with _id := 0 })
    | none => prevId ∉ l.map (fun t => t._id) := by
  induction l with
  | nil => simp
  | cons a l ih =>
    rw [List.findIdx?_cons]
    by_cases h : a._id = prevId
    · simp [h, List.replace]
    · have h2 : ¬ prevId = a._id := fun e => h e.symm
      have hb : (a._id == prevId) = false := by simpa using h
      have hb2 : (prevId == a._id) = false := by simpa using h2
      rw [hb]
      simp only [Bool.false_eq_true, if_false]
      rw [List.findIdx?_succ]
      generalize l.findIdx? (fun e => e._id == prevId) = r at ih
      cases r with
      | none =>
        simp only [Option.map_none', List.map_cons, List.mem_cons, not_or]
        exact ⟨h2, ih⟩
      | some k =>
        obtain ⟨i1, i2, i3⟩ := ih
        simp only [Option.map_some']
        refine ⟨?_, ?_, ?_⟩
        · simp only [List.map_cons, List.mem_cons]; exact Or.inr i1
        · simp only [List.modify_succ_cons, List.map_cons, List.replace, hb2, i2]
        · simp only [List.modify_succ_cons, List.map_cons, i3]

/-- C20: `ChangeImageId(prevId, newId)` returns true iff some trackable has id `prevId`; when it
returns true, `GetImageIds` afterwards is the previous list with the first occurrence of `prevId`
replaced by `newId`, every trackable is as before apart from its id, and the rest of the tracker
is unchanged; when it returns false the tracker is unchanged. -/
theorem C20_change_image_id (s : PlanarTrackerImpl) (prevId newId : Int) :
    ((s.ChangeImageId prevId newId).1 = true ↔ prevId ∈ s.GetImageIds) ∧
    ((s.ChangeImageId prevId newId).1 = true →
      (s.ChangeImageId prevId newId).2.GetImageIds = s.GetImageIds.replace prevId newId ∧
      (s.ChangeImageId prevId newId).2._trackables.map (fun t => { t with _id := 0 })
        = s._trackables.map (fun t => { t with _id := 0 }) ∧
      { (s.ChangeImageId prevId newId).2 with _trackables := [] }
        = { s with _trackables := [] }) ∧
    ((s.ChangeImageId prevId newId).1 = false → (s.ChangeImageId prevId newId).2 = s) := by
  have h := findIdx_id_spec s._trackables prevId newId
  unfold ChangeImageId GetImageIds
  cases hk : s._trackables.findIdx? (fun e => e._id == prevId) with
  | none =>
    rw [hk] at h
    simp only [Bool.false_eq_true, false_iff, false_implies, true_and, implies_true, and_true]
    exact h
  | some k =>
    rw [hk] at h
    obtain ⟨i1, i2, i3⟩ := h
    simp only [true_iff, true_implies, Bool.true_eq_false, false_implies, and_true]
    exact ⟨i1, i2, i3, rfl⟩

/-! ## The trackable database -/

/-- What the loading loop does from index `i`: it appends the trackables built from the records
`i, i+1, ...` up to the first record whose load throws or until `n` records are loaded, changes
nothing else, and reports success exactly when all `n` records were loaded. -/
theorem LoadTrackableDatabaseLoop_spec (cv : Collaborators) (file : DatabaseFile) (n i : Nat)
    (s : PlanarTrackerImpl) :
    ∃ recs : List StoredTrackable,
      recs.length ≤ n ∧
      (∀ j r, recs[j]? = some r → file.trackables (i + j) = some r) ∧
      (recs.length < n → file.trackables (i + recs.length) = none) ∧
      ((LoadTrackableDatabaseLoop cv file n i s).1 = true ↔ recs.length = n) ∧
      (LoadTrackableDatabaseLoop cv file n i s).2
        = { s with _trackables := s._trackables ++ recs.map (loadedTrackable cv) } := by
  induction n generalizing i s with
  | zero =>
    refine ⟨[], le_refl _, ?_, ?_, ?_, ?_⟩
    · intro j r h; simp at h
    · intro h; simp at h
    · simp [LoadTrackableDatabaseLoop]
    · simp [LoadTrackableDatabaseLoop]
  | succ n ih =>
    unfold LoadTrackableDatabaseLoop
    cases h : file.trackables i with
    | none =>
      refine ⟨[], Nat.zero_le _, ?_, ?_, ?_, ?_⟩
      · intro j r h; simp at h
      · intro _; simpa using h
      · simp
      · simp
    | some r =>
      dsimp only
      obtain ⟨recs, h1, h2, h3, h4, h5⟩ := ih (i + 1)
        { s with _trackables := s._trackables ++ [loadedTrackable cv r] }
      refine ⟨r :: recs, by simpa using h1, ?_, ?_, ?_, ?_⟩
      · intro j r2 hj
        cases j with
        | zero => simp at hj; subst hj; simpa using h
        | succ j =>
          have := h2 j r2 (by simpa using hj)
          rw [← this]; congr 1; omega
      · intro hl
        have := h3 (by simpa using hl)
        rw [← this]; congr 1; simp; omega
      · rw [h4]; simp
      · rw [h5]; simp

/-- Saving the trackable built from a record gives the record back. -/
theorem storedTrackable_loadedTrackable (cv : Collaborators) (r : StoredTrackable) :
    storedTrackable (loadedTrackable cv r) = r := by
  cases r; rfl

/-- C18: a successful `LoadTrackableDatabase` appends, after the trackables already in the
tracker (left unchanged), the trackables built from the records `0, 1, ...` of the file in that
order, `totalTrackables` of them (none when the stored count is negative), each with
`_isDetected`, `_isTracking` and `_resetTracks` false, and sets the feature detector type to the
stored `featureType`. -/
theorem C18_load_appends (cv : Collaborators) (s : PlanarTrackerImpl) (f : DatabaseFile)
    (h : (LoadTrackableDatabase cv s (some f)).1 = true) :
    ∃ recs : List StoredTrackable,
      recs.length = f.totalTrackables.toNat ∧
      (0 ≤ f.totalTrackables → (recs.length : Int) = f.totalTrackables) ∧
      (∀ j r, recs[j]? = some r → f.trackables j = some r) ∧
      (LoadTrackableDatabase cv s (some f)).2._trackables
        = s._trackables ++ recs.map (loadedTrackable cv) ∧
      (∀ t ∈ recs.map (loadedTrackable cv),
        t._isDetected = false ∧ t._isTracking = false ∧ t._resetTracks = false) ∧
      (LoadTrackableDatabase cv s (some f)).2._selectedFeatureDetectorType = f.featureType := by
  unfold LoadTrackableDatabase at h ⊢
  dsimp only at h ⊢
  obtain ⟨recs, h1, h2, h3, h4, h5⟩ := LoadTrackableDatabaseLoop_spec cv f
    f.totalTrackables.toNat 0 (SetFeatureDetector s f.featureType)
  have hl := h4.mp h
  refine ⟨recs, hl, ?_, ?_, ?_, ?_, ?_⟩
  · intro h0; rw [hl]; exact Int.toNat_of_nonneg h0
  · intro j r hj; simpa using h2 j r hj
  · rw [h5]; rfl
  · intro t ht
    obtain ⟨r, _, rfl⟩ := List.mem_map.mp ht
    exact ⟨rfl, rfl, rfl⟩
  · rw [h5]; rfl

/-- Loading the file that `SaveTrackableDatabase` writes for `s` into any tracker `s0` succeeds,
sets the feature detector type of `s` and appends one trackable per trackable of `s`. -/
theorem LoadTrackableDatabase_SaveTrackableDatabase (cv : Collaborators)
    (s s0 : PlanarTrackerImpl) :
    LoadTrackableDatabase cv s0 (SaveTrackableDatabase s true).2
      = (true, { SetFeatureDetector s0 s._selectedFeatureDetectorType with
          _trackables := s0._trackables
            ++ s._trackables.map (fun t => loadedTrackable cv (storedTrackable t)) }) := by
  unfold SaveTrackableDatabase LoadTrackableDatabase
  simp only [if_true, Int.toNat_ofNat]
  obtain ⟨recs, h1, h2, h3, h4, h5⟩ := LoadTrackableDatabaseLoop_spec cv
    { totalTrackables := (s._trackables.length : Int)
      featureType := s._selectedFeatureDetectorType
      trackables := fun i => (s._trackables[i]?).map storedTrackable }
    s._trackables.length 0 (SetFeatureDetector s0 s._selectedFeatureDetectorType)
  simp only [Nat.zero_add] at h2 h3
  have hlen : recs.length = s._trackables.length := by
    rcases Nat.lt_or_ge recs.length s._trackables.length with hlt | hge
    · have := h3 hlt
      simp [List.getElem?_eq_getElem hlt] at this
    · omega
  have hrecs : recs = s._trackables.map storedTrackable := by
    apply List.ext_getElem?
    intro j
    rcases Nat.lt_or_ge j recs.length with hj | hj
    · have e := h2 j recs[j] (List.getElem?_eq_getElem hj)
      rw [List.getElem?_eq_getElem hj, List.getElem?_map]
      exact e.symm
    · rw [List.getElem?_eq_none hj, List.getElem?_eq_none (by simpa [hlen] using hj)]
  apply Prod.ext
  · exact h4.mpr hlen
  · rw [h5, hrecs, List.map_map]
    rfl

/-- C16: for every tracker state `s`, `SaveTrackableDatabase` (the file being a key-value store
that returns the value last written) followed by `LoadTrackableDatabase` into a new tracker
succeeds and gives a tracker with the same `GetImageIds`, the same feature detector type, the
same number of trackables, and at every index a trackable with the same id, file name, scale,
width, height, descriptors and feature points, whose level-0 image and level-0 corner points
are those of the saved trackable. -/
theorem C16_save_load_roundtrip (cv : Collaborators) (s : PlanarTrackerImpl) :
    (SaveTrackableDatabase s true).1 = true ∧
    (LoadTrackableDatabase cv PlanarTrackerImpl.new (SaveTrackableDatabase s true).2).1 = true ∧
    (LoadTrackableDatabase cv PlanarTrackerImpl.new (SaveTrackableDatabase s true).2).2.GetImageIds
      = s.GetImageIds ∧
    (LoadTrackableDatabase cv PlanarTrackerImpl.new
        (SaveTrackableDatabase s true).2).2._selectedFeatureDetectorType
      = s._selectedFeatureDetectorType ∧
    (LoadTrackableDatabase cv PlanarTrackerImpl.new
        (SaveTrackableDatabase s true).2).2._trackables.length = s._trackables.length ∧
    ∀ (i : Nat) (t : TrackableInfo), s._trackables[i]? = some t →
      ∃ u : TrackableInfo,
        (LoadTrackableDatabase cv PlanarTrackerImpl.new
          (SaveTrackableDatabase s true).2).2._trackables[i]? = some u ∧
        u._id = t._id ∧ u._fileName = t._fileName ∧ u._scale = t._scale ∧
        u._width = t._width ∧ u._height = t._height ∧
        u._image[0]? = some (t._image.getD 0 default) ∧
        u._descriptors = t._descriptors ∧ u._featurePoints = t._featurePoints ∧
        u._cornerPoints[0]? = some (t._cornerPoints.getD 0 []) := by
  rw [LoadTrackableDatabase_SaveTrackableDatabase]
  refine ⟨rfl, rfl, ?_, rfl, ?_, ?_⟩
  · simp [GetImageIds, PlanarTrackerImpl.new, SetFeatureDetector, loadedTrackable,
      storedTrackable]
  · simp [PlanarTrackerImpl.new, SetFeatureDetector]
  · intro i t ht
    refine ⟨loadedTrackable cv (storedTrackable t), ?_, rfl, rfl, rfl, rfl, rfl, rfl, rfl, rfl, rfl⟩
    simp [PlanarTrackerImpl.new, SetFeatureDetector, ht]

/-- C18 for the two-record database loaded into a tracker that holds one marker. -/
theorem C18_load_appends_witness :
    (LoadTrackableDatabase Examples.cvDetect Examples.oneMarker (some Examples.database)).1 = true ∧
    ∃ recs : List StoredTrackable,
      recs.length = Examples.database.totalTrackables.toNat ∧
      (0 ≤ Examples.database.totalTrackables
        → (recs.length : Int) = Examples.database.totalTrackables) ∧
      (∀ j r, recs[j]? = some r → Examples.database.trackables j = some r) ∧
      (LoadTrackableDatabase Examples.cvDetect Examples.oneMarker
          (some Examples.database)).2._trackables
        = Examples.oneMarker._trackables ++ recs.map (loadedTrackable Examples.cvDetect) ∧
      (∀ t ∈ recs.map (loadedTrackable Examples.cvDetect),
        t._isDetected = false ∧ t._isTracking = false ∧ t._resetTracks = false) ∧
      (LoadTrackableDatabase Examples.cvDetect Examples.oneMarker
          (some Examples.database)).2._selectedFeatureDetectorType
        = Examples.database.featureType :=
  ⟨by decide!, C18_load_appends Examples.cvDetect Examples.oneMarker Examples.database
    (by decide!)⟩

/-! ## Uniqueness of the trackable ids -/

theorem mem_replace_cases (l : List Int) (a b x : Int) (h : x ∈ l.replace a b) :
    x ∈ l ∨ x = b := by
  induction l with
  | nil => simp at h
  | cons y l ih =>
    by_cases e : a = y
    · subst e
      simp only [List.replace, beq_self_eq_true, List.mem_cons] at h
      rcases h with h | h
      · exact Or.inr h
      · exact Or.inl (List.mem_cons_of_mem _ h)
    · have e2 : (a == y) = false := by simpa using e
      simp only [List.replace, e2, List.mem_cons] at h
      rcases h with h | h
      · exact Or.inl (by simp [h])
      · rcases ih h with h | h
        · exact Or.inl (List.mem_cons_of_mem _ h)
        · exact Or.inr h

theorem nodup_replace (l : List Int) (a b : Int) (h : l.Nodup) (hb : b ∉ l) :
    (l.replace a b).Nodup := by
  induction l with
  | nil => simp
  | cons x l ih =>
    have hx : x ∉ l := (List.nodup_cons.mp h).1
    have hl : l.Nodup := (List.nodup_cons.mp h).2
    have hbx : b ≠ x := fun e => hb (by simp [e])
    have hbl : b ∉ l := fun e => hb (List.mem_cons_of_mem _ e)
    by_cases e : a = x
    · subst e
      simp only [List.replace, beq_self_eq_true]
      exact List.nodup_cons.mpr ⟨hbl, hl⟩
    · have e2 : (a == x) = false := by simpa using e
      simp only [List.replace, e2]
      refine List.nodup_cons.mpr ⟨?_, ih hl hbl⟩
      intro hm
      rcases mem_replace_cases l a b x hm with h1 | h1
      · exact hx h1
      · exact hbx h1.symm

/-- `AddMarker` appends the given id to the list of ids, or changes nothing (empty image). -/
theorem GetImageIds_AddMarker (cv : Collaborators) (s : PlanarTrackerImpl)
    (buff : Option (List Nat)) (fileName : String) (width height uid : Int) (scale : ℚ) :
    (AddMarker cv s buff fileName width height uid scale).GetImageIds = s.GetImageIds ∨
    (AddMarker cv s buff fileName width height uid scale).GetImageIds
      = s.GetImageIds ++ [uid] := by
  unfold AddMarker
  dsimp only
  split
  · exact Or.inr (by simp [GetImageIds])
  · exact Or.inl rfl

/-- The loading loop appends the ids of the leading records of the file to the list of ids. -/
theorem GetImageIds_LoadTrackableDatabaseLoop (cv : Collaborators) (file : DatabaseFile)
    (n : Nat) (s : PlanarTrackerImpl) :
    ∃ recs : List StoredTrackable,
      recs.length ≤ n ∧
      (∀ j r, recs[j]? = some r → file.trackables j = some r) ∧
      (LoadTrackableDatabaseLoop cv file n 0 s).2.GetImageIds
        = s.GetImageIds ++ recs.map (fun r => r.trackableId) := by
  obtain ⟨recs, h1, h2, _, _, h5⟩ := LoadTrackableDatabaseLoop_spec cv file n 0 s
  refine ⟨recs, h1, fun j r hj => by simpa using h2 j r hj, ?_⟩
  rw [h5]
  simp [GetImageIds, loadedTrackable]

theorem replace_of_not_mem_ids (l : List Int) (a b : Int) (h : a ∉ l) : l.replace a b = l := by
  induction l with
  | nil => rfl
  | cons x l ih =>
    have e : a ≠ x := fun e => h (by simp [e])
    have e2 : (a == x) = false := by simpa using e
    simp only [List.replace, e2]
    rw [ih (fun hm => h (List.mem_cons_of_mem _ hm))]

/-- `ChangeImageId` replaces the first occurrence of `prevId` in the list of ids by `newId`. -/
theorem GetImageIds_ChangeImageId (s : PlanarTrackerImpl) (prevId newId : Int) :
    (s.ChangeImageId prevId newId).2.GetImageIds = s.GetImageIds.replace prevId newId := by
  have h := findIdx_id_spec s._trackables prevId newId
  unfold ChangeImageId GetImageIds
  cases hk : s._trackables.findIdx? (fun e => e._id == prevId) with
  | none =>
    rw [hk] at h
    exact (replace_of_not_mem_ids _ _ _ h).symm
  | some k =>
    rw [hk] at h
    exact h.2.1

/-- A call admitted by `freshIds` keeps the ids distinct. -/
theorem freshIds_step (s : PlanarTrackerImpl) (c : Call) (h : s.GetImageIds.Nodup)
    (hc : freshIds s c) : (c.apply s).GetImageIds.Nodup := by
  cases c with
  | AddMarker cv buff fileName width height uid scale =>
    have hu : uid ∉ s.GetImageIds := hc
    rcases GetImageIds_AddMarker cv s buff fileName width height uid scale with e | e
    · show (AddMarker cv s buff fileName width height uid scale).GetImageIds.Nodup
      rw [e]; exact h
    · show (AddMarker cv s buff fileName width height uid scale).GetImageIds.Nodup
      rw [e]
      exact List.Nodup.append h (List.nodup_singleton _) (by simpa using hu)
  | LoadTrackableDatabase cv file =>
    cases file with
    | none => exact h
    | some f =>
      have hf := hc f rfl
      show (LoadTrackableDatabaseLoop cv f f.totalTrackables.toNat 0
        (SetFeatureDetector s f.featureType)).2.GetImageIds.Nodup
      obtain ⟨recs, h1, h2, h3⟩ := GetImageIds_LoadTrackableDatabaseLoop cv f
        f.totalTrackables.toNat (SetFeatureDetector s f.featureType)
      rw [h3]
      have hs : (SetFeatureDetector s f.featureType).GetImageIds = s.GetImageIds := rfl
      rw [hs]
      have hrec : ∀ j r, recs[j]? = some r → j < f.totalTrackables.toNat ∧ f.trackables j = some r := by
        intro j r hj
        have hlt : j < recs.length := by
          by_contra hge
          rw [List.getElem?_eq_none (by omega)] at hj
          cases hj
        exact ⟨by omega, h2 j r hj⟩
      refine List.Nodup.append h ?_ ?_
      · rw [List.nodup_iff_getElem?_ne_getElem?]
        intro i j hij hj e
        rw [List.length_map] at hj
        have hi : i < recs.length := by omega
        rw [List.getElem?_map, List.getElem?_map, List.getElem?_eq_getElem hi,
          List.getElem?_eq_getElem hj] at e
        simp only [Option.map_some', Option.some.injEq] at e
        obtain ⟨a1, a2⟩ := hrec i recs[i] (List.getElem?_eq_getElem hi)
        obtain ⟨b1, b2⟩ := hrec j recs[j] (List.getElem?_eq_getElem hj)
        exact (hf i j _ _ a1 b1 a2 b2).2 (by omega) e
      · rw [List.disjoint_right]
        intro x hx
        obtain ⟨r, hr, rfl⟩ := List.mem_map.mp hx
        obtain ⟨j, hj⟩ := List.mem_iff_getElem?.mp hr
        obtain ⟨a1, a2⟩ := hrec j r hj
        exact (hf j j _ _ a1 a1 a2 a2).1
  | ChangeImageId prevId newId =>
    have hn : newId ∉ s.GetImageIds := hc
    show (s.ChangeImageId prevId newId).2.GetImageIds.Nodup
    rw [GetImageIds_ChangeImageId]
    exact nodup_replace _ _ _ h hn
  | Initialise _ _ => exact hc.elim
  | ProcessFrameData _ _ => exact hc.elim
  | RemoveAllMarkers => exact hc.elim
  | SetFeatureDetector _ => exact hc.elim
  | SetMinRequiredDetectedFeatures _ => exact hc.elim
  | SetHomographyEstimationRANSACThreshold _ => exact hc.elim
  | SetMaximumNumberOfMarkersToTrack _ => exact hc.elim
  | SetTrackerVisualizationActive _ => exact hc.elim

/-- C19, amended: the tracker never checks ids, so the ids are distinct when the caller keeps
them apart: after any sequence of `AddMarker`, `LoadTrackableDatabase` and `ChangeImageId` calls
in which every id added, loaded or assigned is one that no trackable has at that moment (and the
loaded ids differ from one another), `GetImageIds` contains no duplicates. -/
theorem C19_ids_unique_when_fresh (s : PlanarTrackerImpl) (h : Reachable freshIds s) :
    s.GetImageIds.Nodup := by
  induction h with
  | new => exact List.nodup_nil
  | call s c _ hc ih => exact freshIds_step s c ih hc

/-- C19 for two `AddMarker` calls with the ids 7 and 8. -/
theorem C19_ids_unique_when_fresh_witness :
    Reachable freshIds Examples.twoMarkers ∧ Examples.twoMarkers.GetImageIds = [7, 8] ∧
    Examples.twoMarkers.GetImageIds.Nodup :=
  have hr : Reachable freshIds Examples.twoMarkers :=
    Reachable.call _ Examples.addMarker8
      (Reachable.call _ Examples.addMarker Reachable.new
        (show (7 : Int) ∉ PlanarTrackerImpl.new.GetImageIds by decide!))
      (show (8 : Int) ∉ (Call.apply PlanarTrackerImpl.new Examples.addMarker).GetImageIds
        by decide!)
  ⟨hr, by decide!, C19_ids_unique_when_fresh Examples.twoMarkers hr⟩

/-- C19 fails for two `AddMarker` calls with the same id 7: both trackables are added and
`GetImageIds` is `[7, 7]`. -/
theorem C19_counterexample :
    (runCalls PlanarTrackerImpl.new [Examples.addMarker, Examples.addMarker]).GetImageIds = [7, 7] ∧
    ¬ (runCalls PlanarTrackerImpl.new [Examples.addMarker, Examples.addMarker]).GetImageIds.Nodup := by
  decide!

/-! ## Queries and the cap setter -/

/-- The search `std::find_if` over the trackables: the element found is the first one that
satisfies the predicate. -/
theorem find?_first (l : List TrackableInfo) (p : TrackableInfo → Bool) :
    match l.find? p with
    | some t => ∃ k : Nat, l[k]? = some t ∧ p t = true ∧
      ∀ (j : Nat) (u : TrackableInfo), j < k → l[j]? = some u → p u = false
    | none => ∀ u ∈ l, p u = false := by
  induction l with
  | nil => simp
  | cons a l ih =>
    rw [List.find?_cons]
    cases hp : p a with
    | true =>
      exact ⟨0, by simp, hp, fun j u hj => absurd hj (Nat.not_lt_zero j)⟩
    | false =>
      dsimp only
      cases hf : l.find? p with
      | none =>
        rw [hf] at ih
        intro u hu
        rcases List.mem_cons.mp hu with e | e
        · rw [e]; exact hp
        · exact ih u e
      | some t =>
        rw [hf] at ih
        obtain ⟨k, h1, h2, h3⟩ := ih
        refine ⟨k + 1, by simpa using h1, h2, ?_⟩
        intro j u hj hu
        cases j with
        | zero => simp at hu; rw [← hu]; exact hp
        | succ j => exact h3 j u (by omega) (by simpa using hu)

/-- C21: for every id and every non-null output buffer, `GetTrackablePose` returns the same
boolean as `IsTrackableVisible`, which is true iff the first trackable with that id exists and
has `_isDetected` or `_isTracking` set; for an id that no trackable has both return false and
the output buffer is as before. -/
theorem C21_pose_query_visibility (s : PlanarTrackerImpl) (trackableId : Int) (buf : List ℚ) :
    (s.GetTrackablePose trackableId (some buf)).1 = s.IsTrackableVisible trackableId ∧
    (s.IsTrackableVisible trackableId = true ↔
      ∃ (k : Nat) (t : TrackableInfo), s._trackables[k]? = some t ∧ t._id = trackableId ∧
        (∀ (j : Nat) (u : TrackableInfo), j < k → s._trackables[j]? = some u → u._id ≠ trackableId) ∧
        (t._isDetected = true ∨ t._isTracking = true)) ∧
    (trackableId ∉ s.GetImageIds →
      s.GetTrackablePose trackableId (some buf) = (false, some buf) ∧
      s.IsTrackableVisible trackableId = false) := by
  have h := find?_first s._trackables (fun e => e._id == trackableId)
  unfold GetTrackablePose IsTrackableVisible GetImageIds
  cases hf : s._trackables.find? (fun e => e._id == trackableId) with
  | none =>
    rw [hf] at h
    refine ⟨rfl, ?_, fun _ => ⟨rfl, rfl⟩⟩
    constructor
    · intro e; cases e
    · rintro ⟨k, t, h1, h2, _, _⟩
      have := h t (List.mem_iff_getElem?.mpr ⟨k, h1⟩)
      simp [h2] at this
  | some t =>
    rw [hf] at h
    obtain ⟨k, h1, h2, h3⟩ := h
    have h2' : t._id = trackableId := by simpa using h2
    refine ⟨?_, ?_, ?_⟩
    · dsimp only
      split <;> simp_all
    · dsimp only
      constructor
      · intro hv
        refine ⟨k, t, h1, h2', ?_, by simpa using hv⟩
        intro j u hj hu
        simpa using h3 j u hj hu
      · rintro ⟨k2, t2, g1, g2, g3, g4⟩
        have hk : k = k2 := by
          rcases Nat.lt_trichotomy k k2 with c | c | c
          · exact absurd h2' (g3 k t c h1)
          · exact c
          · have := h3 k2 t2 c g1
            simp [g2] at this
        subst hk
        rw [h1] at g1
        cases g1
        simpa using g4
    · intro hn
      exact absurd (List.mem_map.mpr ⟨t, List.mem_iff_getElem?.mpr ⟨k, h1⟩, h2'⟩) hn

/-- `ProcessFrame` never assigns the cap. -/
theorem ProcessFrame_maxNumberOfMarkersToTrack (cv : Collaborators) (s : PlanarTrackerImpl)
    (frame : Image) :
    (ProcessFrame cv s frame).1._maxNumberOfMarkersToTrack = s._maxNumberOfMarkersToTrack := by
  obtain ⟨-, -, d3, -⟩ := ProcessFrame_decompose cv s frame
  obtain ⟨-, -, e3, -⟩ := ProcessFrameDetected_effect cv s frame
  obtain ⟨out, q1, -⟩ := ProcessFrameTrack_summary cv (ProcessFrameDetected cv s frame).1 frame
  obtain ⟨-, -, g3, -⟩ := frameCount_of_frameOf q1
  rw [d3, g3, e3]

/-- Once the cap is not positive, no call of the public interface changes it. -/
theorem Call_apply_maximum_stuck (s : PlanarTrackerImpl) (c : Call)
    (h : s._maxNumberOfMarkersToTrack ≤ 0) :
    (c.apply s)._maxNumberOfMarkersToTrack = s._maxNumberOfMarkersToTrack := by
  by_cases hc : ∃ cv frame, c = Call.ProcessFrameData cv frame
  · obtain ⟨cv, frame, rfl⟩ := hc
    exact ProcessFrame_maxNumberOfMarkersToTrack cv s _
  · obtain ⟨-, -, h3⟩ := Call_apply_effect s c (fun cv frame e => hc ⟨cv, frame, e⟩)
    rcases h3 with h3 | ⟨n, rfl, -⟩
    · exact h3
    · show (s.SetMaximumNumberOfMarkersToTrack n)._maxNumberOfMarkersToTrack = _
      unfold SetMaximumNumberOfMarkersToTrack
      rw [if_neg (by omega)]

/-- C22: `SetMaximumNumberOfMarkersToTrack(n)` assigns `n` when the current maximum is positive,
so that `GetMaximumNumberOfMarkersToTrack` then returns `n`; when the maximum is not positive the
call changes nothing, and after any sequence of calls of the public interface the maximum is
still the same, in particular after the maximum was set to 0. -/
theorem C22_maximum_gated (s : PlanarTrackerImpl) (n : Int) :
    (0 < s.GetMaximumNumberOfMarkersToTrack →
      (s.SetMaximumNumberOfMarkersToTrack n).GetMaximumNumberOfMarkersToTrack = n) ∧
    (s.GetMaximumNumberOfMarkersToTrack ≤ 0 →
      (s.SetMaximumNumberOfMarkersToTrack n) = s ∧
      ∀ calls : List Call,
        (runCalls s calls).GetMaximumNumberOfMarkersToTrack
          = s.GetMaximumNumberOfMarkersToTrack) ∧
    (0 < s.GetMaximumNumberOfMarkersToTrack →
      ∀ calls : List Call,
        (runCalls (s.SetMaximumNumberOfMarkersToTrack 0) calls).GetMaximumNumberOfMarkersToTrack
          = 0) := by
  have stuck : ∀ (calls : List Call) (t : PlanarTrackerImpl), t._maxNumberOfMarkersToTrack ≤ 0 →
      (runCalls t calls)._maxNumberOfMarkersToTrack = t._maxNumberOfMarkersToTrack := by
    intro calls
    induction calls with
    | nil => intro t _; rfl
    | cons c cs ih =>
      intro t ht
      have e := Call_apply_maximum_stuck t c ht
      show (runCalls (c.apply t) cs)._maxNumberOfMarkersToTrack = _
      rw [ih (c.apply t) (by omega), e]
  refine ⟨?_, ?_, ?_⟩
  · intro h
    unfold GetMaximumNumberOfMarkersToTrack at h ⊢
    unfold SetMaximumNumberOfMarkersToTrack
    rw [if_pos h]
  · intro h
    unfold GetMaximumNumberOfMarkersToTrack at h ⊢
    refine ⟨?_, fun calls => stuck calls s h⟩
    unfold SetMaximumNumberOfMarkersToTrack
    rw [if_neg (by omega)]
  · intro h calls
    unfold GetMaximumNumberOfMarkersToTrack at h ⊢
    have e : (s.SetMaximumNumberOfMarkersToTrack 0)._maxNumberOfMarkersToTrack = 0 := by
      unfold SetMaximumNumberOfMarkersToTrack
      rw [if_pos h]
    rw [stuck calls _ (by omega), e]

/-! ## The fixed part of the trackables -/

theorem modifyTrackable_modifyTrackable (s : PlanarTrackerImpl) (i : Nat)
    (f g : TrackableInfo → TrackableInfo) :
    modifyTrackable (modifyTrackable s i f) i g = modifyTrackable s i (g ∘ f) := by
  unfold modifyTrackable
  simp only [List.modify_modify_eq]

/-- The two outcomes of `MatchFeatures`: either the tracker is unchanged, or one trackable that
was not detected is modified (its `_isDetected` set, its images, size and reference bounding box
kept) and the counter incremented, everything else being as before. -/
theorem MatchFeatures_state (cv : Collaborators) (s : PlanarTrackerImpl)
    (fs : List KeyPoint) (d : Mat) :
    (MatchFeatures cv s fs d).1 = s ∨
    ∃ (b : Nat) (t : TrackableInfo) (g : TrackableInfo → TrackableInfo),
      s._trackables[b]? = some t ∧ t._isDetected = false ∧
      (∀ u, shapeOf (g u) = shapeOf u) ∧ (∀ u, (g u)._isDetected = true) ∧
      (MatchFeatures cv s fs d).1
        = { modifyTrackable s b g with
            _currentlyTrackedMarkers := s._currentlyTrackedMarkers + 1 } := by
  have hbest := IsBestOf_MatchFeaturesBest cv s fs d
  unfold MatchFeatures
  dsimp only
  generalize MatchFeaturesBest cv s fs d = st at hbest
  by_cases hpos : st.maxMatches > 0
  · rw [if_pos hpos]
    generalize cv.GetHomographyInliers _ _ = homoInfo
    by_cases hv : homoInfo.validHomography = true
    · rw [if_pos hv]
      right
      rcases hbest with ⟨h0, -⟩ | ⟨b, t, hb, hts, hcand, -, -, -⟩
      · omega
      · have hnd : t._isDetected = false := by
          unfold isCandidate at hcand
          simp only [Bool.and_eq_true, Bool.not_eq_true'] at hcand
          exact hcand.1
        have hbt : st.bestMatchIndex.toNat = b := by rw [hb]; simp
        rw [hbt]
        refine ⟨b, t, ?g, hts, hnd, ?h1, ?h2, ?h3⟩
        case h3 =>
          show ({ UpdateTrackableBBox cv (modifyTrackable
              (ResetAllTrackingPointSelectorsForTrackable (modifyTrackable s b _) b) b _) b _ with
              _currentlyTrackedMarkers := _ } : PlanarTrackerImpl) = _
          simp only [UpdateTrackableBBox, ResetAllTrackingPointSelectorsForTrackable,
            modifyTrackable_modifyTrackable, counter_modifyTrackable]
          exact rfl
        case h1 => intro u; rfl
        case h2 => intro u; rfl
    · rw [if_neg hv]
      exact Or.inl rfl
  · rw [if_neg hpos]
    exact Or.inl rfl

/-- The indices `RunOpticalFlow` keeps: in increasing order, exactly those below the number of
flow results at which both status flags are non-zero. -/
theorem flowSurvivors_spec (n : Nat) (s1 s2 : List Nat) :
    (flowSurvivors n s1 s2).Pairwise (fun a b => a < b) ∧
    (∀ j, j ∈ flowSurvivors n s1 s2 ↔ j < n ∧ s1.getD j 0 ≠ 0 ∧ s2.getD j 0 ≠ 0) ∧
    (flowSurvivors n s1 s2).length ≤ n := by
  unfold flowSurvivors
  refine ⟨List.Pairwise.filter _ (List.pairwise_lt_range n), ?_, ?_⟩
  · intro j
    simp [List.mem_filter, List.mem_range]
  · exact (List.length_filter_le _ _).trans (by simp)

/-- C24: `RunOpticalFlow` hands to `UpdateTrackableHomography` (whose result decides its own)
the pairs `(trackablePoints[j], flowResultPoints[j])` for exactly the indices `j`, in increasing
order, at which the status flags of the forward pass and of the backward pass are both
non-zero; the two lists have equal length, at most the number of flow results, which is the
number of input points when `calcOpticalFlowPyrLK` returns one result per input point. -/
theorem C24_optical_flow_filter (cv : Collaborators) (s : PlanarTrackerImpl) (i : Nat)
    (trackablePoints trackablePointsWarped : List Point2f) :
    ∃ js : List Nat,
      js.Pairwise (fun a b => a < b) ∧
      (∀ j, j ∈ js ↔
        j < (cv.calcOpticalFlowPyrLK s._prevPyramid s._pyramid trackablePointsWarped).1.length ∧
        (cv.calcOpticalFlowPyrLK s._prevPyramid s._pyramid trackablePointsWarped).2.getD j 0 ≠ 0 ∧
        (cv.calcOpticalFlowPyrLK s._pyramid s._prevPyramid
          (cv.calcOpticalFlowPyrLK s._prevPyramid s._pyramid
            trackablePointsWarped).1).2.getD j 0 ≠ 0) ∧
      (RunOpticalFlow cv s i trackablePoints trackablePointsWarped).1
        = (UpdateTrackableHomography cv s i
            (js.map (fun j => trackablePoints.getD j default))
            (js.map (fun j =>
              (cv.calcOpticalFlowPyrLK s._prevPyramid s._pyramid
                trackablePointsWarped).1.getD j default))).1 ∧
      (js.map (fun j => trackablePoints.getD j default)).length
        = (js.map (fun j =>
            (cv.calcOpticalFlowPyrLK s._prevPyramid s._pyramid
              trackablePointsWarped).1.getD j default)).length ∧
      js.length
        ≤ (cv.calcOpticalFlowPyrLK s._prevPyramid s._pyramid trackablePointsWarped).1.length ∧
      ((cv.calcOpticalFlowPyrLK s._prevPyramid s._pyramid trackablePointsWarped).1.length
          = trackablePointsWarped.length →
        (js.map (fun j => trackablePoints.getD j default)).length
          ≤ trackablePointsWarped.length) := by
  obtain ⟨h1, h2, h3⟩ := flowSurvivors_spec
    (cv.calcOpticalFlowPyrLK s._prevPyramid s._pyramid trackablePointsWarped).1.length
    (cv.calcOpticalFlowPyrLK s._prevPyramid s._pyramid trackablePointsWarped).2
    (cv.calcOpticalFlowPyrLK s._pyramid s._prevPyramid
      (cv.calcOpticalFlowPyrLK s._prevPyramid s._pyramid trackablePointsWarped).1).2
  refine ⟨_, h1, h2, ?_, by simp, h3, fun e => by rw [List.length_map, ← e]; exact h3⟩
  unfold RunOpticalFlow flowFiltered
  dsimp only
  split <;> simp_all

/-- C25: `MatchFeatures` leaves a trackable whose `_isDetected` is already true exactly as it
was (flags, homography, transformed bounding box and every other field), and when it increments
`_currentlyTrackedMarkers` it does so for another trackable, one that was not detected and now
is. -/
theorem C25_match_features_skips_detected (cv : Collaborators) (s : PlanarTrackerImpl)
    (fs : List KeyPoint) (d : Mat) (i : Nat) (t : TrackableInfo)
    (hi : s._trackables[i]? = some t) (hd : t._isDetected = true) :
    (MatchFeatures cv s fs d).1._trackables[i]? = some t ∧
    ((MatchFeatures cv s fs d).1._currentlyTrackedMarkers = s._currentlyTrackedMarkers ∨
      ∃ (b : Nat) (u u' : TrackableInfo), b ≠ i ∧
        s._trackables[b]? = some u ∧ u._isDetected = false ∧
        (MatchFeatures cv s fs d).1._trackables[b]? = some u' ∧ u'._isDetected = true ∧
        (MatchFeatures cv s fs d).1._currentlyTrackedMarkers
          = s._currentlyTrackedMarkers + 1) := by
  rcases MatchFeatures_state cv s fs d with h | ⟨b, u, g, hb, hu, -, hg, h⟩
  · rw [h]; exact ⟨hi, Or.inl rfl⟩
  · have hne : b ≠ i := by
      intro e
      rw [e, hi] at hb
      cases hb
      rw [hd] at hu
      cases hu
    rw [h]
    refine ⟨?_, Or.inr ⟨b, u, g u, hne, hb, hu, ?_, hg u, rfl⟩⟩
    · show (s._trackables.modify g b)[i]? = some t
      rw [List.getElem?_modify_ne _ _ hne]
      exact hi
    · show (s._trackables.modify g b)[b]? = some (g u)
      rw [List.getElem?_modify_eq, hb]
      rfl

/-- C25 for a tracker whose first marker is detected and whose second is not: `MatchFeatures`
promotes the second and leaves the first as it was. -/
theorem C25_match_features_skips_detected_witness :
    Examples.detectedThenAdded._trackables.map (fun t => t._isDetected) = [true, false] ∧
    (MatchFeatures Examples.cvDetect Examples.detectedThenAdded
        (List.replicate 51 default) []).1._trackables.map (fun t => t._isDetected)
      = [true, true] ∧
    (MatchFeatures Examples.cvDetect Examples.detectedThenAdded
        (List.replicate 51 default) []).1._trackables[0]?
      = some (Examples.detectedThenAdded._trackables.getD 0 default) ∧
    ((MatchFeatures Examples.cvDetect Examples.detectedThenAdded
          (List.replicate 51 default) []).1._currentlyTrackedMarkers
        = Examples.detectedThenAdded._currentlyTrackedMarkers ∨
      ∃ (b : Nat) (u u' : TrackableInfo), b ≠ 0 ∧
        Examples.detectedThenAdded._trackables[b]? = some u ∧ u._isDetected = false ∧
        (MatchFeatures Examples.cvDetect Examples.detectedThenAdded
          (List.replicate 51 default) []).1._trackables[b]? = some u' ∧ u'._isDetected = true ∧
        (MatchFeatures Examples.cvDetect Examples.detectedThenAdded
            (List.replicate 51 default) []).1._currentlyTrackedMarkers
          = Examples.detectedThenAdded._currentlyTrackedMarkers + 1) :=
  ⟨by decide!, by decide!,
    C25_match_features_skips_detected Examples.cvDetect Examples.detectedThenAdded
      (List.replicate 51 default) [] 0 (Examples.detectedThenAdded._trackables.getD 0 default)
      (by decide!) (by decide!)⟩

/-! ## Template rectangles -/

theorem ulpExponent_ge (q : ℚ) : -149 ≤ ulpExponent q := by
  unfold ulpExponent; exact le_max_right _ _

/-- Rounding is idempotent: a rounded value is left unchanged. -/
theorem roundToGrid_idem (q : ℚ) (h : 0 ≤ q) : roundToGrid (roundToGrid q) = roundToGrid q := by
  rcases eq_or_lt_of_le h with h0 | hpos
  · rw [← h0, roundToGrid_zero, roundToGrid_zero]
  · obtain ⟨s1, s2⟩ := floorLog2_spec q hpos
    have hu := ulpExponent_ge q
    have hu2 : floorLog2 q - 23 ≤ ulpExponent q := by
      unfold ulpExponent; rw [abs_of_pos hpos]; exact le_max_left _ _
    have hp := pow2_pos (ulpExponent q)
    have e : roundToGrid q
        = (roundHalfEven (q / pow2 (ulpExponent q)) : ℚ) * pow2 (ulpExponent q) :=
      roundToGrid_eq q hpos.ne'
    have ht0 : 0 ≤ q / pow2 (ulpExponent q) := div_nonneg h hp.le
    have ht : q / pow2 (ulpExponent q) ≤ (((2 : ℤ) ^ 24 : ℤ) : ℚ) := by
      rw [div_le_iff₀ hp]
      have : pow2 (floorLog2 q + 1) ≤ (((2 : ℤ) ^ 24 : ℤ) : ℚ) * pow2 (ulpExponent q) := by
        rw [← pow2_natCast, ← pow2_add]
        exact pow2_le_pow2 (by push_cast; omega)
      linarith
    have hM0 := roundHalfEven_nonneg _ ht0
    have hM := roundHalfEven_le _ _ ht
    generalize roundHalfEven (q / pow2 (ulpExponent q)) = M at *
    generalize ulpExponent q = u at *
    rw [e]
    rcases lt_or_eq_of_le hM with hlt | heq
    · rcases eq_or_lt_of_le hM0 with hz | hMpos
      · rw [← hz]; simp [roundToGrid_zero]
      · apply roundToGrid_of_grid _ M u rfl
        have hr : (0 : ℚ) < (M : ℚ) * pow2 u := mul_pos (by exact_mod_cast hMpos) hp
        have hr2 : (M : ℚ) * pow2 u < pow2 (24 + u) := by
          rw [pow2_add]
          apply mul_lt_mul_of_pos_right _ hp
          rw [show (24 : ℤ) = ((24 : ℕ) : ℤ) by norm_num, pow2_natCast]
          exact_mod_cast hlt
        have := floorLog2_lt_of_lt _ _ hr hr2
        unfold ulpExponent
        rw [abs_of_pos hr]
        omega
    · rw [heq]
      have : (((2 : ℤ) ^ 24 : ℤ) : ℚ) * pow2 u = pow2 (24 + u) := by
        rw [pow2_add, show (24 : ℤ) = ((24 : ℕ) : ℤ) by norm_num, pow2_natCast]
      rw [this]
      exact roundToGrid_pow2 _ (by omega)

theorem roundToFloat_zero : roundToFloat 0 = FloatValue.finite 0 := by
  unfold roundToFloat
  rw [roundToGrid_zero, if_pos (by simpa using pow2_pos 128)]

/-- The `float` difference of a finite value and a smaller one is a non-negative representable
value or `+∞`. -/
theorem sub_finite_of_le (q m : ℚ) (h : m ≤ q) :
    (FloatValue.finite q).sub (FloatValue.finite m) = FloatValue.inf false ∨
    ∃ r : ℚ, (FloatValue.finite q).sub (FloatValue.finite m) = FloatValue.finite r ∧ 0 ≤ r ∧
      roundToFloat r = FloatValue.finite r := by
  have h0 : 0 ≤ q - m := by linarith
  show roundToFloat (q - m) = _ ∨ ∃ r : ℚ, roundToFloat (q - m) = _ ∧ _
  unfold roundToFloat
  by_cases hlt : |roundToGrid (q - m)| < pow2 128
  · right
    rw [if_pos hlt]
    refine ⟨_, rfl, roundToGrid_nonneg _ h0, ?_⟩
    rw [roundToGrid_idem _ h0, if_pos hlt]
  · left
    rw [if_neg hlt]
    simp [not_lt.mpr h0]

theorem sub_self_finite (q : ℚ) :
    (FloatValue.finite q).sub (FloatValue.finite q) = FloatValue.finite 0 := by
  show roundToFloat (q - q) = _
  rw [sub_self, roundToFloat_zero]

theorem sub_zero_of_rounded (r : ℚ) (h : roundToFloat r = FloatValue.finite r) :
    (FloatValue.finite r).sub (FloatValue.finite 0) = FloatValue.finite r := by
  show roundToFloat (r - 0) = _
  rw [sub_zero, h]

theorem FLT_MAX_pos : 0 < FLT_MAX := by
  unfold FLT_MAX; norm_num

/-- The first loop of `FloorVertexPoints` keeps the two minima independently. -/
theorem foldl_min_pair (pts : List FloatPoint) (a b : FloatValue) :
    pts.foldl (fun (m : FloatValue × FloatValue) (p : FloatPoint) =>
        (if p.x.lt m.1 then p.x else m.1, if p.y.lt m.2 then p.y else m.2)) (a, b)
      = ((pts.map (fun p => p.x)).foldl (fun m v => if v.lt m then v else m) a,
        (pts.map (fun p => p.y)).foldl (fun m v => if v.lt m then v else m) b) := by
  induction pts generalizing a b with
  | nil => rfl
  | cons p pts ih => simp only [List.foldl_cons, List.map_cons]; exact ih _ _

/-- The running minimum over values that are finite or `+∞`, from a finite start `A`: the result
is finite, at most `A` and at most every finite value of the list, and is `A` or a value of the
list. -/
theorem foldl_min_spec (vs : List FloatValue) (A : ℚ)
    (hv : ∀ v ∈ vs, v = FloatValue.inf false ∨ ∃ q, v = FloatValue.finite q) :
    ∃ m : ℚ, vs.foldl (fun m v => if v.lt m then v else m) (FloatValue.finite A)
        = FloatValue.finite m ∧
      m ≤ A ∧ (∀ q, FloatValue.finite q ∈ vs → m ≤ q) ∧
      (m = A ∨ FloatValue.finite m ∈ vs) := by
  induction vs generalizing A with
  | nil => exact ⟨A, rfl, le_rfl, by simp, Or.inl rfl⟩
  | cons v vs ih =>
    have hv' : ∀ v ∈ vs, v = FloatValue.inf false ∨ ∃ q, v = FloatValue.finite q :=
      fun w hw => hv w (List.mem_cons_of_mem _ hw)
    rw [List.foldl_cons]
    rcases hv v (List.mem_cons_self _ _) with rfl | ⟨q, rfl⟩
    · obtain ⟨m, e, h1, h2, h3⟩ := ih A hv'
      have : (FloatValue.inf false).lt (FloatValue.finite A) = false := rfl
      rw [this]
      refine ⟨m, e, h1, ?_, ?_⟩
      · intro q hq
        rcases List.mem_cons.mp hq with hq | hq
        · cases hq
        · exact h2 q hq
      · rcases h3 with h3 | h3
        · exact Or.inl h3
        · exact Or.inr (List.mem_cons_of_mem _ h3)
    · have e0 : (FloatValue.finite q).lt (FloatValue.finite A) = decide (q < A) := rfl
      rw [e0]
      by_cases hq : q < A
      · rw [decide_eq_true hq, if_pos rfl]
        obtain ⟨m, e, h1, h2, h3⟩ := ih q hv'
        refine ⟨m, e, by linarith, ?_, ?_⟩
        · intro q' hq'
          rcases List.mem_cons.mp hq' with hq' | hq'
          · injection hq' with hq'; subst hq'; exact h1
          · exact h2 q' hq'
        · rcases h3 with h3 | h3
          · right; rw [h3]; exact List.mem_cons_self _ _
          · exact Or.inr (List.mem_cons_of_mem _ h3)
      · rw [decide_eq_false hq, if_neg (by simp)]
        obtain ⟨m, e, h1, h2, h3⟩ := ih A hv'
        refine ⟨m, e, h1, ?_, ?_⟩
        · intro q' hq'
          rcases List.mem_cons.mp hq' with hq' | hq'
          · injection hq' with hq'; subst hq'; linarith
          · exact h2 q' hq'
        · rcases h3 with h3 | h3
          · exact Or.inl h3
          · exact Or.inr (List.mem_cons_of_mem _ h3)

theorem isFinite_iff (v : FloatValue) :
    v.isFinite = true ↔ ∃ q, v = FloatValue.finite q ∧ |q| ≤ FLT_MAX := by
  cases v with
  | finite q => simp [FloatValue.isFinite]
  | inf s => simp [FloatValue.isFinite]
  | nan => simp [FloatValue.isFinite]

/-- One coordinate of `FloorVertexPoints` on a non-empty list of finite values: the minimum the
first loop finds is a value of the list that no value is less than; every difference is `+∞` or
a non-negative representable value, one of them is 0; and a second run finds the minimum 0 and
changes nothing. -/
theorem coordinate_spec (vs : List FloatValue) (hne : vs ≠ [])
    (hfin : ∀ v ∈ vs, v.isFinite = true) :
    ∃ m : ℚ, vs.foldl (fun m v => if v.lt m then v else m) (FloatValue.finite FLT_MAX)
        = FloatValue.finite m ∧
      FloatValue.finite m ∈ vs ∧
      (∀ v ∈ vs, v.lt (FloatValue.finite m) = false) ∧
      (∀ v ∈ vs, v.sub (FloatValue.finite m) = FloatValue.inf false ∨
        ∃ r : ℚ, v.sub (FloatValue.finite m) = FloatValue.finite r ∧ 0 ≤ r ∧
          roundToFloat r = FloatValue.finite r) ∧
      (∃ v ∈ vs, v.sub (FloatValue.finite m) = FloatValue.finite 0) ∧
      (vs.map (fun v => v.sub (FloatValue.finite m))).foldl
          (fun m v => if v.lt m then v else m) (FloatValue.finite FLT_MAX)
        = FloatValue.finite 0 ∧
      (∀ v ∈ vs, (v.sub (FloatValue.finite m)).sub (FloatValue.finite 0)
        = v.sub (FloatValue.finite m)) := by
  have hv : ∀ v ∈ vs, v = FloatValue.inf false ∨ ∃ q, v = FloatValue.finite q := by
    intro v h
    obtain ⟨q, e, -⟩ := (isFinite_iff v).mp (hfin v h)
    exact Or.inr ⟨q, e⟩
  obtain ⟨m, e, h1, h2, h3⟩ := foldl_min_spec vs FLT_MAX hv
  have hmem : FloatValue.finite m ∈ vs := by
    rcases h3 with h3 | h3
    · obtain ⟨v, hvm⟩ := List.exists_mem_of_ne_nil vs hne
      obtain ⟨q, eq, hq⟩ := (isFinite_iff v).mp (hfin v hvm)
      subst eq
      have a := h2 q hvm
      have b : q ≤ FLT_MAX := le_trans (le_abs_self q) hq
      have : q = m := by rw [h3] at a ⊢; linarith
      rw [← this]; exact hvm
    · exact h3
  have hsub : ∀ v ∈ vs, v.sub (FloatValue.finite m) = FloatValue.inf false ∨
      ∃ r : ℚ, v.sub (FloatValue.finite m) = FloatValue.finite r ∧ 0 ≤ r ∧
        roundToFloat r = FloatValue.finite r := by
    intro v h
    obtain ⟨q, eq, -⟩ := (isFinite_iff v).mp (hfin v h)
    subst eq
    exact sub_finite_of_le q m (h2 q h)
  have hzero : ∃ v ∈ vs, v.sub (FloatValue.finite m) = FloatValue.finite 0 :=
    ⟨_, hmem, sub_self_finite m⟩
  refine ⟨m, e, hmem, ?_, hsub, hzero, ?_, ?_⟩
  · intro v h
    obtain ⟨q, eq, -⟩ := (isFinite_iff v).mp (hfin v h)
    subst eq
    show decide (q < m) = false
    exact decide_eq_false (not_lt.mpr (h2 q h))
  · have hv2 : ∀ w ∈ vs.map (fun v => v.sub (FloatValue.finite m)),
        w = FloatValue.inf false ∨ ∃ q, w = FloatValue.finite q := by
      intro w hw
      obtain ⟨v, hvm, rfl⟩ := List.mem_map.mp hw
      rcases hsub v hvm with h | ⟨r, h, -⟩
      · exact Or.inl h
      · exact Or.inr ⟨r, h⟩
    obtain ⟨m2, e2, g1, g2, g3⟩ := foldl_min_spec _ FLT_MAX hv2
    rw [e2]
    have hz : FloatValue.finite 0 ∈ vs.map (fun v => v.sub (FloatValue.finite m)) := by
      obtain ⟨v, hvm, hv0⟩ := hzero
      exact List.mem_map.mpr ⟨v, hvm, hv0⟩
    have a := g2 0 hz
    have b : 0 ≤ m2 := by
      rcases g3 with g3 | g3
      · rw [g3]; exact FLT_MAX_pos.le
      · obtain ⟨v, hvm, hv0⟩ := List.mem_map.mp g3
        rcases hsub v hvm with h | ⟨r, h, hr, -⟩
        · rw [h] at hv0; cases hv0
        · rw [h] at hv0; injection hv0 with hv0; rw [← hv0]; exact hr
    have : m2 = 0 := le_antisymm a b
    rw [this]
  · intro v h
    rcases hsub v h with h | ⟨r, h, -, hr⟩
    · rw [h]; rfl
    · rw [h]; exact sub_zero_of_rounded r hr

theorem FloorVertexPointsMin_eq (pts : List FloatPoint) :
    FloorVertexPointsMin pts
      = ((pts.map (fun p => p.x)).foldl (fun m v => if v.lt m then v else m)
          (FloatValue.finite FLT_MAX),
        (pts.map (fun p => p.y)).foldl (fun m v => if v.lt m then v else m)
          (FloatValue.finite FLT_MAX)) :=
  foldl_min_pair pts _ _

theorem FloorVertexPoints_of_min (pts : List FloatPoint) (a b : FloatValue)
    (h : FloorVertexPointsMin pts = (a, b)) :
    FloorVertexPoints pts = pts.map (fun p => ⟨p.x.sub a, p.y.sub b⟩) := by
  unfold FloorVertexPoints
  rw [h]

/-- C27, as amended. For every non-empty list of vertices with finite coordinates
`FloorVertexPoints` returns a list of the same length, obtained by subtracting in `float`
arithmetic the x coordinate of one vertex, which no x coordinate is less than, from every x
coordinate, and likewise for y; the result has a vertex with x coordinate 0 and one with y
coordinate 0, every coordinate is a non-negative value or `+∞`, and applying the function to
the result returns it unchanged. -/
theorem C27_floor_vertex_points (pts : List FloatPoint) (hne : pts ≠ [])
    (hfin : ∀ p ∈ pts, p.x.isFinite = true ∧ p.y.isFinite = true) :
    (FloorVertexPoints pts).length = pts.length ∧
    (∃ px ∈ pts, ∃ py ∈ pts,
      (∀ p ∈ pts, p.x.lt px.x = false) ∧ (∀ p ∈ pts, p.y.lt py.y = false) ∧
      FloorVertexPoints pts = pts.map (fun p => ⟨p.x.sub px.x, p.y.sub py.y⟩)) ∧
    ((∃ p ∈ FloorVertexPoints pts, p.x = FloatValue.finite 0) ∧
      ∀ p ∈ FloorVertexPoints pts,
        p.x = FloatValue.inf false ∨ ∃ r : ℚ, p.x = FloatValue.finite r ∧ 0 ≤ r) ∧
    ((∃ p ∈ FloorVertexPoints pts, p.y = FloatValue.finite 0) ∧
      ∀ p ∈ FloorVertexPoints pts,
        p.y = FloatValue.inf false ∨ ∃ r : ℚ, p.y = FloatValue.finite r ∧ 0 ≤ r) ∧
    FloorVertexPoints (FloorVertexPoints pts) = FloorVertexPoints pts := by
  have hxne : pts.map (fun p => p.x) ≠ [] := by simpa using hne
  have hyne : pts.map (fun p => p.y) ≠ [] := by simpa using hne
  have hxfin : ∀ v ∈ pts.map (fun p => p.x), v.isFinite = true := by
    intro v hv
    obtain ⟨p, hp, rfl⟩ := List.mem_map.mp hv
    exact (hfin p hp).1
  have hyfin : ∀ v ∈ pts.map (fun p => p.y), v.isFinite = true := by
    intro v hv
    obtain ⟨p, hp, rfl⟩ := List.mem_map.mp hv
    exact (hfin p hp).2
  obtain ⟨mx, ex, x1, x2, x3, x4, x5, x6⟩ := coordinate_spec _ hxne hxfin
  obtain ⟨my, ey, y1, y2, y3, y4, y5, y6⟩ := coordinate_spec _ hyne hyfin
  have hmin : FloorVertexPointsMin pts = (FloatValue.finite mx, FloatValue.finite my) := by
    rw [FloorVertexPointsMin_eq, ex, ey]
  have hF : FloorVertexPoints pts
      = pts.map (fun p => ⟨p.x.sub (FloatValue.finite mx), p.y.sub (FloatValue.finite my)⟩) :=
    FloorVertexPoints_of_min pts _ _ hmin
  have hmin2 : FloorVertexPointsMin (FloorVertexPoints pts)
      = (FloatValue.finite 0, FloatValue.finite 0) := by
    rw [FloorVertexPointsMin_eq, hF]
    simp only [List.map_map]
    have a : (pts.map ((fun p : FloatPoint => p.x) ∘ fun p : FloatPoint =>
          (⟨p.x.sub (FloatValue.finite mx), p.y.sub (FloatValue.finite my)⟩ : FloatPoint)))
        = (pts.map (fun p => p.x)).map (fun v => v.sub (FloatValue.finite mx)) := by
      simp [List.map_map, Function.comp_def]
    have b : (pts.map ((fun p : FloatPoint => p.y) ∘ fun p : FloatPoint =>
          (⟨p.x.sub (FloatValue.finite mx), p.y.sub (FloatValue.finite my)⟩ : FloatPoint)))
        = (pts.map (fun p => p.y)).map (fun v => v.sub (FloatValue.finite my)) := by
      simp [List.map_map, Function.comp_def]
    rw [a, b, x5, y5]
  obtain ⟨px, hpx, epx⟩ := List.mem_map.mp x1
  obtain ⟨py, hpy, epy⟩ := List.mem_map.mp y1
  refine ⟨by simp [FloorVertexPoints], ⟨px, hpx, py, hpy, ?_, ?_, ?_⟩, ⟨?_, ?_⟩, ⟨?_, ?_⟩, ?_⟩
  · intro p hp
    rw [epx]
    exact x2 _ (List.mem_map_of_mem _ hp)
  · intro p hp
    rw [epy]
    exact y2 _ (List.mem_map_of_mem _ hp)
  · rw [hF, epx, epy]
  · obtain ⟨v, hv, hv0⟩ := x4
    obtain ⟨p, hp, rfl⟩ := List.mem_map.mp hv
    rw [hF]
    exact ⟨_, List.mem_map_of_mem _ hp, hv0⟩
  · intro p hp
    rw [hF] at hp
    obtain ⟨p0, hp0, rfl⟩ := List.mem_map.mp hp
    rcases x3 _ (List.mem_map_of_mem (fun p => p.x) hp0) with h | ⟨r, h, hr, -⟩
    · exact Or.inl h
    · exact Or.inr ⟨r, h, hr⟩
  · obtain ⟨v, hv, hv0⟩ := y4
    obtain ⟨p, hp, rfl⟩ := List.mem_map.mp hv
    rw [hF]
    exact ⟨_, List.mem_map_of_mem _ hp, hv0⟩
  · intro p hp
    rw [hF] at hp
    obtain ⟨p0, hp0, rfl⟩ := List.mem_map.mp hp
    rcases y3 _ (List.mem_map_of_mem (fun p => p.y) hp0) with h | ⟨r, h, hr, -⟩
    · exact Or.inl h
    · exact Or.inr ⟨r, h, hr⟩
  · rw [FloorVertexPoints_of_min _ _ _ hmin2]
    conv_rhs => rw [← List.map_id (FloorVertexPoints pts)]
    apply List.map_congr_left
    intro p hp
    rw [hF] at hp
    obtain ⟨p0, hp0, rfl⟩ := List.mem_map.mp hp
    show (⟨_, _⟩ : FloatPoint) = _
    dsimp only [id]
    rw [x6 _ (List.mem_map_of_mem (fun p => p.x) hp0),
      y6 _ (List.mem_map_of_mem (fun p => p.y) hp0)]

/-- Every finite value that the rounding to `float` leaves unchanged has magnitude at most
`FLT_MAX`. -/
theorem isFinite_of_rounded (q : ℚ) (h : roundToFloat q = FloatValue.finite q) :
    (FloatValue.finite q).isFinite = true := by
  unfold roundToFloat at h
  by_cases hlt : |roundToGrid q| < pow2 128
  · rw [if_pos hlt] at h
    injection h with h
    rw [h] at hlt
    show decide (|q| ≤ FLT_MAX) = true
    rw [decide_eq_true_eq]
    by_contra hcon
    push_neg at hcon
    have hq0 : q ≠ 0 := by
      rintro rfl
      rw [abs_zero] at hcon
      exact absurd hcon (not_lt.mpr FLT_MAX_pos.le)
    have e127 : pow2 127 ≤ |q| := by
      have : pow2 127 ≤ FLT_MAX := by
        rw [pow2_eq]; unfold FLT_MAX; norm_num
      linarith
    have hfl : floorLog2 |q| = 127 := floorLog2_unique _ _ e127 hlt
    have hu : ulpExponent q = 104 := by
      unfold ulpExponent; rw [hfl]; norm_num
    rw [roundToGrid_eq q hq0, hu] at h
    generalize roundHalfEven (q / pow2 104) = M at h
    have e104 : pow2 104 = 2 ^ 104 := by rw [pow2_eq]; norm_num
    have e128 : pow2 128 = 2 ^ 24 * 2 ^ 104 := by rw [pow2_eq]; norm_num
    rw [← h, abs_mul, abs_of_pos (pow2_pos 104), e104] at hcon hlt
    rw [e128] at hlt
    unfold FLT_MAX at hcon
    have h1 : (2 : ℚ) ^ 24 - 1 < |(M : ℚ)| := lt_of_mul_lt_mul_right hcon (by positivity)
    have h2 : |(M : ℚ)| < 2 ^ 24 := lt_of_mul_lt_mul_right hlt (by positivity)
    rw [← Int.cast_abs] at h1 h2
    have h1' : (2 : ℤ) ^ 24 - 1 < |M| := by exact_mod_cast h1
    have h2' : |M| < (2 : ℤ) ^ 24 := by exact_mod_cast h2
    omega
  · rw [if_neg hlt] at h
    cases h

/-- C27 as amended for the three vertices `(3, 5)`, `(1, 7)`, `(2, 4)`, which go to `(2, 1)`,
`(0, 3)`, `(1, 0)`. -/
theorem C27_floor_vertex_points_witness :
    Examples.vertices ≠ [] ∧
    (∀ p ∈ Examples.vertices, p.x.isFinite = true ∧ p.y.isFinite = true) ∧
    FloorVertexPoints Examples.vertices
      = [⟨FloatValue.finite 2, FloatValue.finite 1⟩, ⟨FloatValue.finite 0, FloatValue.finite 3⟩,
          ⟨FloatValue.finite 1, FloatValue.finite 0⟩] ∧
    ((FloorVertexPoints Examples.vertices).length = Examples.vertices.length ∧
      (∃ px ∈ Examples.vertices, ∃ py ∈ Examples.vertices,
        (∀ p ∈ Examples.vertices, p.x.lt px.x = false) ∧
        (∀ p ∈ Examples.vertices, p.y.lt py.y = false) ∧
        FloorVertexPoints Examples.vertices
          = Examples.vertices.map (fun p => ⟨p.x.sub px.x, p.y.sub py.y⟩)) ∧
      ((∃ p ∈ FloorVertexPoints Examples.vertices, p.x = FloatValue.finite 0) ∧
        ∀ p ∈ FloorVertexPoints Examples.vertices,
          p.x = FloatValue.inf false ∨ ∃ r : ℚ, p.x = FloatValue.finite r ∧ 0 ≤ r) ∧
      ((∃ p ∈ FloorVertexPoints Examples.vertices, p.y = FloatValue.finite 0) ∧
        ∀ p ∈ FloorVertexPoints Examples.vertices,
          p.y = FloatValue.inf false ∨ ∃ r : ℚ, p.y = FloatValue.finite r ∧ 0 ≤ r) ∧
      FloorVertexPoints (FloorVertexPoints Examples.vertices)
        = FloorVertexPoints Examples.vertices) :=
  ⟨by decide, by decide!, by decide!,
    C27_floor_vertex_points Examples.vertices (by decide) (by decide!)⟩

/-- Counterexample to C27 as stated. For the x coordinates `-16777216`, `1`, `2`, which are
`float` values, the result has the x coordinates `0`, `16777216`, `16777218`: the difference
`1 - (-16777216) = 16777217` is rounded, so that no common offset was subtracted and the
difference between the second and the third vertex went from 1 to 2. And for the one vertex
`(+∞, NaN)` the result is `(+∞, NaN)`, with no coordinate 0. -/
theorem C27_counterexample :
    (∀ p ∈ Examples.wideVertices, p.x.isFinite = true ∧ p.y.isFinite = true) ∧
    (∀ q ∈ [(-16777216 : ℚ), 1, 2, 0], roundToFloat q = FloatValue.finite q) ∧
    Examples.wideVertices.map (fun p => p.x)
      = [FloatValue.finite (-16777216), FloatValue.finite 1, FloatValue.finite 2] ∧
    (FloorVertexPoints Examples.wideVertices).map (fun p => p.x)
      = [FloatValue.finite 0, FloatValue.finite 16777216, FloatValue.finite 16777218] ∧
    (2 : ℚ) - 1 ≠ 16777218 - 16777216 ∧
    (1 : ℚ) - (-16777216) ≠ 16777216 - 0 ∧
    FloorVertexPoints [⟨FloatValue.inf false, FloatValue.nan⟩]
      = [⟨FloatValue.inf false, FloatValue.nan⟩] := by
  decide!


/-! ## The halved sizes as ceilings -/

/-- The running size of `CalcPyrDownScaleFactor` never grows: for a size below `INT_MAX` the
increment `xScaled + 1` stays within `int`. -/
theorem iterate_halvedSize_le (k : Nat) (n : Int) (h : 1 ≤ n) : halvedSize^[k] n ≤ n := by
  induction k generalizing n with
  | zero => simp
  | succ k ih =>
    rw [Function.iterate_succ_apply]
    have h1 : 1 ≤ halvedSize n := halvedSize_pos n h
    have h2 : halvedSize n ≤ n := by unfold halvedSize; omega
    exact (ih _ h1).trans h2

/-- The `k`-fold halving `F` of `n` is the least integer with `n ≤ 2^k * F`. -/
theorem iterate_halvedSize_bounds (k : Nat) (n : Int) :
    n ≤ 2 ^ k * halvedSize^[k] n ∧ 2 ^ k * (halvedSize^[k] n - 1) < n := by
  induction k generalizing n with
  | zero => simp
  | succ k ih =>
    rw [Function.iterate_succ_apply]
    obtain ⟨h1, h2⟩ := ih (halvedSize n)
    generalize halvedSize^[k] (halvedSize n) = F at h1 h2
    have e : (2 : Int) ^ (k + 1) = 2 * 2 ^ k := by ring
    rw [e]
    have a1 : n ≤ 2 * halvedSize n := by unfold halvedSize; omega
    have a2 : 2 * halvedSize n ≤ n + 1 := by unfold halvedSize; omega
    generalize halvedSize n = H at h1 h2 a1 a2
    constructor
    · linarith
    · have h3 : 2 ^ k * (F - 1) + 1 ≤ H := h2
      linarith

theorem iterate_halvedSize_eq_ceil (k : Nat) (n : Int) :
    halvedSize^[k] n = ⌈(n : ℚ) / 2 ^ k⌉ := by
  obtain ⟨h1, h2⟩ := iterate_halvedSize_bounds k n
  symm
  rw [Int.ceil_eq_iff]
  have hp : (0 : ℚ) < 2 ^ k := by positivity
  constructor
  · rw [lt_div_iff₀ hp]
    have : ((2 ^ k * (halvedSize^[k] n - 1) : Int) : ℚ) < (n : ℚ) := by exact_mod_cast h2
    push_cast at this
    linarith
  · rw [div_le_iff₀ hp]
    have : ((n : Int) : ℚ) ≤ ((2 ^ k * halvedSize^[k] n : Int) : ℚ) := by exact_mod_cast h1
    push_cast at this
    linarith

theorem scale_component_bounds (k : Nat) (n : Int) (h : 1 ≤ n) :
    1 ≤ (n : ℚ) / (halvedSize^[k] n : Int) ∧ (n : ℚ) / (halvedSize^[k] n : Int) ≤ 2 ^ k := by
  have hpos := iterate_halvedSize_pos k n h
  have hle := iterate_halvedSize_le k n h
  obtain ⟨h1, -⟩ := iterate_halvedSize_bounds k n
  have hF : (0 : ℚ) < ((halvedSize^[k] n : Int) : ℚ) := by exact_mod_cast (by omega : 0 < halvedSize^[k] n)
  constructor
  · rw [le_div_iff₀ hF]
    have : ((halvedSize^[k] n : Int) : ℚ) ≤ (n : ℚ) := by exact_mod_cast hle
    linarith
  · rw [div_le_iff₀ hF]
    have : ((n : Int) : ℚ) ≤ ((2 ^ k * halvedSize^[k] n : Int) : ℚ) := by exact_mod_cast h1
    push_cast at this
    linarith

/-! ## The scale factor in `int` and `float` arithmetic -/

theorem wrapInt32_of_range (n : Int) (h1 : -2 ^ 31 ≤ n) (h2 : n < 2 ^ 31) : wrapInt32 n = n := by
  unfold wrapInt32
  norm_num at h1 h2 ⊢
  omega

theorem halvedSize_lt (n : Int) (h1 : 1 ≤ n) (h2 : n < 2 ^ 31 - 1) :
    1 ≤ halvedSize n ∧ halvedSize n < 2 ^ 31 - 1 := by
  unfold halvedSize
  norm_num at h2 ⊢
  omega

/-- The running size of `CalcPyrDownScaleFactor` on a size from 1 to `INT_MAX - 1`: no increment
overflows and the truncating division is the halving `n ↦ (n + 1) / 2`. -/
theorem halveInt32_eq_halvedSize (n : Int) (h1 : 1 ≤ n) (h2 : n < 2 ^ 31 - 1) :
    halveInt32 n = halvedSize n := by
  unfold halveInt32
  rw [wrapInt32_of_range (n + 1) (by norm_num at h2 ⊢; omega) (by norm_num at h2 ⊢; omega)]
  exact tdiv_eq_halvedSize n h1

theorem iterate_halveInt32_eq (k : Nat) (n : Int) (h1 : 1 ≤ n) (h2 : n < 2 ^ 31 - 1) :
    halveInt32^[k] n = halvedSize^[k] n := by
  induction k generalizing n with
  | zero => rfl
  | succ k ih =>
    obtain ⟨a1, a2⟩ := halvedSize_lt n h1 h2
    rw [Function.iterate_succ_apply, Function.iterate_succ_apply,
      halveInt32_eq_halvedSize n h1 h2, ih _ a1 a2]

theorem CalcPyrDownScaleFactorLoop_eq (k x y : Int) (hk : k < 2 ^ 31 - 1) (fuel : Nat) (i xs ys : Int)
    (ret : FloatValue × FloatValue) (hi : 1 ≤ i) (hf : (k + 1 - i).toNat < fuel)
    (hx1 : 1 ≤ xs) (hx2 : xs < 2 ^ 31 - 1) (hy1 : 1 ≤ ys) (hy2 : ys < 2 ^ 31 - 1) :
    CalcPyrDownScaleFactorLoop k x y fuel i xs ys ret
      = some (if k < i then ret
        else (FloatValue.div (intToFloat x) (intToFloat (halvedSize^[(k + 1 - i).toNat] xs)),
          FloatValue.div (intToFloat y) (intToFloat (halvedSize^[(k + 1 - i).toNat] ys)))) := by
  induction fuel generalizing i xs ys ret with
  | zero => omega
  | succ fuel ih =>
    unfold CalcPyrDownScaleFactorLoop
    by_cases hik : i ≤ k
    · rw [if_pos hik, if_neg (by omega)]
      dsimp only
      have hw : wrapInt32 (i + 1) = i + 1 :=
        wrapInt32_of_range _ (by norm_num; omega) (by norm_num at hk ⊢; omega)
      obtain ⟨a1, a2⟩ := halvedSize_lt xs hx1 hx2
      obtain ⟨b1, b2⟩ := halvedSize_lt ys hy1 hy2
      rw [hw, halveInt32_eq_halvedSize xs hx1 hx2, halveInt32_eq_halvedSize ys hy1 hy2,
        ih (i + 1) _ _ _ (by omega) (by omega) a1 a2 b1 b2]
      have e : (k + 1 - i).toNat = (k + 1 - (i + 1)).toNat + 1 := by omega
      by_cases hlast : k < i + 1
      · rw [if_pos hlast]
        have : (k + 1 - i).toNat = 1 := by omega
        rw [this]
        rfl
      · rw [if_neg hlast, e, Function.iterate_succ_apply, Function.iterate_succ_apply]
    · rw [if_neg hik, if_pos (by omega)]

/-- The conversion to `float` of an `int` from 1 to `2 ^ 31` is finite and again in that
range. -/
theorem intToFloat_eq (n : Int) (h1 : 1 ≤ n) (h2 : n ≤ 2 ^ 31) :
    intToFloat n = FloatValue.finite (roundToGrid n) ∧ 1 ≤ roundToGrid n ∧
      roundToGrid n ≤ pow2 31 := by
  have a1 : (1 : ℚ) ≤ n := by exact_mod_cast h1
  have a2 : (n : ℚ) ≤ pow2 31 := by
    rw [show (31 : ℤ) = ((31 : ℕ) : ℤ) by norm_num, pow2_ofNat]
    exact_mod_cast h2
  exact ⟨roundToFloat_of_bounds _ 31 (by norm_num) (by norm_num) a1 a2,
    one_le_roundToGrid _ a1, roundToGrid_le_pow2 _ 31 (by norm_num) a1 a2⟩

theorem FloatValue.div_finite (a b : ℚ) (hb : b ≠ 0) :
    FloatValue.div (FloatValue.finite a) (FloatValue.finite b) = roundToFloat (a / b) := by
  simp [FloatValue.div, hb]

/-- The accumulated relative error of a quotient of two rounded values, rounded. -/
theorem ratio_error (ε x f X F c : ℚ) (hε0 : 0 ≤ ε) (hε : ε ≤ 1 / 5) (hx : 0 < x) (hf : 0 < f)
    (hX : |X - x| ≤ ε * x) (hF : |F - f| ≤ ε * f) (hc : |c - X / F| ≤ ε * (X / F)) :
    |c - x / f| ≤ 4 * ε * (x / f) := by
  rw [abs_le] at hX hF hc ⊢
  obtain ⟨hX1, hX2⟩ := hX
  obtain ⟨hF1, hF2⟩ := hF
  obtain ⟨hc1, hc2⟩ := hc
  have hFpos : 0 < F := by nlinarith
  have hXpos : 0 < X := by nlinarith
  have hr : 0 < x / f := div_pos hx hf
  have hs : 0 < X / F := div_pos hXpos hFpos
  have ex : x = x / f * f := (div_mul_cancel₀ x hf.ne').symm
  have eX : X = X / F * F := (div_mul_cancel₀ X hFpos.ne').symm
  generalize x / f = r at *
  generalize X / F = t at *
  subst ex
  subst eX
  -- t * F is within ε of r * f, F within ε of f
  have u1 : t * (1 - ε) ≤ r * (1 + ε) := by
    by_contra hcon
    push_neg at hcon
    have : t * ((1 - ε) * f) ≤ t * F := mul_le_mul_of_nonneg_left (by linarith) hs.le
    nlinarith
  have u2 : r * (1 - ε) ≤ t * (1 + ε) := by
    by_contra hcon
    push_neg at hcon
    have : t * F ≤ t * ((1 + ε) * f) := mul_le_mul_of_nonneg_left (by linarith) hs.le
    nlinarith
  constructor
  · nlinarith
  · nlinarith

/-- One component of the result of `CalcPyrDownScaleFactor` for a size `n` from 1 to
`INT_MAX - 1` after `k` halvings: the `float` quotient is finite, lies between 1 and `2 ^ k`,
is within a relative error of `2 ^ (-22)` of the exact ratio, and is `2 ^ k` when `2 ^ k`
divides `n`. -/
theorem scale_component (n : Int) (k : Nat) (h1 : 1 ≤ n) (h2 : n < 2 ^ 31 - 1) :
    FloatValue.div (intToFloat n) (intToFloat (halvedSize^[k] n))
      = FloatValue.finite
          (roundToGrid (roundToGrid n / roundToGrid (halvedSize^[k] n : Int))) ∧
    1 ≤ roundToGrid (roundToGrid n / roundToGrid (halvedSize^[k] n : Int)) ∧
    roundToGrid (roundToGrid n / roundToGrid (halvedSize^[k] n : Int)) ≤ 2 ^ k ∧
    |roundToGrid (roundToGrid n / roundToGrid (halvedSize^[k] n : Int))
        - (n : ℚ) / (halvedSize^[k] n : Int)| ≤ (n : ℚ) / (halvedSize^[k] n : Int) / 2 ^ 22 ∧
    ((2 : Int) ^ k ∣ n →
      roundToGrid (roundToGrid n / roundToGrid (halvedSize^[k] n : Int)) = 2 ^ k) := by
  have hpos := iterate_halvedSize_pos k n h1
  have hle := iterate_halvedSize_le k n h1
  obtain ⟨hb, -⟩ := iterate_halvedSize_bounds k n
  have hmul : (2 : Int) ^ k ∣ n → n = 2 ^ k * halvedSize^[k] n := by
    rintro ⟨a, ha⟩
    rw [ha, iterate_halvedSize_mul]
  generalize halvedSize^[k] n = f at *
  have n31 : n ≤ 2 ^ 31 := by norm_num at h2 ⊢; omega
  obtain ⟨eX, X1, X2⟩ := intToFloat_eq n h1 n31
  obtain ⟨eF, F1, F2⟩ := intToFloat_eq f hpos (le_trans hle n31)
  have qn : (1 : ℚ) ≤ n := by exact_mod_cast h1
  have qf : (1 : ℚ) ≤ f := by exact_mod_cast hpos
  have qfn : (f : ℚ) ≤ n := by exact_mod_cast hle
  have nn : pow2 (-126) ≤ (n : ℚ) := le_trans pow2_neg126_le_one qn
  have nf : pow2 (-126) ≤ (f : ℚ) := le_trans pow2_neg126_le_one qf
  have hFX : roundToGrid f ≤ roundToGrid n := roundToGrid_mono _ _ nf qfn
  have hF0 : (0 : ℚ) < roundToGrid f := by linarith
  have t1 : 1 ≤ roundToGrid n / roundToGrid f := by
    rw [le_div_iff₀ hF0]; linarith
  have t2 : roundToGrid n / roundToGrid f ≤ pow2 31 := by
    rw [div_le_iff₀ hF0]
    have := pow2_pos 31
    nlinarith
  -- the bound 2 ^ j with j = min k 31
  have hj : ∃ j : ℕ, j ≤ 31 ∧ j ≤ k ∧ (n : ℚ) ≤ pow2 j * f := by
    by_cases hk : k ≤ 31
    · refine ⟨k, hk, le_rfl, ?_⟩
      rw [pow2_ofNat]
      exact_mod_cast hb
    · refine ⟨31, le_rfl, by omega, ?_⟩
      have : (n : ℚ) ≤ pow2 31 := by
        rw [show (31 : ℤ) = ((31 : ℕ) : ℤ) by norm_num, pow2_ofNat]
        exact_mod_cast n31
      have hp := pow2_pos 31
      show (n : ℚ) ≤ pow2 ((31 : ℕ) : ℤ) * f
      rw [show ((31 : ℕ) : ℤ) = 31 by norm_num]
      nlinarith
  obtain ⟨j, j31, jk, hnj⟩ := hj
  have hjn : pow2 (-126) ≤ pow2 j * f := le_trans nn hnj
  have t3 : roundToGrid n / roundToGrid f ≤ pow2 j := by
    rw [div_le_iff₀ hF0, ← roundToGrid_pow2_mul f j nf hjn]
    exact roundToGrid_mono _ _ nn hnj
  have c3 : roundToGrid (roundToGrid n / roundToGrid f) ≤ 2 ^ k := by
    have := roundToGrid_le_pow2 _ j (by omega) t1 t3
    refine le_trans this ?_
    rw [pow2_ofNat]
    exact pow_le_pow_right₀ (by norm_num) jk
  refine ⟨?_, one_le_roundToGrid _ t1, c3, ?_, ?_⟩
  · rw [eX, eF, FloatValue.div_finite _ _ hF0.ne']
    exact roundToFloat_of_bounds _ 31 (by norm_num) (by norm_num) t1 t2
  · have e24 : pow2 (-24) = 1 / 2 ^ 24 := by rw [pow2_eq]; norm_num
    have r1 := roundToGrid_error n nn
    have r2 := roundToGrid_error f nf
    have r3 := roundToGrid_error (roundToGrid n / roundToGrid f) (le_trans pow2_neg126_le_one t1)
    have hx0 : (0 : ℚ) < n := by linarith
    have hf0 : (0 : ℚ) < f := by linarith
    have := ratio_error (pow2 (-24)) n f (roundToGrid n) (roundToGrid f)
      (roundToGrid (roundToGrid n / roundToGrid f)) (pow2_pos _).le (by rw [e24]; norm_num)
      hx0 hf0 r1 r2 r3
    refine le_trans this (le_of_eq ?_)
    rw [e24]; ring
  · intro hdvd
    have e := hmul hdvd
    have eq : (n : ℚ) = pow2 k * f := by
      rw [pow2_ofNat]; exact_mod_cast e
    have hkn : pow2 (-126) ≤ pow2 k * f := by rw [← eq]; exact nn
    have : roundToGrid n / roundToGrid f = pow2 k := by
      rw [eq, roundToGrid_pow2_mul f k nf hkn, mul_div_assoc, div_self hF0.ne', mul_one]
    rw [this, roundToGrid_pow2 k (by omega), pow2_ofNat]

/-- For sizes from 1 to `INT_MAX - 1` and a level below `INT_MAX` the call returns: the pair
`(1, 1)` below level 1, and from level 1 on the `float` quotients by the halved sizes. -/
theorem CalcPyrDownScaleFactor_eq (k x y : Int) (hk : k < 2 ^ 31 - 1) (hx : 1 ≤ x)
    (hx2 : x < 2 ^ 31 - 1) (hy : 1 ≤ y) (hy2 : y < 2 ^ 31 - 1) :
    CalcPyrDownScaleFactor k x y
      = some (if k < 1 then (FloatValue.finite 1, FloatValue.finite 1)
        else (FloatValue.div (intToFloat x) (intToFloat (halvedSize^[k.toNat] x)),
          FloatValue.div (intToFloat y) (intToFloat (halvedSize^[k.toNat] y)))) := by
  unfold CalcPyrDownScaleFactor
  rw [CalcPyrDownScaleFactorLoop_eq k x y hk _ 1 x y _ le_rfl
    (by norm_num at hk ⊢; omega) hx hx2 hy hy2]
  simp

/-- C11, as amended. For every frame size `x, y` from 1 to `INT_MAX - 1` and pyramid level `k`
below `INT_MAX`, `CalcPyrDownScaleFactor(k, x, y)` returns; for `k ≥ 1` the result is the pair of
`float` quotients `((float)x / (float)fx, (float)y / (float)fy)`, where `fx` and `fy` come from
`x` and `y` by applying `n ↦ (n+1)/2` (integer division) `k` times, both components are finite
and each is within a relative error of `2 ^ (-22)` of the exact ratio `x / fx`, `y / fy`; for
`k ≤ 0` the result is `(1, 1)`. -/
theorem C11_scale_factor_formula (k x y : Int) (hx : 1 ≤ x) (hx2 : x < 2 ^ 31 - 1)
    (hy : 1 ≤ y) (hy2 : y < 2 ^ 31 - 1) (hk : k < 2 ^ 31 - 1) :
    (1 ≤ k →
      CalcPyrDownScaleFactor k x y
        = some (FloatValue.div (intToFloat x) (intToFloat (halvedSize^[k.toNat] x)),
            FloatValue.div (intToFloat y) (intToFloat (halvedSize^[k.toNat] y))) ∧
      ∃ a b : ℚ,
        CalcPyrDownScaleFactor k x y = some (FloatValue.finite a, FloatValue.finite b) ∧
        |a - (x : ℚ) / (halvedSize^[k.toNat] x : Int)|
          ≤ (x : ℚ) / (halvedSize^[k.toNat] x : Int) / 2 ^ 22 ∧
        |b - (y : ℚ) / (halvedSize^[k.toNat] y : Int)|
          ≤ (y : ℚ) / (halvedSize^[k.toNat] y : Int) / 2 ^ 22) ∧
    (k ≤ 0 →
      CalcPyrDownScaleFactor k x y = some (FloatValue.finite 1, FloatValue.finite 1)) := by
  have e := CalcPyrDownScaleFactor_eq k x y hk hx hx2 hy hy2
  constructor
  · intro h1
    rw [if_neg (by omega)] at e
    refine ⟨e, ?_⟩
    obtain ⟨a1, -, -, a4, -⟩ := scale_component x k.toNat hx hx2
    obtain ⟨b1, -, -, b4, -⟩ := scale_component y k.toNat hy hy2
    exact ⟨_, _, by rw [e, a1, b1], a4, b4⟩
  · intro h0
    rw [if_pos (by omega)] at e
    exact e

/-- C11 as amended at level 2 of a 641 x 481 frame: the sizes halve to 321 x 241 and then to
161 x 121, and the result is the pair of `float`s nearest to `641/161` and `481/121`. -/
theorem C11_scale_factor_formula_witness :
    (halvedSize^[2] 641 = 161 ∧ halvedSize^[2] 481 = 121) ∧
    CalcPyrDownScaleFactor 2 641 481
      = some (FloatValue.finite (16699061 / 4194304), FloatValue.finite (16673225 / 4194304)) ∧
    ((1 : Int) ≤ 2 →
      CalcPyrDownScaleFactor 2 641 481
        = some (FloatValue.div (intToFloat 641) (intToFloat (halvedSize^[(2 : Int).toNat] 641)),
            FloatValue.div (intToFloat 481) (intToFloat (halvedSize^[(2 : Int).toNat] 481))) ∧
      ∃ a b : ℚ,
        CalcPyrDownScaleFactor 2 641 481 = some (FloatValue.finite a, FloatValue.finite b) ∧
        |a - ((641 : Int) : ℚ) / (halvedSize^[(2 : Int).toNat] 641 : Int)|
          ≤ ((641 : Int) : ℚ) / (halvedSize^[(2 : Int).toNat] 641 : Int) / 2 ^ 22 ∧
        |b - ((481 : Int) : ℚ) / (halvedSize^[(2 : Int).toNat] 481 : Int)|
          ≤ ((481 : Int) : ℚ) / (halvedSize^[(2 : Int).toNat] 481 : Int) / 2 ^ 22) ∧
    ((2 : Int) ≤ 0 →
      CalcPyrDownScaleFactor 2 641 481 = some (FloatValue.finite 1, FloatValue.finite 1)) :=
  ⟨by decide, by decide!, C11_scale_factor_formula 2 641 481 (by decide) (by decide) (by decide) (by decide)
    (by decide)⟩

/-- Counterexample to C11 as stated. For the frame size `x = y = INT_MAX` at level 1 the
increment `xScaled + 1` wraps around to `INT_MIN`, the halved size is `-2^30` and the result is
`(-2, -2)`, while `x / fx` with `fx = (x+1)/2 = 2^30` is positive. And for the 641 x 481 frame
at level 2 the result is the pair of `float`s nearest to `641/161` and `481/121`, not these
ratios themselves. -/
theorem C11_counterexample :
    halvedSize^[1] 2147483647 = 1073741824 ∧
    CalcPyrDownScaleFactor 1 2147483647 2147483647
      = some (FloatValue.finite (-2), FloatValue.finite (-2)) ∧
    (0 : ℚ) < ((2147483647 : Int) : ℚ) / (halvedSize^[1] 2147483647 : Int) ∧
    CalcPyrDownScaleFactor 2 641 481
      = some (FloatValue.finite (16699061 / 4194304), FloatValue.finite (16673225 / 4194304)) ∧
    ((16699061 / 4194304 : ℚ), (16673225 / 4194304 : ℚ))
      ≠ (((641 : Int) : ℚ) / (halvedSize^[2] 641 : Int),
        ((481 : Int) : ℚ) / (halvedSize^[2] 481 : Int)) := by
  decide!

/-- The scale factor `Initialise` stores for a frame with sizes from 1 to `INT_MAX - 1` and a
level below `INT_MAX`. -/
theorem Initialise_featureDetectScaleFactor (s : PlanarTrackerImpl) (cParam : ARParam) (k : Int)
    (hk : k < 2 ^ 31 - 1) (hx : 1 ≤ cParam.xsize) (hx2 : cParam.xsize < 2 ^ 31 - 1)
    (hy : 1 ≤ cParam.ysize) (hy2 : cParam.ysize < 2 ^ 31 - 1) :
    (s.Initialise cParam k)._featureDetectScaleFactor
      = if k < 1 then (1, 1)
        else (roundToGrid (roundToGrid cParam.xsize
                / roundToGrid (halvedSize^[k.toNat] cParam.xsize : Int)),
          roundToGrid (roundToGrid cParam.ysize
                / roundToGrid (halvedSize^[k.toNat] cParam.ysize : Int))) := by
  have e : (s.Initialise cParam k)._featureDetectScaleFactor
      = match CalcPyrDownScaleFactor k cParam.xsize cParam.ysize with
        | some f => (f.1.toRat, f.2.toRat)
        | none => s._featureDetectScaleFactor := rfl
  rw [e, CalcPyrDownScaleFactor_eq k _ _ hk hx hx2 hy hy2]
  dsimp only
  split_ifs with h
  · rfl
  · obtain ⟨a1, -⟩ := scale_component cParam.xsize k.toNat hx hx2
    obtain ⟨b1, -⟩ := scale_component cParam.ysize k.toNat hy hy2
    rw [a1, b1]
    rfl

/-- C12, as amended. `Initialise` stores the level it is given, and for a frame with sizes from
1 to `INT_MAX - 1` and a level `0 ≤ k < INT_MAX` a component of `_featureDetectScaleFactor` is
`2 ^ _featureDetectPyrLevel` whenever `2 ^ k` divides the corresponding frame dimension, and
lies between 1 and `2 ^ _featureDetectPyrLevel` in every case; for `k ≤ 0` the scale factor is
`(1, 1)`. -/
theorem C12_scale_factor_power_of_two (s : PlanarTrackerImpl) (cParam : ARParam) (k : Int)
    (hx : 1 ≤ cParam.xsize) (hx2 : cParam.xsize < 2 ^ 31 - 1)
    (hy : 1 ≤ cParam.ysize) (hy2 : cParam.ysize < 2 ^ 31 - 1) (hk : k < 2 ^ 31 - 1) :
    (s.Initialise cParam k)._featureDetectPyrLevel = k ∧
    (0 ≤ k →
      ((2 : Int) ^ k.toNat ∣ cParam.xsize →
        (s.Initialise cParam k)._featureDetectScaleFactor.1
          = 2 ^ (s.Initialise cParam k)._featureDetectPyrLevel.toNat) ∧
      ((2 : Int) ^ k.toNat ∣ cParam.ysize →
        (s.Initialise cParam k)._featureDetectScaleFactor.2
          = 2 ^ (s.Initialise cParam k)._featureDetectPyrLevel.toNat) ∧
      (1 ≤ (s.Initialise cParam k)._featureDetectScaleFactor.1 ∧
        (s.Initialise cParam k)._featureDetectScaleFactor.1
          ≤ 2 ^ (s.Initialise cParam k)._featureDetectPyrLevel.toNat) ∧
      (1 ≤ (s.Initialise cParam k)._featureDetectScaleFactor.2 ∧
        (s.Initialise cParam k)._featureDetectScaleFactor.2
          ≤ 2 ^ (s.Initialise cParam k)._featureDetectPyrLevel.toNat)) ∧
    (k ≤ 0 → (s.Initialise cParam k)._featureDetectScaleFactor = (1, 1)) := by
  have e := Initialise_featureDetectScaleFactor s cParam k hk hx hx2 hy hy2
  have e2 : (s.Initialise cParam k)._featureDetectPyrLevel = k := rfl
  refine ⟨rfl, fun h0 => ?_, fun hk0 => ?_⟩
  · rw [e, e2]
    obtain ⟨-, a2, a3, -, a5⟩ := scale_component cParam.xsize k.toNat hx hx2
    obtain ⟨-, b2, b3, -, b5⟩ := scale_component cParam.ysize k.toNat hy hy2
    by_cases h1 : k < 1
    · have hk0 : k.toNat = 0 := by omega
      rw [if_pos h1, hk0]
      simp
    · rw [if_neg h1]
      exact ⟨a5, b5, ⟨a2, a3⟩, ⟨b2, b3⟩⟩
  · rw [e, if_pos (by omega)]

/-- C12 as amended for a 640 x 480 camera at level 1, where both components are 2. -/
theorem C12_scale_factor_power_of_two_witness :
    (PlanarTrackerImpl.new.Initialise Examples.camera 1)._featureDetectScaleFactor
      = (2, 2) ∧
    (PlanarTrackerImpl.new.Initialise Examples.camera 1)._featureDetectPyrLevel = 1 ∧
    ((0 : Int) ≤ 1 →
      ((2 : Int) ^ (1 : Int).toNat ∣ Examples.camera.xsize →
        (PlanarTrackerImpl.new.Initialise Examples.camera 1)._featureDetectScaleFactor.1
          = 2 ^ (PlanarTrackerImpl.new.Initialise
              Examples.camera 1)._featureDetectPyrLevel.toNat) ∧
      ((2 : Int) ^ (1 : Int).toNat ∣ Examples.camera.ysize →
        (PlanarTrackerImpl.new.Initialise Examples.camera 1)._featureDetectScaleFactor.2
          = 2 ^ (PlanarTrackerImpl.new.Initialise
              Examples.camera 1)._featureDetectPyrLevel.toNat) ∧
      (1 ≤ (PlanarTrackerImpl.new.Initialise Examples.camera 1)._featureDetectScaleFactor.1 ∧
        (PlanarTrackerImpl.new.Initialise Examples.camera 1)._featureDetectScaleFactor.1
          ≤ 2 ^ (PlanarTrackerImpl.new.Initialise
              Examples.camera 1)._featureDetectPyrLevel.toNat) ∧
      (1 ≤ (PlanarTrackerImpl.new.Initialise Examples.camera 1)._featureDetectScaleFactor.2 ∧
        (PlanarTrackerImpl.new.Initialise Examples.camera 1)._featureDetectScaleFactor.2
          ≤ 2 ^ (PlanarTrackerImpl.new.Initialise
              Examples.camera 1)._featureDetectPyrLevel.toNat)) ∧
    ((1 : Int) ≤ 0 →
      (PlanarTrackerImpl.new.Initialise Examples.camera 1)._featureDetectScaleFactor
        = (1, 1)) :=
  ⟨by decide!, C12_scale_factor_power_of_two PlanarTrackerImpl.new Examples.camera 1
    (by decide) (by decide) (by decide) (by decide) (by decide)⟩

/-- C12 fails for a 1283 x 963 frame. At level 2 (the level `Initialise` computes for this size
with the minimum detection size 320 x 240) the feature detection image is 321 x 241 and the
scale factor is the pair of `float`s nearest to `1283/321` and `963/241`, neither component
being `2 ^ 2`; at level 1 (the level for a minimum detection size of 640 x 480) the image is
642 x 482 and the scale factor the pair of `float`s nearest to `1283/642` and `963/482`,
neither component being `2 ^ 1`. -/
theorem C12_counterexample :
    ((PlanarTrackerImpl.new.Initialise Examples.oddCamera 2)._featureDetectPyrLevel = 2 ∧
      CalcPyrDownScaleFactor 2 1283 963
        = some (FloatValue.finite (8382075 / 2097152), FloatValue.finite (4189953 / 1048576)) ∧
      (PlanarTrackerImpl.new.Initialise Examples.oddCamera 2)._featureDetectScaleFactor
        = (8382075 / 2097152, 4189953 / 1048576) ∧
      (PlanarTrackerImpl.new.Initialise Examples.oddCamera 2)._featureDetectScaleFactor.1 ≠ 2 ^ 2 ∧
      (PlanarTrackerImpl.new.Initialise Examples.oddCamera 2)._featureDetectScaleFactor.2
        ≠ 2 ^ 2) ∧
    ((PlanarTrackerImpl.new.Initialise Examples.oddCamera 1)._featureDetectPyrLevel = 1 ∧
      (PlanarTrackerImpl.new.Initialise Examples.oddCamera 1)._featureDetectScaleFactor
        = (8382075 / 4194304, 4189953 / 2097152) ∧
      (PlanarTrackerImpl.new.Initialise Examples.oddCamera 1)._featureDetectScaleFactor.1 ≠ 2 ^ 1 ∧
      (PlanarTrackerImpl.new.Initialise Examples.oddCamera 1)._featureDetectScaleFactor.2
        ≠ 2 ^ 1) := by
  decide!

/-- In `float` arithmetic a component can be `2 ^ k` although `2 ^ k` does not divide the
size: for the size `2 ^ 25 + 1` at level 1 both conversions round and the quotient is 2. -/
theorem scale_factor_two_without_divisibility :
    halvedSize^[1] 33554433 = 16777217 ∧ ¬ (2 : Int) ^ 1 ∣ 33554433 ∧
    intToFloat 33554433 = FloatValue.finite 33554432 ∧
    intToFloat 16777217 = FloatValue.finite 16777216 ∧
    CalcPyrDownScaleFactor 1 33554433 33554433
      = some (FloatValue.finite 2, FloatValue.finite 2) := by
  decide!

/-- C28, as amended. For all sizes `x, y` from 1 to `INT_MAX - 1` and every level
`0 ≤ k < INT_MAX`, the `k`-fold halving of `CalcPyrDownScaleFactor` in `int` arithmetic gives
`⌈x / 2^k⌉`, which is at least 1; its conversion to `float` is not zero, so the division is
never by zero; from level 1 on the result is the pair of `float` quotients by these values; and
the call returns a pair of finite components, each between 1 and `2^k`. -/
theorem C28_halving_is_ceiling (k x y : Int) (hx : 1 ≤ x) (hx2 : x < 2 ^ 31 - 1)
    (hy : 1 ≤ y) (hy2 : y < 2 ^ 31 - 1) (hk : 0 ≤ k) (hk2 : k < 2 ^ 31 - 1) :
    (halveInt32^[k.toNat] x = ⌈(x : ℚ) / 2 ^ k⌉ ∧ 1 ≤ ⌈(x : ℚ) / 2 ^ k⌉) ∧
    (halveInt32^[k.toNat] y = ⌈(y : ℚ) / 2 ^ k⌉ ∧ 1 ≤ ⌈(y : ℚ) / 2 ^ k⌉) ∧
    (intToFloat ⌈(x : ℚ) / 2 ^ k⌉ ≠ FloatValue.finite 0 ∧
      intToFloat ⌈(y : ℚ) / 2 ^ k⌉ ≠ FloatValue.finite 0) ∧
    (1 ≤ k →
      CalcPyrDownScaleFactor k x y
        = some (FloatValue.div (intToFloat x) (intToFloat ⌈(x : ℚ) / 2 ^ k⌉),
            FloatValue.div (intToFloat y) (intToFloat ⌈(y : ℚ) / 2 ^ k⌉))) ∧
    ∃ a b : ℚ,
      CalcPyrDownScaleFactor k x y = some (FloatValue.finite a, FloatValue.finite b) ∧
      (1 ≤ a ∧ a ≤ 2 ^ k) ∧ (1 ≤ b ∧ b ≤ 2 ^ k) := by
  have e2 : (2 : ℚ) ^ k = 2 ^ k.toNat := by
    rw [← zpow_natCast, Int.toNat_of_nonneg hk]
  rw [e2]
  have ex := iterate_halvedSize_eq_ceil k.toNat x
  have ey := iterate_halvedSize_eq_ceil k.toNat y
  have px := iterate_halvedSize_pos k.toNat x hx
  have py := iterate_halvedSize_pos k.toNat y hy
  have lx := iterate_halvedSize_le k.toNat x hx
  have ly := iterate_halvedSize_le k.toNat y hy
  have e := CalcPyrDownScaleFactor_eq k x y hk2 hx hx2 hy hy2
  have nz : ∀ n : Int, 1 ≤ n → n ≤ 2 ^ 31 → intToFloat n ≠ FloatValue.finite 0 := by
    intro n h1 h2
    obtain ⟨a, b, -⟩ := intToFloat_eq n h1 h2
    rw [a]
    intro h
    injection h with h
    linarith
  obtain ⟨a1, a2, a3, -, -⟩ := scale_component x k.toNat hx hx2
  obtain ⟨b1, b2, b3, -, -⟩ := scale_component y k.toNat hy hy2
  rw [← ex, ← ey]
  refine ⟨⟨iterate_halveInt32_eq _ x hx hx2, px⟩, ⟨iterate_halveInt32_eq _ y hy hy2, py⟩,
    ⟨nz _ px (by norm_num at hx2 ⊢; omega), nz _ py (by norm_num at hy2 ⊢; omega)⟩, ?_, ?_⟩
  · intro h1
    rw [e, if_neg (by omega)]
  · by_cases h1 : k < 1
    · have hk0 : k.toNat = 0 := by omega
      rw [e, if_pos h1, hk0]
      exact ⟨1, 1, rfl, by norm_num, by norm_num⟩
    · rw [e, if_neg h1, a1, b1]
      exact ⟨_, _, rfl, ⟨a2, a3⟩, ⟨b2, b3⟩⟩

/-- C28 as amended at level 2 of a 641 x 481 frame: the halved sizes are 161 and 121. -/
theorem C28_halving_is_ceiling_witness :
    (halveInt32^[(2 : Int).toNat] 641 = 161 ∧ halveInt32^[(2 : Int).toNat] 481 = 121) ∧
    ((halveInt32^[(2 : Int).toNat] 641 = ⌈((641 : Int) : ℚ) / 2 ^ (2 : Int)⌉ ∧
        1 ≤ ⌈((641 : Int) : ℚ) / 2 ^ (2 : Int)⌉) ∧
      (halveInt32^[(2 : Int).toNat] 481 = ⌈((481 : Int) : ℚ) / 2 ^ (2 : Int)⌉ ∧
        1 ≤ ⌈((481 : Int) : ℚ) / 2 ^ (2 : Int)⌉) ∧
      (intToFloat ⌈((641 : Int) : ℚ) / 2 ^ (2 : Int)⌉ ≠ FloatValue.finite 0 ∧
        intToFloat ⌈((481 : Int) : ℚ) / 2 ^ (2 : Int)⌉ ≠ FloatValue.finite 0) ∧
      ((1 : Int) ≤ 2 →
        CalcPyrDownScaleFactor 2 641 481
          = some (FloatValue.div (intToFloat 641) (intToFloat ⌈((641 : Int) : ℚ) / 2 ^ (2 : Int)⌉),
              FloatValue.div (intToFloat 481)
                (intToFloat ⌈((481 : Int) : ℚ) / 2 ^ (2 : Int)⌉))) ∧
      ∃ a b : ℚ,
        CalcPyrDownScaleFactor 2 641 481 = some (FloatValue.finite a, FloatValue.finite b) ∧
        (1 ≤ a ∧ a ≤ 2 ^ (2 : Int)) ∧ (1 ≤ b ∧ b ≤ 2 ^ (2 : Int))) :=
  ⟨by decide!, C28_halving_is_ceiling 2 641 481 (by decide) (by decide) (by decide) (by decide) (by decide)
    (by decide)⟩

/-- Counterexample to C28 as stated: for `x = INT_MAX` the increment `xScaled + 1` wraps around,
the halving gives `-2^30` instead of `⌈x / 2⌉ = 2^30`, and the component `CalcPyrDownScaleFactor`
returns at level 1 is `-2`, which is not in `[1, 2]`. -/
theorem C28_counterexample :
    halveInt32 2147483647 = -1073741824 ∧
    ⌈((2147483647 : Int) : ℚ) / 2 ^ (1 : Int)⌉ = 1073741824 ∧
    CalcPyrDownScaleFactor 1 2147483647 1
      = some (FloatValue.finite (-2), FloatValue.finite 1) ∧
    ¬ (1 : ℚ) ≤ -2 := by
  refine ⟨by decide!, ?_, by decide!, by norm_num⟩
  rw [Int.ceil_eq_iff]
  norm_num

/-! ## A negative `minRequiredDetectedFeatures` -/

/-- A negative `int` converted to `size_t` is at least `2^63`. -/
theorem toSizeT_neg (v : Int) (hv : v < 0) (hmin : -2 ^ 31 ≤ v) :
    2 ^ 63 ≤ toSizeT v := by
  unfold toSizeT
  norm_num at hmin ⊢
  omega

/-- When `minRequiredDetectedFeatures` converts to a `size_t` that no matcher result reaches,
the loop of `MatchFeatures` never updates its locals. -/
theorem MatchFeaturesLoop_none (cv : Collaborators) (v : Int) (fs : List KeyPoint) (d : Mat)
    (hlen : ∀ d1 d2, (cv.MatchFeatures d1 d2).length < 2 ^ 63) (hv : 2 ^ 63 ≤ toSizeT v)
    (ts : List TrackableInfo) (i : Nat) (st : MatchState) :
    MatchFeaturesLoop cv v fs d ts i st = st := by
  induction ts generalizing i st with
  | nil => rfl
  | cons t ts ih =>
    unfold MatchFeaturesLoop
    have hstep : MatchFeaturesStep cv v fs d st i t = st := by
      unfold MatchFeaturesStep
      have := hlen d t._descriptors
      split
      · rw [if_neg (by omega)]
      · rfl
    rw [hstep, ih]

/-- C29: after `SetMinRequiredDetectedFeatures(v)` with a negative `int` `v`, and with matcher
results of fewer than `2^63` elements (what a `std::vector` can hold), the unsigned test
`matches.size() > minRequiredDetectedFeatures` of `MatchFeatures` is false for every trackable
and `MatchFeatures` detects nothing and changes nothing, although the signed test of
`ProcessFrame` on the feature count passes for every frame, so that the feature matching phase
computes descriptors and calls `MatchFeatures` whenever the cap allows. -/
theorem C29_negative_minimum_blocks_matching (cv : Collaborators) (s : PlanarTrackerImpl)
    (v : Int) (fs : List KeyPoint) (d : Mat) (frame : Image)
    (hv : v < 0) (hmin : -2 ^ 31 ≤ v)
    (hlen : ∀ d1 d2, (cv.MatchFeatures d1 d2).length < 2 ^ 63) :
    (∀ t : TrackableInfo,
      ¬ (cv.MatchFeatures d t._descriptors).length
          > toSizeT (s.SetMinRequiredDetectedFeatures v).minRequiredDetectedFeatures) ∧
    MatchFeatures cv (s.SetMinRequiredDetectedFeatures v) fs d
      = (s.SetMinRequiredDetectedFeatures v, []) ∧
    ((cv.DetectFeatures (detectionFrame cv (s.SetMinRequiredDetectedFeatures v) frame)
        (CreateFeatureMask (s.SetMinRequiredDetectedFeatures v))).length : Int)
      > (s.SetMinRequiredDetectedFeatures v).minRequiredDetectedFeatures ∧
    (s._currentlyTrackedMarkers < s._maxNumberOfMarkersToTrack →
      ProcessFrameDetect cv (s.SetMinRequiredDetectedFeatures v) frame
        = (s.SetMinRequiredDetectedFeatures v, [Event.CalcDescriptors, Event.MatchFeatures])) := by
  have hsz := toSizeT_neg v hv hmin
  have hm : (s.SetMinRequiredDetectedFeatures v).minRequiredDetectedFeatures = v := rfl
  have hmf : ∀ fs d, MatchFeatures cv (s.SetMinRequiredDetectedFeatures v) fs d
      = (s.SetMinRequiredDetectedFeatures v, []) := by
    intro fs d
    unfold MatchFeatures MatchFeaturesBest
    rw [hm, MatchFeaturesLoop_none cv v fs d hlen hsz]
    simp
  have hpos : ∀ n : Nat, (n : Int) > (s.SetMinRequiredDetectedFeatures v).minRequiredDetectedFeatures := by
    intro n; rw [hm]; omega
  refine ⟨?_, hmf fs d, hpos _, ?_⟩
  · intro t
    rw [hm]
    have := hlen d t._descriptors
    omega
  · intro hc
    unfold ProcessFrameDetect
    have hc' : (s.SetMinRequiredDetectedFeatures v)._currentlyTrackedMarkers
        < (s.SetMinRequiredDetectedFeatures v)._maxNumberOfMarkersToTrack := hc
    rw [if_pos hc']
    dsimp only
    rw [if_pos (hpos _), hmf]
    rfl

/-- C29 for the value -1 and collaborators with which a marker is detected under the default
threshold. -/
theorem C29_negative_minimum_blocks_matching_witness :
    (∀ t : TrackableInfo,
      ¬ (Examples.cvDetect.MatchFeatures [] t._descriptors).length
          > toSizeT (Examples.oneMarker.SetMinRequiredDetectedFeatures
              (-1)).minRequiredDetectedFeatures) ∧
    MatchFeatures Examples.cvDetect (Examples.oneMarker.SetMinRequiredDetectedFeatures (-1))
        (List.replicate 51 default) []
      = (Examples.oneMarker.SetMinRequiredDetectedFeatures (-1), []) ∧
    ((Examples.cvDetect.DetectFeatures
        (detectionFrame Examples.cvDetect
          (Examples.oneMarker.SetMinRequiredDetectedFeatures (-1)) Examples.frame)
        (CreateFeatureMask (Examples.oneMarker.SetMinRequiredDetectedFeatures (-1)))).length : Int)
      > (Examples.oneMarker.SetMinRequiredDetectedFeatures (-1)).minRequiredDetectedFeatures ∧
    (Examples.oneMarker._currentlyTrackedMarkers < Examples.oneMarker._maxNumberOfMarkersToTrack →
      ProcessFrameDetect Examples.cvDetect
          (Examples.oneMarker.SetMinRequiredDetectedFeatures (-1)) Examples.frame
        = (Examples.oneMarker.SetMinRequiredDetectedFeatures (-1),
          [Event.CalcDescriptors, Event.MatchFeatures])) :=
  C29_negative_minimum_blocks_matching Examples.cvDetect Examples.oneMarker (-1)
    (List.replicate 51 default) [] Examples.frame (by decide) (by decide)
    (fun _ _ => by
      show (List.replicate 51 Examples.goodMatch).length < 2 ^ 63
      rw [List.length_replicate]
      norm_num)

/-! ## The configuration string of `arwStartRunningJS` -/

/-- C30: for `width = height = -2147483648` the configuration string has 50 characters, so
`sprintf` writes 51 bytes into the 50-byte buffer; the same happens for `-1000000000`, the
negative value of least magnitude with eleven characters. With only one such value the string
and its NUL fill the buffer exactly, and for the largest positive values 49 bytes are written. -/
theorem C30_buffer_overflow :
    configString (-2147483648) (-2147483648)
      = "-module=Web -width=-2147483648 -height=-2147483648" ∧
    bytesWritten (-2147483648) (-2147483648) = 51 ∧
    bufferSize < bytesWritten (-2147483648) (-2147483648) ∧
    bufferSize < bytesWritten (-1000000000) (-1000000000) ∧
    bytesWritten (-999999999) (-2147483648) = bufferSize ∧
    bytesWritten 2147483647 2147483647 = 49 := by
  decide

/-! ## The loop counter of `CalcPyrDownScaleFactor` at the level `INT_MAX` -/

theorem wrapInt32_le (n : Int) : wrapInt32 n ≤ 2 ^ 31 - 1 := by
  unfold wrapInt32
  norm_num
  omega

theorem CalcPyrDownScaleFactorLoop_never_ends (x y : Int) (fuel : Nat) (i xs ys : Int)
    (ret : FloatValue × FloatValue) (hi : i ≤ 2 ^ 31 - 1) :
    CalcPyrDownScaleFactorLoop (2 ^ 31 - 1) x y fuel i xs ys ret = none := by
  induction fuel generalizing i xs ys ret with
  | zero => rfl
  | succ fuel ih =>
    unfold CalcPyrDownScaleFactorLoop
    rw [if_pos hi]
    exact ih _ _ _ _ (wrapInt32_le _)

/-- For the level `INT_MAX` the loop of `CalcPyrDownScaleFactor` does not end: its counter wraps
around instead of exceeding the level. -/
theorem CalcPyrDownScaleFactor_INT_MAX (x y : Int) :
    CalcPyrDownScaleFactor (2 ^ 31 - 1) x y = none :=
  CalcPyrDownScaleFactorLoop_never_ends x y _ 1 x y _ (by norm_num)

/-! ## The square root and the template pyramid level in `float` arithmetic -/

theorem sqrtAux_spec (b r n : Nat) (h1 : r * r ≤ n) (h2 : n < (r + 2 ^ b) * (r + 2 ^ b)) :
    sqrtAux b r n * sqrtAux b r n ≤ n ∧ n < (sqrtAux b r n + 1) * (sqrtAux b r n + 1) := by
  induction b generalizing r with
  | zero => simpa [sqrtAux] using ⟨h1, h2⟩
  | succ b ih =>
    unfold sqrtAux
    split_ifs with h
    · apply ih _ h
      have : r + 2 ^ b + 2 ^ b = r + 2 ^ (b + 1) := by rw [pow_succ]; omega
      rw [this]; exact h2
    · exact ih _ h1 (not_le.mp h)

/-- The integer square root: `natSqrt n` is the greatest natural number whose square is at most
`n`. -/
theorem natSqrt_spec (n : Nat) :
    natSqrt n * natSqrt n ≤ n ∧ n < (natSqrt n + 1) * (natSqrt n + 1) := by
  unfold natSqrt
  apply sqrtAux_spec
  · simp
  · rw [Nat.zero_add, ← pow_two, ← pow_mul]
    rcases Nat.eq_zero_or_pos n with h0 | hpos
    · subst h0; positivity
    · obtain ⟨-, h⟩ := natLog2_spec n hpos
      refine lt_of_lt_of_le h (Nat.pow_le_pow_right (by norm_num) ?_)
      omega

theorem roundSqrt_eq (s : ℚ) :
    roundSqrt s
      = if s < (((natSqrt ⌊s⌋.toNat : Int) : ℚ) + 1 / 2) * (((natSqrt ⌊s⌋.toNat : Int) : ℚ) + 1 / 2)
        then (natSqrt ⌊s⌋.toNat : Int)
        else if (((natSqrt ⌊s⌋.toNat : Int) : ℚ) + 1 / 2)
            * (((natSqrt ⌊s⌋.toNat : Int) : ℚ) + 1 / 2) < s
          then (natSqrt ⌊s⌋.toNat : Int) + 1
        else if (natSqrt ⌊s⌋.toNat : Int) % 2 = 0 then (natSqrt ⌊s⌋.toNat : Int)
          else (natSqrt ⌊s⌋.toNat : Int) + 1 := rfl

/-- The integer square root of the integral part brackets the square root. -/
theorem natSqrt_floor_bounds (s : ℚ) (h : 0 ≤ s) :
    ((natSqrt ⌊s⌋.toNat : Int) : ℚ) * ((natSqrt ⌊s⌋.toNat : Int) : ℚ) ≤ s ∧
    s < (((natSqrt ⌊s⌋.toNat : Int) : ℚ) + 1) * (((natSqrt ⌊s⌋.toNat : Int) : ℚ) + 1) := by
  have hf : 0 ≤ ⌊s⌋ := Int.floor_nonneg.mpr h
  obtain ⟨a, b⟩ := natSqrt_spec ⌊s⌋.toNat
  have e : ((⌊s⌋.toNat : ℕ) : ℤ) = ⌊s⌋ := Int.toNat_of_nonneg hf
  generalize natSqrt ⌊s⌋.toNat = m at a b
  have a' : ((m * m : ℕ) : ℤ) ≤ ⌊s⌋ := by rw [← e]; exact_mod_cast a
  have b' : ⌊s⌋ + 1 ≤ (((m + 1) * (m + 1) : ℕ) : ℤ) := by
    rw [← e]; exact_mod_cast b
  have f1 := Int.floor_le s
  have f2 := Int.lt_floor_add_one s
  have a'' : (((m * m : ℕ) : ℤ) : ℚ) ≤ (⌊s⌋ : ℚ) := by exact_mod_cast a'
  have b'' : ((⌊s⌋ + 1 : ℤ) : ℚ) ≤ ((((m + 1) * (m + 1) : ℕ) : ℤ) : ℚ) := by exact_mod_cast b'
  push_cast at a'' b'' ⊢
  constructor
  · linarith
  · linarith

/-- The value `roundSqrt s` is an integer nearest to the square root of `s`. -/
theorem roundSqrt_spec (s : ℚ) (h : 0 ≤ s) :
    0 ≤ roundSqrt s ∧
    s ≤ ((roundSqrt s : ℚ) + 1 / 2) * ((roundSqrt s : ℚ) + 1 / 2) ∧
    (((roundSqrt s : ℚ) - 1 / 2) * ((roundSqrt s : ℚ) - 1 / 2) ≤ s ∨ roundSqrt s = 0) := by
  obtain ⟨a, b⟩ := natSqrt_floor_bounds s h
  rw [roundSqrt_eq]
  have hm : (0 : ℤ) ≤ (natSqrt ⌊s⌋.toNat : Int) := Int.natCast_nonneg _
  generalize (natSqrt ⌊s⌋.toNat : Int) = m at *
  have hm' : (0 : ℚ) ≤ (m : ℚ) := by exact_mod_cast hm
  have hcase : m = 0 ∨ (1 : ℚ) ≤ (m : ℚ) := by
    rcases eq_or_lt_of_le hm with h0 | h1
    · exact Or.inl h0.symm
    · right; exact_mod_cast h1
  split_ifs with h1 h2 h3
  · refine ⟨hm, h1.le, ?_⟩
    rcases hcase with h0 | h1'
    · exact Or.inr h0
    · left; nlinarith
  · refine ⟨by omega, ?_, Or.inl ?_⟩
    · push_cast; nlinarith
    · push_cast; nlinarith
  · refine ⟨hm, not_lt.mp h2, ?_⟩
    rcases hcase with h0 | h1'
    · exact Or.inr h0
    · left; nlinarith
  · refine ⟨by omega, ?_, Or.inl ?_⟩
    · push_cast; nlinarith
    · push_cast
      have := not_lt.mp h1
      nlinarith

theorem roundSqrt_mono (s1 s2 : ℚ) (h1 : 0 ≤ s1) (h : s1 ≤ s2) :
    roundSqrt s1 ≤ roundSqrt s2 := by
  by_contra hcon
  push_neg at hcon
  rcases eq_or_lt_of_le h with heq | hlt
  · rw [heq] at hcon; exact lt_irrefl _ hcon
  · obtain ⟨a0, -, a2⟩ := roundSqrt_spec s1 h1
    obtain ⟨b0, b1, -⟩ := roundSqrt_spec s2 (le_trans h1 h)
    generalize roundSqrt s1 = r1 at *
    generalize roundSqrt s2 = r2 at *
    have hr : (r2 : ℚ) + 1 ≤ (r1 : ℚ) := by exact_mod_cast hcon
    have hr2 : (0 : ℚ) ≤ (r2 : ℚ) := by exact_mod_cast b0
    rcases a2 with a2 | a2
    · nlinarith
    · omega

/-- On the square of a natural number `roundSqrt` gives that number. -/
theorem roundSqrt_sq (a : ℕ) : roundSqrt ((a : ℚ) * a) = a := by
  obtain ⟨r0, r1, r2⟩ := roundSqrt_spec ((a : ℚ) * a) (by positivity)
  generalize roundSqrt ((a : ℚ) * a) = r at *
  have ha : (0 : ℚ) ≤ (a : ℚ) := by positivity
  have hr : (0 : ℚ) ≤ (r : ℚ) := by exact_mod_cast r0
  have u : (a : ℚ) ≤ (r : ℚ) + 1 / 2 := by
    by_contra hcon
    push_neg at hcon
    nlinarith
  have l : (r : ℚ) ≤ (a : ℚ) + 1 / 2 := by
    rcases r2 with r2 | r2
    · by_contra hcon
      push_neg at hcon
      nlinarith
    · rw [r2]; push_cast; linarith
  have u' : ((a : ℤ) : ℚ) < ((r + 1 : ℤ) : ℚ) := by push_cast; linarith
  have l' : ((r : ℤ) : ℚ) < (((a : ℤ) + 1 : ℤ) : ℚ) := by push_cast; linarith
  have u'' : (a : ℤ) < r + 1 := by exact_mod_cast u'
  have l'' : r < (a : ℤ) + 1 := by exact_mod_cast l'
  omega

theorem le_roundSqrt (a : ℕ) (s : ℚ) (h : (a : ℚ) * a ≤ s) : (a : ℤ) ≤ roundSqrt s := by
  have := roundSqrt_mono _ s (by positivity) h
  rwa [roundSqrt_sq] at this

theorem roundSqrt_le (a : ℕ) (s : ℚ) (h0 : 0 ≤ s) (h : s ≤ (a : ℚ) * a) : roundSqrt s ≤ (a : ℤ) := by
  have := roundSqrt_mono s _ h0 h
  rwa [roundSqrt_sq] at this

theorem pow2_two_mul (u : ℤ) : pow2 (2 * u) = pow2 u * pow2 u := by
  rw [two_mul, pow2_add]

/-- For an argument from `2 ^ (-149)` on, the exponent of `sqrtToGrid` is not clamped and the
scaled argument lies between `2 ^ 46` and `2 ^ 48`. -/
theorem sqrtToGrid_scaled (q : ℚ) (h : pow2 (-149) ≤ q) :
    sqrtToGrid q = (roundSqrt (q / pow2 (2 * (floorLog2 q / 2 - 23))) : ℚ)
        * pow2 (floorLog2 q / 2 - 23) ∧
    (((2 ^ 23 : ℕ) : ℚ) * ((2 ^ 23 : ℕ) : ℚ) ≤ q / pow2 (2 * (floorLog2 q / 2 - 23))) ∧
    q / pow2 (2 * (floorLog2 q / 2 - 23)) ≤ ((2 ^ 24 : ℕ) : ℚ) * ((2 ^ 24 : ℕ) : ℚ) := by
  have hq : 0 < q := lt_of_lt_of_le (pow2_pos _) h
  have hE := floorLog2_ge_of_le q _ h
  obtain ⟨s1, s2⟩ := floorLog2_spec q hq
  have hu : max (floorLog2 q / 2 - 23) (-149) = floorLog2 q / 2 - 23 := by
    apply max_eq_left; omega
  have hp := pow2_pos (2 * (floorLog2 q / 2 - 23))
  refine ⟨by unfold sqrtToGrid; rw [hu], ?_, ?_⟩
  · rw [le_div_iff₀ hp]
    have e : ((2 ^ 23 : ℕ) : ℚ) * ((2 ^ 23 : ℕ) : ℚ) = pow2 46 := by
      rw [pow2_eq]; norm_num
    rw [e, ← pow2_add]
    exact le_trans (pow2_le_pow2 (by omega)) s1
  · rw [div_le_iff₀ hp]
    have e : ((2 ^ 24 : ℕ) : ℚ) * ((2 ^ 24 : ℕ) : ℚ) = pow2 48 := by
      rw [pow2_eq]; norm_num
    rw [e, ← pow2_add]
    exact le_trans s2.le (pow2_le_pow2 (by omega))

/-- The value `sqrtToGrid q` is the correctly rounded square root: a multiple `m * 2 ^ u` of the
unit in the last place with 24 significant bits, at most half a unit from the square root. -/
theorem sqrtToGrid_spec (q : ℚ) (h : pow2 (-149) ≤ q) :
    ∃ m : ℤ, sqrtToGrid q = (m : ℚ) * pow2 (floorLog2 q / 2 - 23) ∧
      2 ^ 23 ≤ m ∧ m ≤ 2 ^ 24 ∧
      (sqrtToGrid q - pow2 (floorLog2 q / 2 - 23) / 2)
          * (sqrtToGrid q - pow2 (floorLog2 q / 2 - 23) / 2) ≤ q ∧
      q ≤ (sqrtToGrid q + pow2 (floorLog2 q / 2 - 23) / 2)
          * (sqrtToGrid q + pow2 (floorLog2 q / 2 - 23) / 2) := by
  obtain ⟨e, b1, b2⟩ := sqrtToGrid_scaled q h
  have hq : 0 < q := lt_of_lt_of_le (pow2_pos _) h
  have hp := pow2_pos (floorLog2 q / 2 - 23)
  have hS : 0 ≤ q / pow2 (2 * (floorLog2 q / 2 - 23)) := div_nonneg hq.le (pow2_pos _).le
  have m1 := le_roundSqrt _ _ b1
  have m2 := roundSqrt_le _ _ hS b2
  obtain ⟨-, r1, r2⟩ := roundSqrt_spec _ hS
  have hqS : q = q / pow2 (2 * (floorLog2 q / 2 - 23)) * (pow2 (floorLog2 q / 2 - 23)
      * pow2 (floorLog2 q / 2 - 23)) := by
    rw [← pow2_two_mul, div_mul_cancel₀ _ (pow2_pos _).ne']
  generalize q / pow2 (2 * (floorLog2 q / 2 - 23)) = S at *
  generalize roundSqrt S = m at *
  generalize pow2 (floorLog2 q / 2 - 23) = P at *
  refine ⟨m, e, by exact_mod_cast m1, by exact_mod_cast m2, ?_, ?_⟩
  · rw [e]
    rcases r2 with r2 | r2
    · have : ((m : ℚ) * P - P / 2) * ((m : ℚ) * P - P / 2)
          = (((m : ℚ) - 1 / 2) * ((m : ℚ) - 1 / 2)) * (P * P) := by ring
      rw [this]
      conv_rhs => rw [hqS]
      exact mul_le_mul_of_nonneg_right r2 (by positivity)
    · rw [r2] at m1
      norm_num at m1
  · rw [e]
    have : ((m : ℚ) * P + P / 2) * ((m : ℚ) * P + P / 2)
        = (((m : ℚ) + 1 / 2) * ((m : ℚ) + 1 / 2)) * (P * P) := by ring
    rw [this]
    conv_lhs => rw [hqS]
    exact mul_le_mul_of_nonneg_right r1 (by positivity)

theorem sqrtToGrid_mono (q1 q2 : ℚ) (h1 : pow2 (-149) ≤ q1) (h : q1 ≤ q2) :
    sqrtToGrid q1 ≤ sqrtToGrid q2 := by
  have hq1 : 0 < q1 := lt_of_lt_of_le (pow2_pos _) h1
  have h2 : pow2 (-149) ≤ q2 := le_trans h1 h
  have hE := floorLog2_mono q1 q2 hq1 h
  obtain ⟨e1, a1, a2⟩ := sqrtToGrid_scaled q1 h1
  obtain ⟨e2, b1, b2⟩ := sqrtToGrid_scaled q2 h2
  have hS1 : 0 ≤ q1 / pow2 (2 * (floorLog2 q1 / 2 - 23)) :=
    div_nonneg hq1.le (pow2_pos _).le
  have hS2 : 0 ≤ q2 / pow2 (2 * (floorLog2 q2 / 2 - 23)) :=
    div_nonneg (le_trans hq1.le h) (pow2_pos _).le
  have hu : floorLog2 q1 / 2 ≤ floorLog2 q2 / 2 := by omega
  rcases lt_or_eq_of_le hu with hlt | heq
  · have m2 := roundSqrt_le _ _ hS1 a2
    have m1 := le_roundSqrt _ _ b1
    rw [e1, e2]
    have c1 : (roundSqrt (q1 / pow2 (2 * (floorLog2 q1 / 2 - 23))) : ℚ) ≤ ((2 ^ 24 : ℕ) : ℤ) := by
      exact_mod_cast m2
    have c2 : (((2 ^ 23 : ℕ) : ℤ) : ℚ)
        ≤ (roundSqrt (q2 / pow2 (2 * (floorLog2 q2 / 2 - 23))) : ℚ) := by
      exact_mod_cast m1
    have p1 := pow2_pos (floorLog2 q1 / 2 - 23)
    have p2 := pow2_pos (floorLog2 q2 / 2 - 23)
    have hp : (((2 ^ 24 : ℕ) : ℤ) : ℚ) * pow2 (floorLog2 q1 / 2 - 23)
        ≤ (((2 ^ 23 : ℕ) : ℤ) : ℚ) * pow2 (floorLog2 q2 / 2 - 23) := by
      have e24 : (((2 ^ 24 : ℕ) : ℤ) : ℚ) = pow2 24 := by rw [pow2_eq]; norm_num
      have e23 : (((2 ^ 23 : ℕ) : ℤ) : ℚ) = pow2 23 := by rw [pow2_eq]; norm_num
      rw [e24, e23, ← pow2_add, ← pow2_add]
      exact pow2_le_pow2 (by omega)
    calc _ ≤ (((2 ^ 24 : ℕ) : ℤ) : ℚ) * pow2 (floorLog2 q1 / 2 - 23) :=
          mul_le_mul_of_nonneg_right c1 p1.le
      _ ≤ (((2 ^ 23 : ℕ) : ℤ) : ℚ) * pow2 (floorLog2 q2 / 2 - 23) := hp
      _ ≤ _ := mul_le_mul_of_nonneg_right c2 p2.le
  · rw [e1, e2, heq]
    apply mul_le_mul_of_nonneg_right _ (pow2_pos _).le
    have := roundSqrt_mono _ _ (by rw [← heq]; exact hS1)
      (div_le_div_of_nonneg_right h (pow2_pos (2 * (floorLog2 q2 / 2 - 23))).le)
    exact_mod_cast this

theorem roundToGrid_nonpos (q : ℚ) (h : q ≤ 0) : roundToGrid q ≤ 0 := by
  by_cases h0 : q = 0
  · rw [h0, roundToGrid_zero]
  · rw [roundToGrid_eq q h0]
    have h1 : q / pow2 (ulpExponent q) ≤ ((0 : ℤ) : ℚ) := by
      rw [Int.cast_zero]
      exact div_nonpos_of_nonpos_of_nonneg h (pow2_pos _).le
    have h2 : (roundHalfEven (q / pow2 (ulpExponent q)) : ℚ) ≤ 0 := by
      exact_mod_cast roundHalfEven_le _ _ h1
    exact mul_nonpos_of_nonpos_of_nonneg h2 (pow2_pos _).le

/-- A positive rounded value is at least `2 ^ (-149)` and is left unchanged by the rounding. -/
theorem roundToGrid_pos_spec (p : ℚ) (h : 0 < roundToGrid p) :
    pow2 (-149) ≤ roundToGrid p ∧ roundToGrid (roundToGrid p) = roundToGrid p := by
  have hp : 0 < p := by
    by_contra hcon
    exact absurd (roundToGrid_nonpos p (not_lt.mp hcon)) (not_le.mpr h)
  refine ⟨?_, roundToGrid_idem p hp.le⟩
  rw [roundToGrid_eq p hp.ne'] at h ⊢
  have hP := pow2_pos (ulpExponent p)
  have hM : (0 : ℚ) < (roundHalfEven (p / pow2 (ulpExponent p)) : ℚ) := by
    by_contra hcon
    push_neg at hcon
    have := mul_nonpos_of_nonpos_of_nonneg hcon hP.le
    linarith
  have hM' : (1 : ℚ) ≤ (roundHalfEven (p / pow2 (ulpExponent p)) : ℚ) := by
    have : (0 : ℤ) < roundHalfEven (p / pow2 (ulpExponent p)) := by exact_mod_cast hM
    exact_mod_cast this
  calc pow2 (-149) ≤ pow2 (ulpExponent p) := pow2_le_pow2 (ulpExponent_ge p)
    _ = 1 * pow2 (ulpExponent p) := (one_mul _).symm
    _ ≤ _ := mul_le_mul_of_nonneg_right hM' hP.le

/-- No value left unchanged by the rounding lies strictly between `a * 2 ^ u` and
`(a + 1) * 2 ^ u` when these lie in the binade whose unit in the last place is `2 ^ u`. -/
theorem grid_gap (d : ℚ) (a : ℤ) (e : ℤ) (hd : roundToGrid d = d) (he : -126 ≤ e)
    (h1 : pow2 e ≤ d) (h2 : d < pow2 (e + 1))
    (hlo : (a : ℚ) * pow2 (e - 23) < d) : ((a : ℚ) + 1) * pow2 (e - 23) ≤ d := by
  have hn : pow2 (-126) ≤ d := le_trans (pow2_le_pow2 he) h1
  have hfl := floorLog2_unique d e h1 h2
  rw [roundToGrid_normal d hn, hfl] at hd
  have hP := pow2_pos (e - 23)
  generalize roundHalfEven (d / pow2 (e - 23)) = M at hd
  rw [← hd] at hlo ⊢
  have : (a : ℚ) < (M : ℚ) := lt_of_mul_lt_mul_right hlo hP.le
  have : a < M := by exact_mod_cast this
  have : ((a + 1 : ℤ) : ℚ) ≤ (M : ℚ) := by exact_mod_cast (by omega : a + 1 ≤ M)
  push_cast at this
  exact mul_le_mul_of_nonneg_right this hP.le

theorem truncToInt_of_nonneg (v : ℚ) (h : 0 ≤ v) : truncToInt v = ⌊v⌋ := by
  unfold truncToInt
  rw [Rat.floor_def]
  exact Int.tdiv_eq_ediv (Rat.num_nonneg.mpr h) (Int.natCast_nonneg _)

theorem truncToInt_nonpos (v : ℚ) (h : v ≤ 0) : truncToInt v ≤ 0 := by
  unfold truncToInt
  have hn : v.num ≤ 0 := Rat.num_nonpos.mpr h
  obtain ⟨n, hn'⟩ : ∃ n : ℕ, v.num = -(n : ℤ) := ⟨v.num.toNat + (-v.num).toNat, by omega⟩
  rw [hn', Int.neg_tdiv]
  have : 0 ≤ Int.tdiv (n : ℤ) (v.den : ℤ) :=
    Int.tdiv_nonneg (Int.natCast_nonneg _) (Int.natCast_nonneg _)
  omega

/-- The computation of the template pyramid level for a determinant that converts to a positive
`float` `d`, with a `log2f` whose integral part is exact: `sqrtf` and the division give finite
positive values `s` and `r`, and the clamped level is the clamped binary exponent of `r`. -/
theorem templatePyrLevelOf_of_pos (cv : Collaborators) (H : Mat) (d : ℚ)
    (hd : doubleToFloat (cv.determinant H) = FloatValue.finite d) (hpos : 0 < d)
    (hlog : ∀ r : ℚ, 0 < r → ∃ v : ℚ, cv.log2fFinite r = FloatValue.finite v ∧
      (floorLog2 r : ℚ) ≤ v ∧ v < floorLog2 r + 1) :
    roundToGrid d = d ∧ pow2 (-149) ≤ d ∧
    sqrtf (doubleToFloat (cv.determinant H)) = FloatValue.finite (sqrtToGrid d) ∧
    0 < sqrtToGrid d ∧ pow2 (-64) ≤ 1 / sqrtToGrid d ∧
    FloatValue.div (FloatValue.finite 1) (FloatValue.finite (sqrtToGrid d))
      = FloatValue.finite (roundToGrid (1 / sqrtToGrid d)) ∧
    0 < roundToGrid (1 / sqrtToGrid d) ∧
    clampTemplatePyrLevel (cv.templatePyrLevelOf H)
      = clampTemplatePyrLevel (floorLog2 (roundToGrid (1 / sqrtToGrid d))) := by
  -- the determinant is finite and `d` is its rounding
  obtain ⟨p, hp, hgrid, hlt⟩ : ∃ p : ℚ, cv.determinant H = FloatValue.finite p ∧
      roundToGrid p = d ∧ |roundToGrid p| < pow2 128 := by
    cases hdet : cv.determinant H with
    | finite p =>
      rw [hdet] at hd
      have hd' : roundToFloat p = FloatValue.finite d := hd
      unfold roundToFloat at hd'
      by_cases hlt : |roundToGrid p| < pow2 128
      · rw [if_pos hlt] at hd'
        injection hd' with hd'
        exact ⟨p, rfl, hd', hlt⟩
      · rw [if_neg hlt] at hd'
        cases hd'
    | inf s => rw [hdet] at hd; cases hd
    | nan => rw [hdet] at hd; cases hd
  have hdlt : d < pow2 128 := by
    rw [← hgrid]; exact lt_of_le_of_lt (le_abs_self _) hlt
  obtain ⟨hd149, hidem⟩ := roundToGrid_pos_spec p (by rw [hgrid]; exact hpos)
  rw [hgrid] at hd149 hidem
  -- the square root
  have hs1 : pow2 (-75) ≤ sqrtToGrid d :=
    le_trans (by decide! : pow2 (-75) ≤ sqrtToGrid (pow2 (-149)))
      (sqrtToGrid_mono _ _ le_rfl hd149)
  have hs2 : sqrtToGrid d ≤ pow2 64 := by
    have := sqrtToGrid_mono d (pow2 128) hd149 hdlt.le
    rwa [(by decide! : sqrtToGrid (pow2 128) = pow2 64)] at this
  have hs0 : 0 < sqrtToGrid d := lt_of_lt_of_le (pow2_pos _) hs1
  have hsqrt : sqrtf (FloatValue.finite d) = FloatValue.finite (sqrtToGrid d) := by
    unfold sqrtf
    dsimp only
    rw [if_neg (not_lt.mpr hpos.le), if_neg hpos.ne',
      if_pos (lt_of_le_of_lt hs2 (pow2_lt_pow2_iff.mpr (by norm_num)))]
  -- the quotient
  have hq1 : pow2 (-64) ≤ 1 / sqrtToGrid d := by
    rw [le_div_iff₀ hs0]
    calc pow2 (-64) * sqrtToGrid d ≤ pow2 (-64) * pow2 64 :=
          mul_le_mul_of_nonneg_left hs2 (pow2_pos _).le
      _ = 1 := by rw [← pow2_add]; exact pow2_zero
  have hq2 : 1 / sqrtToGrid d ≤ pow2 75 := by
    rw [div_le_iff₀ hs0]
    calc (1 : ℚ) = pow2 75 * pow2 (-75) := by rw [← pow2_add]; exact pow2_zero.symm
      _ ≤ pow2 75 * sqrtToGrid d := mul_le_mul_of_nonneg_left hs1 (pow2_pos _).le
  have hr1 : pow2 (-64) ≤ roundToGrid (1 / sqrtToGrid d) := by
    have := roundToGrid_mono _ _ (pow2_le_pow2 (by norm_num : (-126 : ℤ) ≤ -64)) hq1
    rwa [roundToGrid_pow2 _ (by norm_num)] at this
  have hr2 : roundToGrid (1 / sqrtToGrid d) ≤ pow2 75 := by
    have := roundToGrid_mono _ _ (le_trans (pow2_le_pow2 (by norm_num : (-126 : ℤ) ≤ -64)) hq1)
      hq2
    rwa [roundToGrid_pow2 _ (by norm_num)] at this
  have hr0 : 0 < roundToGrid (1 / sqrtToGrid d) := lt_of_lt_of_le (pow2_pos _) hr1
  have hdiv : FloatValue.div (FloatValue.finite 1) (FloatValue.finite (sqrtToGrid d))
      = FloatValue.finite (roundToGrid (1 / sqrtToGrid d)) := by
    rw [FloatValue.div_finite _ _ hs0.ne']
    apply roundToFloat_of_lt
    rw [abs_of_pos hr0]
    exact lt_of_le_of_lt hr2 (pow2_lt_pow2_iff.mpr (by norm_num))
  refine ⟨hidem, hd149, by rw [hd]; exact hsqrt, hs0, hq1, hdiv, hr0, ?_⟩
  -- the logarithm and the conversion to `int`
  obtain ⟨v, hv, v1, v2⟩ := hlog _ hr0
  have hfl1 : -64 ≤ floorLog2 (roundToGrid (1 / sqrtToGrid d)) := floorLog2_ge_of_le _ _ hr1
  have hfl2 : floorLog2 (roundToGrid (1 / sqrtToGrid d)) < 76 :=
    floorLog2_lt_of_lt _ _ hr0 (lt_of_le_of_lt hr2 (pow2_lt_pow2_iff.mpr (by norm_num)))
  have hlevel : cv.templatePyrLevelOf H = truncToInt v := by
    unfold Collaborators.templatePyrLevelOf
    rw [hd, hsqrt, hdiv]
    have : cv.log2f (FloatValue.finite (roundToGrid (1 / sqrtToGrid d)))
        = cv.log2fFinite (roundToGrid (1 / sqrtToGrid d)) := by
      unfold Collaborators.log2f
      dsimp only
      rw [if_neg (not_lt.mpr hr0.le), if_neg hr0.ne']
    rw [this, hv]
    unfold Collaborators.floatToInt
    have c1 : (-(2 ^ 31) - 1 : ℚ) < v := by
      have : ((-64 : ℤ) : ℚ) ≤ (floorLog2 (roundToGrid (1 / sqrtToGrid d)) : ℚ) := by
        exact_mod_cast hfl1
      push_cast at this
      linarith
    have c2 : v < 2 ^ 31 := by
      have : (floorLog2 (roundToGrid (1 / sqrtToGrid d)) : ℚ) < ((76 : ℤ) : ℚ) := by
        exact_mod_cast hfl2
      push_cast at this
      linarith
    dsimp only
    rw [if_pos (And.intro c1 c2)]
  rw [hlevel]
  generalize floorLog2 (roundToGrid (1 / sqrtToGrid d)) = fl at *
  by_cases hfl : 0 ≤ fl
  · have hv0 : 0 ≤ v := le_trans (by exact_mod_cast hfl) v1
    rw [truncToInt_of_nonneg v hv0]
    have : ⌊v⌋ = fl := by
      rw [Int.floor_eq_iff]
      exact ⟨v1, v2⟩
    rw [this]
  · have hv0 : v ≤ 0 := by
      have : ((fl + 1 : ℤ) : ℚ) ≤ 0 := by exact_mod_cast (by omega : fl + 1 ≤ 0)
      push_cast at this
      linarith
    have t := truncToInt_nonpos v hv0
    rw [(clampTemplatePyrLevel_range _).2.2.1 t, (clampTemplatePyrLevel_range _).2.2.1 (by omega)]

/-- The thresholds of the template pyramid level in `float` arithmetic. For a determinant that
converts to a positive `float` `d`, and a `log2f` whose integral part is exact, the clamped level
is 2 up to one unit in the last place above `1/16`, 1 from the next `float` up to one unit in the
last place above `1/4`, and 0 from the next `float` on; every positive `float` lies in one of the
three ranges. -/
theorem templatePyrLevelOf_thresholds (cv : Collaborators) (H : Mat) (d : ℚ)
    (hd : doubleToFloat (cv.determinant H) = FloatValue.finite d) (hpos : 0 < d)
    (hlog : ∀ r : ℚ, 0 < r → ∃ v : ℚ, cv.log2fFinite r = FloatValue.finite v ∧
      (floorLog2 r : ℚ) ≤ v ∧ v < floorLog2 r + 1) :
    (d ≤ 8388609 / 134217728 → clampTemplatePyrLevel (cv.templatePyrLevelOf H) = 2) ∧
    (4194305 / 67108864 ≤ d → d ≤ 8388609 / 33554432 →
      clampTemplatePyrLevel (cv.templatePyrLevelOf H) = 1) ∧
    (4194305 / 16777216 ≤ d → clampTemplatePyrLevel (cv.templatePyrLevelOf H) = 0) ∧
    (d ≤ 8388609 / 134217728 ∨ (4194305 / 67108864 ≤ d ∧ d ≤ 8388609 / 33554432) ∨
      4194305 / 16777216 ≤ d) := by
  obtain ⟨hidem, hd149, -, hs0, hq1, -, hr0, hlevel⟩ := templatePyrLevelOf_of_pos cv H d hd hpos hlog
  rw [hlevel]
  -- the quotient is at least `2 ^ k` when the square root is at most `2 ^ (-k)`
  have lower : ∀ k : ℤ, 0 ≤ k → k ≤ 64 → sqrtToGrid d ≤ pow2 (-k) →
      k ≤ floorLog2 (roundToGrid (1 / sqrtToGrid d)) := by
    intro k k0 k1 hs
    apply floorLog2_ge_of_le
    have hq : pow2 k ≤ 1 / sqrtToGrid d := by
      rw [le_div_iff₀ hs0]
      calc pow2 k * sqrtToGrid d ≤ pow2 k * pow2 (-k) :=
            mul_le_mul_of_nonneg_left hs (pow2_pos _).le
        _ = 1 := by rw [← pow2_add, add_neg_cancel]; exact pow2_zero
    have := roundToGrid_mono _ _ (pow2_le_pow2 (by omega : (-126 : ℤ) ≤ k)) hq
    rwa [roundToGrid_pow2 _ (by omega)] at this
  -- the quotient is below `2 ^ k` when the square root is at least `c` with `fl (1 / c) < 2 ^ k`
  have upper : ∀ (k : ℤ) (c : ℚ), 0 < c → roundToGrid (1 / c) < pow2 k →
      c ≤ sqrtToGrid d → floorLog2 (roundToGrid (1 / sqrtToGrid d)) < k := by
    intro k c c0 hc hs
    apply floorLog2_lt_of_lt _ _ hr0
    exact lt_of_le_of_lt (roundToGrid_mono _ _
      (le_trans (pow2_le_pow2 (by norm_num : (-126 : ℤ) ≤ -64)) hq1)
      (one_div_le_one_div_of_le c0 hs)) hc
  have clamp2 : ∀ n : ℤ, 2 ≤ n → clampTemplatePyrLevel n = 2 := by
    intro n hn
    unfold clampTemplatePyrLevel k_OCVTTemplateMatchingMaxPyrLevel
    split_ifs <;> omega
  have e1 : sqrtToGrid (8388609 / 134217728) = pow2 (-2) := by decide!
  have e2 : sqrtToGrid (4194305 / 67108864) = 8388609 / 33554432 := by decide!
  have e3 : sqrtToGrid (8388609 / 33554432) = pow2 (-1) := by decide!
  have e4 : sqrtToGrid (4194305 / 16777216) = 8388609 / 16777216 := by decide!
  have e5 : roundToGrid (1 / (8388609 / 33554432)) < pow2 2 := by decide!
  have e6 : roundToGrid (1 / (8388609 / 16777216)) < pow2 1 := by decide!
  have lvl2 : d ≤ 8388609 / 134217728 →
      clampTemplatePyrLevel (floorLog2 (roundToGrid (1 / sqrtToGrid d))) = 2 := by
    intro h
    apply clamp2
    apply lower 2 (by norm_num) (by norm_num)
    rw [← e1]
    exact sqrtToGrid_mono _ _ hd149 h
  have lvl1 : 4194305 / 67108864 ≤ d → d ≤ 8388609 / 33554432 →
      clampTemplatePyrLevel (floorLog2 (roundToGrid (1 / sqrtToGrid d))) = 1 := by
    intro h1 h2
    have a1 : 1 ≤ floorLog2 (roundToGrid (1 / sqrtToGrid d)) := by
      apply lower 1 (by norm_num) (by norm_num)
      rw [← e3]
      exact sqrtToGrid_mono _ _ hd149 h2
    have a2 : floorLog2 (roundToGrid (1 / sqrtToGrid d)) < 2 := by
      apply upper 2 (8388609 / 33554432) (by norm_num) e5
      rw [← e2]
      exact sqrtToGrid_mono _ _ (by decide!) h1
    have : floorLog2 (roundToGrid (1 / sqrtToGrid d)) = 1 := by omega
    rw [this]
    decide
  have lvl0 : 4194305 / 16777216 ≤ d →
      clampTemplatePyrLevel (floorLog2 (roundToGrid (1 / sqrtToGrid d))) = 0 := by
    intro h
    have a2 : floorLog2 (roundToGrid (1 / sqrtToGrid d)) < 1 := by
      apply upper 1 (8388609 / 16777216) (by norm_num) e6
      rw [← e4]
      exact sqrtToGrid_mono _ _ (by decide!) h
    exact (clampTemplatePyrLevel_range _).2.2.1 (by omega)
  refine ⟨lvl2, lvl1, lvl0, ?_⟩
  -- between two neighbouring values of the grid there is no `float`
  by_cases c1 : d ≤ 8388609 / 134217728
  · exact Or.inl c1
  · right
    have g1 : (4194305 / 67108864 : ℚ) ≤ d := by
      by_cases hb : d < pow2 (-4 + 1)
      · have := grid_gap d 8388609 (-4) hidem (by norm_num)
          (le_trans (by decide!) (not_le.mp c1).le) hb
          (lt_of_le_of_lt (by decide!) (not_le.mp c1))
        exact le_trans (by decide!) this
      · exact le_trans (by decide!) (not_lt.mp hb)
    by_cases c2 : d ≤ 8388609 / 33554432
    · exact Or.inl ⟨g1, c2⟩
    · right
      by_cases hb : d < pow2 (-2 + 1)
      · have := grid_gap d 8388609 (-2) hidem (by norm_num)
          (le_trans (by decide!) (not_le.mp c2).le) hb
          (lt_of_le_of_lt (by decide!) (not_le.mp c2))
        exact le_trans (by decide!) this
      · exact le_trans (by decide!) (not_lt.mp hb)

end PlanarTracker
